import Mathlib

/-!
# Local coverage planner (tare_planner): embedding of `local_coverage_planner.cpp`

The planner is embedded function by function.  The collaborators whose code is
not part of `local_coverage_planner.cpp` (the viewpoint manager, the TSP solver,
`misc_utils_ns`, `exploration_path_ns::ExplorationPath`) are taken as parameters,
bundled in `ViewPointManager` and `Collaborators`.  The run-time counters (timers)
are wall-clock measurements and are left out.
-/

set_option linter.unusedVariables false

namespace local_coverage_planner_ns

/-! ## Data model -/

/-- Node types of `exploration_path_ns::NodeType` that the planner reads or writes. -/
inductive NodeType where
  | ROBOT
  | LOOKAHEAD_POINT
  | LOCAL_VIEWPOINT
  | LOCAL_PATH_START
  | LOCAL_PATH_END
  | LOCAL_VIA_POINT
  | GLOBAL_VIEWPOINT
  | HOME
  deriving DecidableEq, Repr

/-- Fields of `exploration_path_ns::Node` used by the planner.  `P` is the type of 3D positions,
which the planner only copies. -/
structure Node (P : Type) where
  position_ : P
  type_ : NodeType
  local_viewpoint_ind_ : Int
  deriving DecidableEq, Repr

/-- Ways in which a call does not return. -/
inductive Fault where
  /-- a `MY_ASSERT` failed -/
  | assertion
  /-- a vector was read past its end -/
  | out_of_range
  /-- `uniform_int_distribution(0, b)` was built with `b < 0` -/
  | distribution
  /-- the step budget of the embedding of `while (true)` was used up -/
  | fuel
  deriving DecidableEq, Repr

/-- Query interface of `viewpoint_manager_` as used in `local_coverage_planner.cpp`.
A `Bool` argument is the `use_array_ind` flag of the C++ method; a call that leaves the flag out
is embedded with `false`, the viewpoint being addressed by its id. -/
structure ViewPointManager (P : Type) where
  GetNearestCandidateViewPointInd : P → Int
  InLocalPlanningHorizon : P → Bool
  InRange : Int → Bool
  IsViewPointCandidate : Int → Bool → Bool
  ViewPointVisited : Int → Bool → Bool
  ViewPointInExploringCell : Int → Bool
  GetViewPointArrayInd : Int → Int
  GetViewPointInd : Int → Int
  GetViewPointCandidateIndices : List Int
  GetViewPointCoveredPointList : Int → Bool → List Int
  GetViewPointCoveredFrontierPointList : Int → Bool → List Int
  /-- the overload `GetViewPointCoveredPointNum(point_list, viewpoint_index, use_array_ind)` -/
  GetViewPointCoveredPointNumIn : List Bool → Int → Bool → Int
  /-- the overload `GetViewPointCoveredFrontierPointNum(frontier_list, viewpoint_index, use_array_ind)` -/
  GetViewPointCoveredFrontierPointNumIn : List Bool → Int → Bool → Int
  /-- the overload `GetViewPointCoveredPointNum(viewpoint_index)` -/
  GetViewPointCoveredPointNum : Int → Int
  /-- the overload `GetViewPointCoveredFrontierPointNum(viewpoint_index)` -/
  GetViewPointCoveredFrontierPointNum : Int → Int
  /-- the poses of `GetViewPointShortestPath(from, to)`, each pose given by its position -/
  GetViewPointShortestPath : Int → Int → List P
  GetViewPointPosition : Int → P
  GetViewPointNum : Int

/-- Collaborators other than the viewpoint manager. -/
structure Collaborators (P : Type) where
  /-- `misc_utils_ns::UniquifyIntVector` -/
  UniquifyIntVector : List Int → List Int
  /-- `std::sort(begin, end, SortPairInRev)` -/
  SortInRev : List (Int × Int) → List (Int × Int)
  /-- `static_cast<int>(10 * misc_utils_ns::GetPathLength(path))` -/
  ScaledPathLength : List P → Int
  /-- `ExplorationPath::Append(node)` -/
  Append : List (Node P) → Node P → List (Node P)
  /-- `ExplorationPath::GetLength()`, in a fixed unit -/
  GetLength : List (Node P) → Nat
  /-- `TSPSolver(data).Solve()` followed by `getSolutionNodeIndex(path_index, has_dummy)`:
  distance matrix, depot, `has_dummy` flag -/
  TSPSolver : List (List Int) → Nat → Bool → List Int

/-- Fields of `LocalCoveragePlanner` (with `parameters_` flattened). -/
structure LocalCoveragePlanner (P : Type) where
  kMinAddPointNum : Int
  kMinAddFrontierPointNum : Int
  kGreedyViewPointSampleRange : Int
  kLocalPathOptimizationItrMax : Int
  lookahead_point_update_ : Bool
  use_frontier_ : Bool
  local_coverage_complete_ : Bool
  robot_position_ : P
  lookahead_point_ : P
  robot_viewpoint_ind_ : Int
  start_viewpoint_ind_ : Int
  end_viewpoint_ind_ : Int
  lookahead_viewpoint_ind_ : Int
  last_selected_viewpoint_indices_ : List Int
  last_selected_viewpoint_array_indices_ : List Int

variable {P : Type}

/-! ## Anchors -/

/-- Loop of `GetBoundaryViewpointIndex` from node `i` on; `break` ends the recursion. -/
def GetBoundaryViewpointIndexLoop (M : ViewPointManager P) :
    List (Node P) → Int → Int
  | [], boundary_viewpoint_index => boundary_viewpoint_index
  | node :: rest, boundary_viewpoint_index =>
    if node.type_ = NodeType.GLOBAL_VIEWPOINT ∨ node.type_ = NodeType.HOME ∨
        M.InLocalPlanningHorizon node.position_ = false then
      boundary_viewpoint_index
    else
      GetBoundaryViewpointIndexLoop M rest (M.GetNearestCandidateViewPointInd node.position_)

def GetBoundaryViewpointIndex (M : ViewPointManager P) (L : LocalCoveragePlanner P)
    (global_path : List (Node P)) : Int :=
  match global_path with
  | [] => L.robot_viewpoint_ind_
  | front :: _ =>
    if M.InLocalPlanningHorizon front.position_ then
      GetBoundaryViewpointIndexLoop M global_path L.robot_viewpoint_ind_
    else
      L.robot_viewpoint_ind_

/-- Modelled from the spec: `ExplorationPath::Reverse` is not part of the source file; the spec
(§6) has the global path support in-place reversal of its node list. -/
def Reverse (global_path : List (Node P)) : List (Node P) := global_path.reverse

def GetBoundaryViewpointIndices (M : ViewPointManager P) (L : LocalCoveragePlanner P)
    (global_path : List (Node P)) : LocalCoveragePlanner P :=
  let L1 := { L with start_viewpoint_ind_ := GetBoundaryViewpointIndex M L global_path }
  let global_path := Reverse global_path
  { L1 with end_viewpoint_ind_ := GetBoundaryViewpointIndex M L1 global_path }

/-- The planner with its four anchor fields set, and `navigation_viewpoint_indices` after the
four `push_back`s. -/
def GetNavigationViewPointIndices (M : ViewPointManager P) (L : LocalCoveragePlanner P)
    (global_path : List (Node P)) (navigation_viewpoint_indices : List Int) :
    LocalCoveragePlanner P × List Int :=
  let L1 := { L with robot_viewpoint_ind_ := M.GetNearestCandidateViewPointInd L.robot_position_ }
  let L2 := { L1 with
    lookahead_viewpoint_ind_ := M.GetNearestCandidateViewPointInd L1.lookahead_point_ }
  let L3 :=
    if L2.lookahead_point_update_ = false ∨ M.InRange L2.lookahead_viewpoint_ind_ = false then
      { L2 with lookahead_viewpoint_ind_ := L2.robot_viewpoint_ind_ }
    else L2
  let L4 := GetBoundaryViewpointIndices M L3 global_path
  (L4, navigation_viewpoint_indices ++
    [L4.start_viewpoint_ind_, L4.end_viewpoint_ind_, L4.robot_viewpoint_ind_,
      L4.lookahead_viewpoint_ind_])

/-! ## Coverage bitmaps -/

/-- The test `misc_utils_ns::InRange<bool>(list, index)`. -/
def InRange (list : List Bool) (index : Int) : Bool :=
  decide (0 ≤ index) && decide (index < (list.length : Int))

/-- One loop body: `MY_ASSERT(InRange(point_list, point_ind)); point_list[point_ind] = true;`. -/
def MarkCovered (point_list : List Bool) (point_ind : Int) : Except Fault (List Bool) :=
  if InRange point_list point_ind then
    Except.ok (point_list.set point_ind.toNat true)
  else
    Except.error Fault.assertion

def UpdateViewPointCoveredPoint (M : ViewPointManager P) (point_list : List Bool)
    (viewpoint_index : Int) (use_array_ind : Bool) : Except Fault (List Bool) :=
  (M.GetViewPointCoveredPointList viewpoint_index use_array_ind).foldlM MarkCovered point_list

def UpdateViewPointCoveredFrontierPoint (M : ViewPointManager P) (frontier_point_list : List Bool)
    (viewpoint_index : Int) (use_array_ind : Bool) : Except Fault (List Bool) :=
  (M.GetViewPointCoveredFrontierPointList viewpoint_index use_array_ind).foldlM MarkCovered
    frontier_point_list

/-! ## Candidate queues -/

/-- Body of the candidate loop of `EnqueueViewpointCandidates`; the pair is
`(cover_point_queue, frontier_queue)`. -/
def EnqueueViewpointCandidate (M : ViewPointManager P) (L : LocalCoveragePlanner P)
    (covered_point_list covered_frontier_point_list : List Bool)
    (selected_viewpoint_array_indices : List Int)
    (queues : List (Int × Int) × List (Int × Int)) (viewpoint_index : Int) :
    List (Int × Int) × List (Int × Int) :=
  if M.ViewPointVisited viewpoint_index false = true ∨
      M.ViewPointInExploringCell viewpoint_index = false then
    queues
  else
    let viewpoint_array_index := M.GetViewPointArrayInd viewpoint_index
    if viewpoint_array_index ∈ selected_viewpoint_array_indices then
      queues
    else
      let covered_point_num :=
        M.GetViewPointCoveredPointNumIn covered_point_list viewpoint_array_index true
      if covered_point_num ≥ L.kMinAddPointNum then
        (queues.1 ++ [(covered_point_num, viewpoint_index)], queues.2)
      else if L.use_frontier_ then
        let covered_frontier_point_num :=
          M.GetViewPointCoveredFrontierPointNumIn covered_frontier_point_list
            viewpoint_array_index true
        if covered_frontier_point_num ≥ L.kMinAddFrontierPointNum then
          (queues.1, queues.2 ++ [(covered_frontier_point_num, viewpoint_index)])
        else
          queues
      else
        queues

def EnqueueViewpointCandidates (E : Collaborators P) (M : ViewPointManager P)
    (L : LocalCoveragePlanner P)
    (cover_point_queue frontier_queue : List (Int × Int))
    (covered_point_list covered_frontier_point_list : List Bool)
    (selected_viewpoint_array_indices : List Int) :
    List (Int × Int) × List (Int × Int) :=
  let queues := M.GetViewPointCandidateIndices.foldl
    (EnqueueViewpointCandidate M L covered_point_list covered_frontier_point_list
      selected_viewpoint_array_indices) (cover_point_queue, frontier_queue)
  (E.SortInRev queues.1, if L.use_frontier_ then E.SortInRev queues.2 else queues.2)

/-! ## Greedy selection -/

/-- The counting loop `for (...) if (!covered_copy[point_ind]) add_point_num++`, with its
assertion. -/
def CountUncovered (covered_copy : List Bool) (points : List Int) : Except Fault Int :=
  points.foldlM (fun add_point_num point_ind =>
    if InRange covered_copy point_ind then
      Except.ok (if covered_copy.getD point_ind.toNat false = false then add_point_num + 1
        else add_point_num)
    else
      Except.error Fault.assertion) 0

/-- The loop computing `sample_range` before `std::min`: the number of entries of the queue whose
gain reaches the threshold of the mode. -/
def CountSampleRange (L : LocalCoveragePlanner P) (queue : List (Int × Int))
    (use_frontier : Bool) : Int :=
  queue.foldl (fun sample_range entry =>
    if use_frontier then
      if entry.1 ≥ L.kMinAddFrontierPointNum then sample_range + 1 else sample_range
    else
      if entry.1 ≥ L.kMinAddPointNum then sample_range + 1 else sample_range) 0

/-- A draw of `std::uniform_int_distribution<int>(0, sample_range - 1)`: `gen k` is the raw
output of the generator at its `k`-th use, reduced to the range of the distribution. -/
def DrawQueueIdx (gen : Nat → Nat) (k : Nat) (sample_range : Int) : Except Fault Nat :=
  if sample_range ≤ 0 then Except.error Fault.distribution
  else Except.ok (gen k % sample_range.toNat)

/-- The list of points a viewpoint covers in the mode of `SelectViewPoint`. -/
def CoveredListOf (M : ViewPointManager P) (use_frontier : Bool) (array_ind : Int) : List Int :=
  if use_frontier then M.GetViewPointCoveredFrontierPointList array_ind true
  else M.GetViewPointCoveredPointList array_ind true

/-- The `while (true)` loop of `SelectViewPoint`.  `k` counts the draws made so far. -/
def SelectViewPointLoop (E : Collaborators P) (M : ViewPointManager P)
    (L : LocalCoveragePlanner P) (gen : Nat → Nat) (queue : List (Int × Int))
    (use_frontier : Bool) :
    Nat → Nat → List Bool → List (Int × Int) → List Int → Nat → Int → Except Fault (List Int)
  | 0, _, _, _, _, _, _ => Except.error Fault.fuel
  | fuel + 1, k, covered_copy, queue_copy, selected_viewpoint_indices, queue_idx, cur_ind =>
    let cur_array_ind := M.GetViewPointArrayInd cur_ind
    match (CoveredListOf M use_frontier cur_array_ind).foldlM MarkCovered covered_copy with
    | Except.error e => Except.error e
    | Except.ok covered_copy =>
      let selected_viewpoint_indices := selected_viewpoint_indices ++ [cur_ind]
      let queue_copy := queue_copy.eraseIdx queue_idx
      -- Update the queue
      match queue_copy.mapM (fun entry =>
          match CountUncovered covered_copy
              (CoveredListOf M use_frontier (M.GetViewPointArrayInd entry.2)) with
          | Except.error e => Except.error e
          | Except.ok add_point_num => Except.ok (add_point_num, entry.2)) with
      | Except.error e => Except.error e
      | Except.ok queue_copy =>
        match E.SortInRev queue_copy with
        | [] => Except.ok selected_viewpoint_indices
        | top :: rest =>
          if top.1 < L.kMinAddPointNum then Except.ok selected_viewpoint_indices
          else if use_frontier = true ∧ top.1 < L.kMinAddFrontierPointNum then
            Except.ok selected_viewpoint_indices
          else
            -- Randomly select the next point
            let sample_range :=
              min L.kGreedyViewPointSampleRange (CountSampleRange L queue use_frontier)
            match DrawQueueIdx gen k sample_range with
            | Except.error e => Except.error e
            | Except.ok queue_idx =>
              match (top :: rest)[queue_idx]? with
              | none => Except.error Fault.out_of_range
              | some entry =>
                SelectViewPointLoop E M L gen queue use_frontier fuel (k + 1) covered_copy
                  (top :: rest) selected_viewpoint_indices queue_idx entry.2

/-- The value of `selected_viewpoint_indices` after `SelectViewPoint`. -/
def SelectViewPoint (E : Collaborators P) (M : ViewPointManager P) (L : LocalCoveragePlanner P)
    (gen : Nat → Nat) (queue : List (Int × Int)) (covered : List Bool)
    (selected_viewpoint_indices : List Int) (use_frontier : Bool) : Except Fault (List Int) :=
  match queue with
  | [] => Except.ok selected_viewpoint_indices
  | top :: _ =>
    if (if use_frontier then decide (top.1 < L.kMinAddFrontierPointNum)
        else decide (top.1 < L.kMinAddPointNum)) = true then
      Except.ok selected_viewpoint_indices
    else
      let covered_copy := covered
      let queue_copy := queue
      let sample_range :=
        min L.kGreedyViewPointSampleRange (CountSampleRange L queue_copy use_frontier)
      match DrawQueueIdx gen 0 sample_range with
      | Except.error e => Except.error e
      | Except.ok queue_idx =>
        match queue_copy[queue_idx]? with
        | none => Except.error Fault.out_of_range
        | some entry =>
          SelectViewPointLoop E M L gen queue use_frontier queue.length 1 covered_copy queue_copy
            selected_viewpoint_indices queue_idx entry.2

/-- The values of `frontier_queue`, `frontier_covered` and `selected_viewpoint_indices` after
`SelectViewPointFromFrontierQueue` (all three are passed by reference). -/
def SelectViewPointFromFrontierQueue (E : Collaborators P) (M : ViewPointManager P)
    (L : LocalCoveragePlanner P) (gen : Nat → Nat) (frontier_queue : List (Int × Int))
    (frontier_covered : List Bool) (selected_viewpoint_indices : List Int) :
    Except Fault (List (Int × Int) × List Bool × List Int) :=
  match frontier_queue with
  | [] => Except.ok (frontier_queue, frontier_covered, selected_viewpoint_indices)
  | top :: _ =>
    if L.use_frontier_ = true ∧ top.1 > L.kMinAddFrontierPointNum then
      -- Update the frontier queue
      match selected_viewpoint_indices.foldlM
          (fun covered ind => UpdateViewPointCoveredFrontierPoint M covered ind false)
          frontier_covered with
      | Except.error e => Except.error e
      | Except.ok frontier_covered =>
        let frontier_queue := frontier_queue.map (fun entry =>
          (M.GetViewPointCoveredFrontierPointNumIn frontier_covered entry.2 false, entry.2))
        let frontier_queue := E.SortInRev frontier_queue
        match SelectViewPoint E M L gen frontier_queue frontier_covered
            selected_viewpoint_indices true with
        | Except.error e => Except.error e
        | Except.ok selected_viewpoint_indices =>
          Except.ok (frontier_queue, frontier_covered, selected_viewpoint_indices)
    else
      Except.ok (frontier_queue, frontier_covered, selected_viewpoint_indices)

/-! ## Tour builder -/

/-- The local variables `start_ind`, `end_ind`, `robot_ind`, `lookahead_ind` of `SolveTSP`. -/
structure AnchorInd where
  start_ind : Nat
  end_ind : Nat
  robot_ind : Nat
  lookahead_ind : Nat
  deriving DecidableEq, Repr

/-- The loop "Get start and end index" of `SolveTSP`. -/
def GetAnchorInd (L : LocalCoveragePlanner P) (selected_viewpoint_indices : List Int) :
    AnchorInd :=
  (List.range selected_viewpoint_indices.length).foldl (fun a i =>
    let a := if selected_viewpoint_indices.getD i 0 = L.start_viewpoint_ind_ then
      { a with start_ind := i } else a
    let a := if selected_viewpoint_indices.getD i 0 = L.end_viewpoint_ind_ then
      { a with end_ind := i } else a
    let a := if selected_viewpoint_indices.getD i 0 = L.robot_viewpoint_ind_ then
      { a with robot_ind := i } else a
    let a := if selected_viewpoint_indices.getD i 0 = L.lookahead_viewpoint_ind_ then
      { a with lookahead_ind := i } else a
    a)
    { start_ind := selected_viewpoint_indices.length - 1,
      end_ind := selected_viewpoint_indices.length - 1,
      robot_ind := 0,
      lookahead_ind := 0 }

/-- The read `distance_matrix[i][j]`. -/
def GetEntry (distance_matrix : List (List Int)) (i j : Nat) : Int :=
  (distance_matrix.getD i []).getD j 0

/-- The write `distance_matrix[i][j] = v`. -/
def SetEntry (distance_matrix : List (List Int)) (i j : Nat) (v : Int) : List (List Int) :=
  distance_matrix.set i ((distance_matrix.getD i []).set j v)

/-- The value of `node_size`. -/
def NodeSize (a : AnchorInd) (n : Nat) : Nat :=
  if a.start_ind ≠ a.end_ind ∧ a.robot_ind ≠ a.lookahead_ind then n + 2
  else if a.start_ind ≠ a.end_ind ∨ a.robot_ind ≠ a.lookahead_ind then n + 1
  else n

/-- The two loops filling the entries of the real nodes: the lower triangle from the manager's
paths, then the upper triangle by mirroring. -/
def FillRealEntries (E : Collaborators P) (M : ViewPointManager P)
    (selected_viewpoint_indices : List Int) (distance_matrix : List (List Int)) :
    List (List Int) :=
  let n := selected_viewpoint_indices.length
  let distance_matrix := (List.range n).foldl (fun distance_matrix i =>
    let from_ind := selected_viewpoint_indices.getD i 0
    (List.range i).foldl (fun distance_matrix j =>
      let to_ind := selected_viewpoint_indices.getD j 0
      SetEntry distance_matrix i j
        (E.ScaledPathLength (M.GetViewPointShortestPath from_ind to_ind))) distance_matrix)
    distance_matrix
  (List.range n).foldl (fun distance_matrix i =>
    (List.range' (i + 1) (n - (i + 1))).foldl (fun distance_matrix j =>
      SetEntry distance_matrix i j (GetEntry distance_matrix j i)) distance_matrix)
    distance_matrix

/-- The block "Add a dummy node to connect the start and end nodes". -/
def AddDummyNodes (a : AnchorInd) (n node_size : Nat) (distance_matrix : List (List Int)) :
    List (List Int) :=
  if a.start_ind ≠ a.end_ind ∧ a.robot_ind ≠ a.lookahead_ind then
    let start_end_dummy_node_ind := node_size - 1
    let robot_lookahead_dummy_node_ind := node_size - 2
    let distance_matrix := (List.range n).foldl (fun distance_matrix i =>
      let distance_matrix :=
        if i = a.start_ind ∨ i = a.end_ind then
          SetEntry (SetEntry distance_matrix i start_end_dummy_node_ind 0)
            start_end_dummy_node_ind i 0
        else
          SetEntry (SetEntry distance_matrix i start_end_dummy_node_ind 9999)
            start_end_dummy_node_ind i 9999
      if i = a.robot_ind ∨ i = a.lookahead_ind then
        SetEntry (SetEntry distance_matrix i robot_lookahead_dummy_node_ind 0)
          robot_lookahead_dummy_node_ind i 0
      else
        SetEntry (SetEntry distance_matrix i robot_lookahead_dummy_node_ind 9999)
          robot_lookahead_dummy_node_ind i 9999) distance_matrix
    SetEntry
      (SetEntry distance_matrix start_end_dummy_node_ind robot_lookahead_dummy_node_ind 9999)
      robot_lookahead_dummy_node_ind start_end_dummy_node_ind 9999
  else if a.start_ind ≠ a.end_ind then
    let end_node_ind := node_size - 1
    (List.range n).foldl (fun distance_matrix i =>
      if i = a.start_ind ∨ i = a.end_ind then
        SetEntry (SetEntry distance_matrix i end_node_ind 0) end_node_ind i 0
      else
        SetEntry (SetEntry distance_matrix i end_node_ind 9999) end_node_ind i 9999)
      distance_matrix
  else if a.robot_ind ≠ a.lookahead_ind then
    let end_node_ind := node_size - 1
    (List.range n).foldl (fun distance_matrix i =>
      if i = a.robot_ind ∨ i = a.lookahead_ind then
        SetEntry (SetEntry distance_matrix i end_node_ind 0) end_node_ind i 0
      else
        SetEntry (SetEntry distance_matrix i end_node_ind 9999) end_node_ind i 9999)
      distance_matrix
  else
    distance_matrix

/-- The matrix handed to the solver (`data.distance_matrix`). -/
def DistanceMatrix (E : Collaborators P) (M : ViewPointManager P) (L : LocalCoveragePlanner P)
    (selected_viewpoint_indices : List Int) : List (List Int) :=
  let a := GetAnchorInd L selected_viewpoint_indices
  let n := selected_viewpoint_indices.length
  let node_size := NodeSize a n
  let distance_matrix := List.replicate node_size (List.replicate node_size (0 : Int))
  AddDummyNodes a n node_size (FillRealEntries E M selected_viewpoint_indices distance_matrix)

/-- The vector `path_index` after the solver's answer has lost its dummy indices (the loop "Get
rid of the dummy node"). -/
def FilteredPathIndex (E : Collaborators P) (M : ViewPointManager P)
    (L : LocalCoveragePlanner P) (selected_viewpoint_indices : List Int) : List Int :=
  let a := GetAnchorInd L selected_viewpoint_indices
  let path_index := E.TSPSolver (DistanceMatrix E M L selected_viewpoint_indices) a.start_ind
    (decide (a.start_ind ≠ a.end_ind))
  path_index.filter (fun p =>
    !(decide (p ≥ (selected_viewpoint_indices.length : Int)) || decide (p < 0)))

/-- The vector `path_index` after "Add the end node index". -/
def ClosedPathIndex (E : Collaborators P) (M : ViewPointManager P)
    (L : LocalCoveragePlanner P) (selected_viewpoint_indices : List Int) : List Int :=
  let a := GetAnchorInd L selected_viewpoint_indices
  let path_index := FilteredPathIndex E M L selected_viewpoint_indices
  match path_index with
  | [] => path_index
  | first :: _ => if a.start_ind = a.end_ind then path_index ++ [first] else path_index

/-- The node `cur_node` built for `cur_ind`. -/
def CurNode (M : ViewPointManager P) (L : LocalCoveragePlanner P) (cur_ind : Int) : Node P :=
  let cur_node : Node P :=
    { position_ := M.GetViewPointPosition cur_ind,
      type_ := NodeType.LOCAL_VIEWPOINT,
      local_viewpoint_ind_ := cur_ind }
  if cur_ind = L.robot_viewpoint_ind_ then
    { cur_node with type_ := NodeType.ROBOT }
  else if cur_ind = L.lookahead_viewpoint_ind_ then
    let covered_point_num := M.GetViewPointCoveredPointNum cur_ind
    let covered_frontier_num := M.GetViewPointCoveredFrontierPointNum cur_ind
    if covered_point_num > L.kMinAddPointNum ∨
        covered_frontier_num > L.kMinAddFrontierPointNum then
      { cur_node with type_ := NodeType.LOCAL_VIEWPOINT }
    else
      { cur_node with type_ := NodeType.LOOKAHEAD_POINT }
  else if cur_ind = L.start_viewpoint_ind_ then
    { cur_node with type_ := NodeType.LOCAL_PATH_START }
  else if cur_ind = L.end_viewpoint_ind_ then
    { cur_node with type_ := NodeType.LOCAL_PATH_END }
  else
    cur_node

/-- The node `next_node` built for `next_ind`. -/
def NextNode (M : ViewPointManager P) (L : LocalCoveragePlanner P) (next_ind : Int) : Node P :=
  let next_node : Node P :=
    { position_ := M.GetViewPointPosition next_ind,
      type_ := NodeType.LOCAL_VIEWPOINT,
      local_viewpoint_ind_ := next_ind }
  if next_ind = L.robot_viewpoint_ind_ then
    { next_node with type_ := NodeType.ROBOT }
  else if next_ind = L.lookahead_viewpoint_ind_ then
    { next_node with type_ := NodeType.LOOKAHEAD_POINT }
  else if next_ind = L.start_viewpoint_ind_ then
    { next_node with type_ := NodeType.LOCAL_PATH_START }
  else if next_ind = L.end_viewpoint_ind_ then
    { next_node with type_ := NodeType.LOCAL_PATH_END }
  else
    next_node

/-- The via-point node built from one pose of `path_between_viewpoints`. -/
def ViaNode (pose : P) : Node P :=
  { position_ := pose, type_ := NodeType.LOCAL_VIA_POINT, local_viewpoint_ind_ := -1 }

/-- The block "Add viapoint nodes": poses `1 .. size - 2` when the path has more than 2 poses. -/
def AppendViaPoints (E : Collaborators P) (poses : List P) (tsp_path : List (Node P)) :
    List (Node P) :=
  if poses.length > 2 then
    (List.range' 1 (poses.length - 1 - 1)).foldl (fun tsp_path j =>
      match poses[j]? with
      | some pose => E.Append tsp_path (ViaNode pose)
      | none => tsp_path) tsp_path
  else
    tsp_path

/-- The path assembly loop of `SolveTSP` over `i = 0 .. path_index.size() - 2`.  The reads
`selected_viewpoint_indices[path_index[i]]` are in range after the dummy filter. -/
def AssemblePath (E : Collaborators P) (M : ViewPointManager P) (L : LocalCoveragePlanner P)
    (selected_viewpoint_indices : List Int) (path_index : List Int) : List (Node P) :=
  if path_index.length > 1 then
    (List.range (path_index.length - 1)).foldl (fun tsp_path i =>
      let cur_ind := selected_viewpoint_indices.getD (path_index.getD i 0).toNat 0
      let next_ind := selected_viewpoint_indices.getD (path_index.getD (i + 1) 0).toNat 0
      let tsp_path := E.Append tsp_path (CurNode M L cur_ind)
      let tsp_path := AppendViaPoints E (M.GetViewPointShortestPath cur_ind next_ind) tsp_path
      E.Append tsp_path (NextNode M L next_ind)) []
  else
    []

/-- The returned `tsp_path` and the value of `ordered_viewpoint_indices` after the call. -/
def SolveTSP (E : Collaborators P) (M : ViewPointManager P) (L : LocalCoveragePlanner P)
    (selected_viewpoint_indices : List Int) (ordered_viewpoint_indices : List Int) :
    List (Node P) × List Int :=
  match selected_viewpoint_indices with
  | [] => ([], ordered_viewpoint_indices)
  | _ :: _ =>
    let ordered_viewpoint_indices :=
      (FilteredPathIndex E M L selected_viewpoint_indices).map (fun p =>
        selected_viewpoint_indices.getD p.toNat 0)
    (AssemblePath E M L selected_viewpoint_indices
        (ClosedPathIndex E M L selected_viewpoint_indices),
      ordered_viewpoint_indices)

/-! ## Orchestrator -/

/-- Modelled from the spec: `ViewPointManager::SetViewPointSelected` is not part of the source
file.  By the spec (§3, §6 `set_selected(ref, value, by_array)`) a viewpoint is addressed either
by its id or by its array index, the manager converting one into the other; the store of
"selected" flags is keyed here by array index. -/
def SetViewPointSelected (M : ViewPointManager P) (flags : Int → Bool) (viewpoint_ind : Int)
    (selected : Bool) (use_array_ind : Bool) : Int → Bool :=
  Function.update flags
    (if use_array_ind then viewpoint_ind else M.GetViewPointArrayInd viewpoint_ind) selected

/-- Local variables of `SolveLocalCoverageProblem` when it reaches its branch, after
`EnqueueViewpointCandidates`; `planner` has `local_coverage_complete_` reset and the anchors
set. -/
structure Sampling (P : Type) where
  planner : LocalCoveragePlanner P
  navigation_viewpoint_indices : List Int
  reused_viewpoint_indices : List Int
  pre_selected_viewpoint_array_indices : List Int
  covered : List Bool
  frontier_covered : List Bool
  queue : List (Int × Int)
  frontier_queue : List (Int × Int)

/-- Body of the loop over `last_selected_viewpoint_array_indices_` (the reuse step). -/
def ReuseViewPoint (M : ViewPointManager P) (L : LocalCoveragePlanner P)
    (covered frontier_covered : List Bool) (reused_viewpoint_indices : List Int)
    (viewpoint_array_ind : Int) : List Int :=
  if M.ViewPointVisited viewpoint_array_ind true = true ∨
      M.IsViewPointCandidate viewpoint_array_ind true = false then
    reused_viewpoint_indices
  else
    let covered_point_num := M.GetViewPointCoveredPointNumIn covered viewpoint_array_ind true
    if covered_point_num ≥ L.kMinAddPointNum then
      reused_viewpoint_indices ++ [M.GetViewPointInd viewpoint_array_ind]
    else if L.use_frontier_ then
      let covered_frontier_point_num :=
        M.GetViewPointCoveredFrontierPointNumIn frontier_covered viewpoint_array_ind true
      if covered_frontier_point_num ≥ L.kMinAddFrontierPointNum then
        reused_viewpoint_indices ++ [M.GetViewPointInd viewpoint_array_ind]
      else
        reused_viewpoint_indices
    else
      reused_viewpoint_indices

/-- Body of the loop "Update coverage" over `pre_selected_viewpoint_array_indices`; the pair is
`(covered, frontier_covered)`. -/
def UpdateCoverage (M : ViewPointManager P) (L : LocalCoveragePlanner P)
    (bitmaps : List Bool × List Bool) (viewpoint_array_ind : Int) :
    Except Fault (List Bool × List Bool) :=
  match UpdateViewPointCoveredPoint M bitmaps.1 viewpoint_array_ind true with
  | Except.error e => Except.error e
  | Except.ok covered =>
    if L.use_frontier_ then
      match UpdateViewPointCoveredFrontierPoint M bitmaps.2 viewpoint_array_ind true with
      | Except.error e => Except.error e
      | Except.ok frontier_covered => Except.ok (covered, frontier_covered)
    else
      Except.ok (covered, bitmaps.2)

/-- The part of `SolveLocalCoverageProblem` before its branch: anchors, bitmaps, reuse step,
coverage of the pre-selected viewpoints, candidate queues. -/
def SampleViewPoints (E : Collaborators P) (M : ViewPointManager P)
    (L : LocalCoveragePlanner P) (global_path : List (Node P))
    (uncovered_point_num uncovered_frontier_point_num : Nat) : Except Fault (Sampling P) :=
  let L := { L with local_coverage_complete_ := false }
  let (L, navigation_viewpoint_indices) := GetNavigationViewPointIndices M L global_path []
  let covered := List.replicate uncovered_point_num false
  let frontier_covered := List.replicate uncovered_frontier_point_num false
  let reused_viewpoint_indices :=
    L.last_selected_viewpoint_array_indices_.foldl
      (ReuseViewPoint M L covered frontier_covered) []
  let pre_selected_viewpoint_array_indices :=
    reused_viewpoint_indices.map M.GetViewPointArrayInd ++
      navigation_viewpoint_indices.map M.GetViewPointArrayInd
  match pre_selected_viewpoint_array_indices.foldlM (UpdateCoverage M L)
      (covered, frontier_covered) with
  | Except.error e => Except.error e
  | Except.ok (covered, frontier_covered) =>
    let (queue, frontier_queue) := EnqueueViewpointCandidates E M L [] [] covered
      frontier_covered pre_selected_viewpoint_array_indices
    Except.ok
      { planner := L,
        navigation_viewpoint_indices := navigation_viewpoint_indices,
        reused_viewpoint_indices := reused_viewpoint_indices,
        pre_selected_viewpoint_array_indices := pre_selected_viewpoint_array_indices,
        covered := covered,
        frontier_covered := frontier_covered,
        queue := queue,
        frontier_queue := frontier_queue }

/-- The test of the branch: `!queue.empty() && queue[0].first > kMinAddPointNum`. -/
def OptimizationBranch (S : Sampling P) : Bool :=
  match S.queue with
  | [] => false
  | top :: _ => decide (top.1 > S.planner.kMinAddPointNum)

/-- Variables that live across the iterations of the optimisation loop.  `min_path_length` is
`none` while it holds `DBL_MAX`.  `solve_tsp_calls` records the selections passed to `SolveTSP`,
oldest first; it is a record of the run, not a variable of the program. -/
structure Progress (P : Type) where
  min_path_length : Option Nat
  local_path : List (Node P)
  last_selected_viewpoint_indices_ : List Int
  ordered_viewpoint_indices : List Int
  frontier_queue : List (Int × Int)
  frontier_covered : List Bool
  solve_tsp_calls : List (List Int)

/-- The comparison `path_length < min_path_length`, where `none` stands for the initial
`DBL_MAX`, which every path length is below. -/
def ShorterThan (path_length : Nat) : Option Nat → Bool
  | none => true
  | some min_path_length => decide (path_length < min_path_length)

/-- One iteration `itr` of the optimisation loop.  `rd c` is the generator that the `c`-th
possible call of `SelectViewPoint` seeds from `std::random_device`. -/
def OptimizationItr (E : Collaborators P) (M : ViewPointManager P) (rd : Nat → Nat → Nat)
    (S : Sampling P) (st : Progress P) (itr : Nat) : Except Fault (Progress P) :=
  let selected_viewpoint_indices_itr : List Int := []
  -- Select from the queue
  match SelectViewPoint E M S.planner (rd (2 * itr)) S.queue S.covered
      selected_viewpoint_indices_itr false with
  | Except.error e => Except.error e
  | Except.ok selected_viewpoint_indices_itr =>
    match SelectViewPointFromFrontierQueue E M S.planner (rd (2 * itr + 1)) st.frontier_queue
        st.frontier_covered selected_viewpoint_indices_itr with
    | Except.error e => Except.error e
    | Except.ok (frontier_queue, frontier_covered, selected_viewpoint_indices_itr) =>
      -- Add viewpoints from last planning cycle
      let selected_viewpoint_indices_itr :=
        selected_viewpoint_indices_itr ++ S.reused_viewpoint_indices
      -- Add viewpoints for navigation
      let selected_viewpoint_indices_itr :=
        selected_viewpoint_indices_itr ++ S.navigation_viewpoint_indices
      let selected_viewpoint_indices_itr := E.UniquifyIntVector selected_viewpoint_indices_itr
      -- Solve the TSP problem
      let (local_path_itr, ordered_viewpoint_indices) :=
        SolveTSP E M S.planner selected_viewpoint_indices_itr st.ordered_viewpoint_indices
      let path_length := E.GetLength local_path_itr
      let st := { st with
        ordered_viewpoint_indices := ordered_viewpoint_indices,
        frontier_queue := frontier_queue,
        frontier_covered := frontier_covered,
        solve_tsp_calls := st.solve_tsp_calls ++ [selected_viewpoint_indices_itr] }
      if local_path_itr.isEmpty = false ∧ ShorterThan path_length st.min_path_length = true then
        Except.ok { st with
          min_path_length := some path_length,
          local_path := local_path_itr,
          last_selected_viewpoint_indices_ := ordered_viewpoint_indices }
      else
        Except.ok st

/-- The `else` branch.  The statement `if (selected_viewpoint_indices_itr.empty())` follows a
debug print whose closing semicolon is missing in the source file; it is embedded as the
statement it is after the print. -/
def SinglePass (E : Collaborators P) (M : ViewPointManager P) (rd : Nat → Nat → Nat)
    (S : Sampling P) (st : Progress P) : Except Fault (Progress P × Bool) :=
  -- Add viewpoints from last planning cycle
  let selected_viewpoint_indices_itr : List Int := [] ++ S.reused_viewpoint_indices
  match SelectViewPointFromFrontierQueue E M S.planner (rd 0) st.frontier_queue
      st.frontier_covered selected_viewpoint_indices_itr with
  | Except.error e => Except.error e
  | Except.ok (frontier_queue, frontier_covered, selected_viewpoint_indices_itr) =>
    let local_coverage_complete_ :=
      if selected_viewpoint_indices_itr = [] then true else S.planner.local_coverage_complete_
    -- Add viewpoints for navigation
    let selected_viewpoint_indices_itr :=
      selected_viewpoint_indices_itr ++ S.navigation_viewpoint_indices
    let selected_viewpoint_indices_itr := E.UniquifyIntVector selected_viewpoint_indices_itr
    let (local_path, ordered_viewpoint_indices) :=
      SolveTSP E M S.planner selected_viewpoint_indices_itr st.ordered_viewpoint_indices
    Except.ok
      ({ st with
          local_path := local_path,
          last_selected_viewpoint_indices_ := ordered_viewpoint_indices,
          ordered_viewpoint_indices := ordered_viewpoint_indices,
          frontier_queue := frontier_queue,
          frontier_covered := frontier_covered,
          solve_tsp_calls := st.solve_tsp_calls ++ [selected_viewpoint_indices_itr] },
        local_coverage_complete_)

/-- What a call of `SolveLocalCoverageProblem` leaves behind: the returned path, the planner's
fields, the manager's "selected" flags (by array index), and the record of the selections that
were passed to `SolveTSP`. -/
structure Outcome (P : Type) where
  local_path : List (Node P)
  planner : LocalCoveragePlanner P
  selected : Int → Bool
  solve_tsp_calls : List (List Int)

/-- The two loops at the end of `SolveLocalCoverageProblem` that write the "selected" flags. -/
def WriteSelectedFlags (M : ViewPointManager P) (L : LocalCoveragePlanner P)
    (flags : Int → Bool) : Int → Bool :=
  let viewpoint_num := M.GetViewPointNum
  let flags := (List.range viewpoint_num.toNat).foldl
    (fun flags (i : Nat) => SetViewPointSelected M flags (i : Int) false true) flags
  L.last_selected_viewpoint_indices_.foldl (fun flags viewpoint_index =>
    if viewpoint_index ≠ L.robot_viewpoint_ind_ ∧
        viewpoint_index ≠ L.start_viewpoint_ind_ ∧
        viewpoint_index ≠ L.end_viewpoint_ind_ ∧
        viewpoint_index ≠ L.lookahead_viewpoint_ind_ then
      SetViewPointSelected M flags viewpoint_index true false
    else
      flags) flags

/-- The state of the loop variables when the branch is reached. -/
def InitialProgress (S : Sampling P) : Progress P :=
  { min_path_length := none,
    local_path := [],
    last_selected_viewpoint_indices_ := S.planner.last_selected_viewpoint_indices_,
    ordered_viewpoint_indices := [],
    frontier_queue := S.frontier_queue,
    frontier_covered := S.frontier_covered,
    solve_tsp_calls := [] }

/-- The part of `SolveLocalCoverageProblem` after its branch: the array-index mirror of the
cycle memory and the "selected" flags. -/
def Conclude (M : ViewPointManager P) (S : Sampling P) (st : Progress P)
    (local_coverage_complete_ : Bool) (flags : Int → Bool) : Outcome P :=
  let L := { S.planner with
    local_coverage_complete_ := local_coverage_complete_,
    last_selected_viewpoint_indices_ := st.last_selected_viewpoint_indices_ }
  let L := { L with
    last_selected_viewpoint_array_indices_ :=
      L.last_selected_viewpoint_indices_.map M.GetViewPointArrayInd }
  { local_path := st.local_path,
    planner := L,
    selected := WriteSelectedFlags M L flags,
    solve_tsp_calls := st.solve_tsp_calls }

/-- The call `SolveLocalCoverageProblem(global_path, uncovered_point_num,
uncovered_frontier_point_num)` on planner `L`, with `flags` the manager's "selected" flags
before the call. -/
def SolveLocalCoverageProblem (E : Collaborators P) (M : ViewPointManager P)
    (rd : Nat → Nat → Nat) (L : LocalCoveragePlanner P) (flags : Int → Bool)
    (global_path : List (Node P)) (uncovered_point_num uncovered_frontier_point_num : Nat) :
    Except Fault (Outcome P) :=
  match SampleViewPoints E M L global_path uncovered_point_num uncovered_frontier_point_num with
  | Except.error e => Except.error e
  | Except.ok S =>
    if OptimizationBranch S = true then
      match (List.range S.planner.kLocalPathOptimizationItrMax.toNat).foldlM
          (OptimizationItr E M rd S) (InitialProgress S) with
      | Except.error e => Except.error e
      | Except.ok st => Except.ok (Conclude M S st S.planner.local_coverage_complete_ flags)
    else
      match SinglePass E M rd S (InitialProgress S) with
      | Except.error e => Except.error e
      | Except.ok (st, local_coverage_complete_) =>
        Except.ok (Conclude M S st local_coverage_complete_ flags)

/-! ## Notions used to state the properties -/

/-- The post-processed tour of `SolveTSP` (dummy indices dropped, first index re-appended when
start and end coincide), translated to viewpoint ids. -/
def TourViewPoints (E : Collaborators P) (M : ViewPointManager P) (L : LocalCoveragePlanner P)
    (selected_viewpoint_indices : List Int) : List Int :=
  (ClosedPathIndex E M L selected_viewpoint_indices).map (fun p =>
    selected_viewpoint_indices.getD p.toNat 0)

/-- The pairs of consecutive entries of a tour. -/
def ConsecutivePairs (tour : List Int) : List (Int × Int) := tour.zip tour.tail

/-- The interior poses of a path, in the words of the specification: all poses except the first
and the last. -/
def SpecInteriorPoses (poses : List P) : List P := poses.tail.dropLast

/-- The nodes that belong to a tour pair `(u, v)` in the words of the specification: the node of
`u`, the interior poses of the manager's path from `u` to `v` as via-points, the node of `v`. -/
def SpecPairNodes (M : ViewPointManager P) (L : LocalCoveragePlanner P) (u v : Int) :
    List (Node P) :=
  [CurNode M L u] ++
    (SpecInteriorPoses (M.GetViewPointShortestPath u v)).map (fun pose =>
      { position_ := pose, type_ := NodeType.LOCAL_VIA_POINT, local_viewpoint_ind_ := -1 }) ++
    [NextNode M L v]

/-- `Append` adds the node at the end of the path, or leaves the path as it is when its last
node equals the node. -/
def AppendsOrMerges (E : Collaborators P) : Prop :=
  ∀ (path : List (Node P)) (node : Node P),
    E.Append path node = path ++ [node] ∨
      (E.Append path node = path ∧ path.getLast? = some node)

/-- `Append` puts a node into the empty path and leaves a path as it is when its last node
equals the node. -/
def AppendSkipsRepeat (E : Collaborators P) : Prop :=
  (∀ node : Node P, E.Append [] node = [node]) ∧
    ∀ (path : List (Node P)) (node : Node P),
      path.getLast? = some node → E.Append path node = path

/-! ## A concrete planner, used to instantiate the theorems -/

/-- Collaborators over positions labelled by integers: `UniquifyIntVector` sorts and removes
duplicates, the sort is an insertion sort by decreasing gain, `Append` skips a node equal to the
last node of the path, and the solver visits the nodes of the matrix in index order. -/
def DemoCollaborators : Collaborators Int :=
  { UniquifyIntVector := fun l => (l.insertionSort (fun a b => a ≤ b)).dedup,
    SortInRev := fun l => l.insertionSort (fun a b => a.1 ≥ b.1),
    ScaledPathLength := fun poses => 10 * (poses.length : Int),
    Append := fun path node => if path.getLast? = some node then path else path ++ [node],
    GetLength := fun path => path.length,
    TSPSolver := fun distance_matrix _ _ =>
      (List.range distance_matrix.length).map (fun (i : Nat) => (i : Int)) }

/-- A manager with the four viewpoints `0, 1, 2, 3`, ids equal to array indices.  Viewpoint `0`
is the nearest candidate of every position; viewpoints `1, 2, 3` see the surface points
`0 1 2`, `3 4` and `5`.  The path between two viewpoints has four poses. -/
def DemoManager : ViewPointManager Int :=
  { GetNearestCandidateViewPointInd := fun _ => 0,
    InLocalPlanningHorizon := fun _ => true,
    InRange := fun _ => true,
    IsViewPointCandidate := fun _ _ => true,
    ViewPointVisited := fun _ _ => false,
    ViewPointInExploringCell := fun _ => true,
    GetViewPointArrayInd := fun v => v,
    GetViewPointInd := fun v => v,
    GetViewPointCandidateIndices := [0, 1, 2, 3],
    GetViewPointCoveredPointList := fun v _ =>
      if v = 1 then [0, 1, 2] else if v = 2 then [3, 4] else if v = 3 then [5] else [],
    GetViewPointCoveredFrontierPointList := fun _ _ => [],
    GetViewPointCoveredPointNumIn := fun covered v _ =>
      (((if v = 1 then [0, 1, 2] else if v = 2 then [3, 4] else if v = 3 then [5] else []
        : List Nat).filter (fun i => covered.getD i false = false)).length : Int),
    GetViewPointCoveredFrontierPointNumIn := fun _ _ _ => 0,
    GetViewPointCoveredPointNum := fun _ => 0,
    GetViewPointCoveredFrontierPointNum := fun _ => 0,
    GetViewPointShortestPath := fun u v => [u, 10 * u + v + 100, 10 * v + u + 100, v],
    GetViewPointPosition := fun v => v,
    GetViewPointNum := 4 }

/-- A planner with thresholds `1`, sample range `1`, two optimisation iterations, frontier mode
off and an empty cycle memory. -/
def DemoPlanner : LocalCoveragePlanner Int :=
  { kMinAddPointNum := 1,
    kMinAddFrontierPointNum := 1,
    kGreedyViewPointSampleRange := 1,
    kLocalPathOptimizationItrMax := 2,
    lookahead_point_update_ := false,
    use_frontier_ := false,
    local_coverage_complete_ := false,
    robot_position_ := 0,
    lookahead_point_ := 0,
    robot_viewpoint_ind_ := 0,
    start_viewpoint_ind_ := 0,
    end_viewpoint_ind_ := 0,
    lookahead_viewpoint_ind_ := 0,
    last_selected_viewpoint_indices_ := [],
    last_selected_viewpoint_array_indices_ := [] }

/-- A manager whose only candidate is viewpoint `0`, the nearest candidate of every position.
It sees the surface points `0` and `1`; the path between two viewpoints has its two end poses
only. -/
def SoloManager : ViewPointManager Int :=
  { GetNearestCandidateViewPointInd := fun _ => 0,
    InLocalPlanningHorizon := fun _ => true,
    InRange := fun _ => true,
    IsViewPointCandidate := fun v _ => decide (v = 0),
    ViewPointVisited := fun _ _ => false,
    ViewPointInExploringCell := fun _ => true,
    GetViewPointArrayInd := fun v => v,
    GetViewPointInd := fun v => v,
    GetViewPointCandidateIndices := [0],
    GetViewPointCoveredPointList := fun v _ => if v = 0 then [0, 1] else [],
    GetViewPointCoveredFrontierPointList := fun _ _ => [],
    GetViewPointCoveredPointNumIn := fun covered v _ =>
      (((if v = 0 then [0, 1] else [] : List Nat).filter
        (fun i => covered.getD i false = false)).length : Int),
    GetViewPointCoveredFrontierPointNumIn := fun _ _ _ => 0,
    GetViewPointCoveredPointNum := fun _ => 0,
    GetViewPointCoveredFrontierPointNum := fun _ => 0,
    GetViewPointShortestPath := fun u v => [u, v],
    GetViewPointPosition := fun v => v,
    GetViewPointNum := 4 }

/-- The demo collaborators with a solver that returns the one-node tour `[0]`. -/
def SoloCollaborators : Collaborators Int :=
  { DemoCollaborators with TSPSolver := fun _ _ _ => [0] }

/-- The demo collaborators with a solver that returns no tour. -/
def NoTourCollaborators : Collaborators Int :=
  { DemoCollaborators with TSPSolver := fun _ _ _ => [] }

/-- The demo planner with viewpoint `3` in its cycle memory. -/
def StalePlanner : LocalCoveragePlanner Int :=
  { DemoPlanner with
    last_selected_viewpoint_indices_ := [3],
    last_selected_viewpoint_array_indices_ := [3] }

/-- The setting of the end-to-end scenario with one candidate: `v` is the only candidate and the
nearest candidate of every position, frontier mode is off, the cycle memory is empty.  The call
is made with an empty global path.  Two side conditions let the call run: sorting an empty queue
gives an empty queue, and the surface points seen from `v` are within the bitmap. -/
def OneCandidateAtRobot (E : Collaborators P) (M : ViewPointManager P)
    (L : LocalCoveragePlanner P) (v : Int) (uncovered_point_num : Nat) : Prop :=
  M.GetViewPointCandidateIndices = [v] ∧
  (∀ position : P, M.GetNearestCandidateViewPointInd position = v) ∧
  L.use_frontier_ = false ∧
  L.last_selected_viewpoint_indices_ = [] ∧
  L.last_selected_viewpoint_array_indices_ = [] ∧
  E.SortInRev [] = [] ∧
  (∀ point_ind ∈ M.GetViewPointCoveredPointList (M.GetViewPointArrayInd v) true,
    0 ≤ point_ind ∧ point_ind < (uncovered_point_num : Int))

/-- The planner `L` with `local_coverage_complete_` reset and its four anchors at `v`. -/
def AnchoredAt (L : LocalCoveragePlanner P) (v : Int) : LocalCoveragePlanner P :=
  { L with
    local_coverage_complete_ := false,
    robot_viewpoint_ind_ := v,
    lookahead_viewpoint_ind_ := v,
    start_viewpoint_ind_ := v,
    end_viewpoint_ind_ := v }

/-- The test of the boundary walk in the words of the specification: the node is inside the
local planning horizon and is neither of type `GLOBAL_VIEWPOINT` nor of type `HOME`. -/
def SpecWalkable (M : ViewPointManager P) (node : Node P) : Bool :=
  M.InLocalPlanningHorizon node.position_ &&
    (decide (node.type_ ≠ NodeType.GLOBAL_VIEWPOINT) && decide (node.type_ ≠ NodeType.HOME))

/-- The boundary viewpoint in the words of the specification: the nearest candidate to the
position of the last node of the longest prefix of walkable nodes, or `robot` when that prefix
is empty. -/
def SpecBoundaryViewpoint (M : ViewPointManager P) (robot : Int) (global_path : List (Node P)) :
    Int :=
  match (global_path.takeWhile (SpecWalkable M)).getLast? with
  | none => robot
  | some node => M.GetNearestCandidateViewPointInd node.position_

/-- A manager for frontier mode with the three viewpoints `0, 1, 2`, ids equal to array indices,
viewpoint `0` the nearest candidate of every position.  Viewpoint `1` sees the surface points
`0 1 2` and the frontier point `0`; viewpoint `2` sees no surface point and the frontier points
`0 1`.  Gains count the points of a viewpoint that the bitmap does not cover. -/
def FrontierManager : ViewPointManager Int :=
  { GetNearestCandidateViewPointInd := fun _ => 0,
    InLocalPlanningHorizon := fun _ => true,
    InRange := fun _ => true,
    IsViewPointCandidate := fun _ _ => true,
    ViewPointVisited := fun _ _ => false,
    ViewPointInExploringCell := fun _ => true,
    GetViewPointArrayInd := fun v => v,
    GetViewPointInd := fun v => v,
    GetViewPointCandidateIndices := [0, 1, 2],
    GetViewPointCoveredPointList := fun v _ => if v = 1 then [0, 1, 2] else [],
    GetViewPointCoveredFrontierPointList := fun v _ =>
      if v = 1 then [0] else if v = 2 then [0, 1] else [],
    GetViewPointCoveredPointNumIn := fun covered v _ =>
      (((if v = 1 then [0, 1, 2] else [] : List Nat).filter
        (fun i => covered.getD i false = false)).length : Int),
    GetViewPointCoveredFrontierPointNumIn := fun covered v _ =>
      (((if v = 1 then [0] else if v = 2 then [0, 1] else [] : List Nat).filter
        (fun i => covered.getD i false = false)).length : Int),
    GetViewPointCoveredPointNum := fun _ => 0,
    GetViewPointCoveredFrontierPointNum := fun _ => 0,
    GetViewPointShortestPath := fun u v => [u, v],
    GetViewPointPosition := fun v => v,
    GetViewPointNum := 3 }

/-- The demo planner with frontier mode on. -/
def FrontierPlanner : LocalCoveragePlanner Int :=
  { DemoPlanner with use_frontier_ := true }

/-- The three filters of `EnqueueViewpointCandidates` in the words of the specification: the
viewpoint is not visited, lies in an exploring cell, and its array index is not in the list of
already selected array indices. -/
def SpecNotFiltered (M : ViewPointManager P) (selected_viewpoint_array_indices : List Int)
    (v : Int) : Prop :=
  M.ViewPointVisited v false = false ∧ M.ViewPointInExploringCell v = true ∧
    M.GetViewPointArrayInd v ∉ selected_viewpoint_array_indices

/-- The threshold `MinGain` of the specification: `kMinAddFrontierPointNum` in frontier mode,
`kMinAddPointNum` in surface mode. -/
def SpecMinGain (L : LocalCoveragePlanner P) (use_frontier : Bool) : Int :=
  if use_frontier then L.kMinAddFrontierPointNum else L.kMinAddPointNum

/-- The initial gate of the specification is closed: the queue is empty or the gain of its first
entry is below `MinGain`. -/
def SpecGateClosed (L : LocalCoveragePlanner P) (queue : List (Int × Int))
    (use_frontier : Bool) : Prop :=
  queue = [] ∨ ∃ top rest, queue = top :: rest ∧ top.1 < SpecMinGain L use_frontier

/-- The re-ranking of one queue entry in the loop of `SelectViewPoint`: its gain is counted
anew against the working bitmap, its id is kept. -/
def ReRankEntry (M : ViewPointManager P) (use_frontier : Bool) (covered_copy : List Bool)
    (entry : Int × Int) : Except Fault (Int × Int) :=
  match CountUncovered covered_copy
      (CoveredListOf M use_frontier (M.GetViewPointArrayInd entry.2)) with
  | Except.error e => Except.error e
  | Except.ok add_point_num => Except.ok (add_point_num, entry.2)

/-- A matrix of `m` rows of `m` entries each (`distance_matrix(node_size,
std::vector<int>(node_size, 0))` has this shape). -/
def SpecSquare (m : Nat) (distance_matrix : List (List Int)) : Prop :=
  distance_matrix.length = m ∧ ∀ row ∈ distance_matrix, row.length = m

/-- The spec's entry of a pair of real nodes: the scaled length of the manager's path from the
`i`-th to the `j`-th selected viewpoint. -/
def SpecRealDistance (E : Collaborators P) (M : ViewPointManager P)
    (selected_viewpoint_indices : List Int) (i j : Nat) : Int :=
  E.ScaledPathLength (M.GetViewPointShortestPath (selected_viewpoint_indices.getD i 0)
    (selected_viewpoint_indices.getD j 0))

/-- The spec's entry between real node `i` and the dummy anchoring the pair `p`, `q`: `0` iff
`i` is `p` or `q`, else `9999`. -/
def SpecDummyDistance (p q i : Nat) : Int :=
  if i = p ∨ i = q then 0 else 9999

/-- The spec's entry of a pair of nodes against the real nodes alone: the scaled path length of
the pair, whichever way round it is given, and `0` on the diagonal and outside the real
nodes. -/
def SpecRealEntry (E : Collaborators P) (M : ViewPointManager P)
    (selected_viewpoint_indices : List Int) (i j : Nat) : Int :=
  if j < i ∧ i < selected_viewpoint_indices.length then
    SpecRealDistance E M selected_viewpoint_indices i j
  else if i < j ∧ j < selected_viewpoint_indices.length then
    SpecRealDistance E M selected_viewpoint_indices j i
  else 0

/-- The distance matrix in the words of the specification, with `S, E, R, L` the values of
`start_ind`, `end_ind`, `robot_ind`, `lookahead_ind` and `n` the number of selected ids: with
both pairs non-degenerate the dummy `D_SE` is node `n + 1` and the dummy `D_RL` is node `n`; with
one pair non-degenerate its dummy is node `n`; a dummy is at distance `0` from the two nodes of
its pair and at `9999` from every other node; real pairs are at their scaled path length. -/
def SpecDistance (E : Collaborators P) (M : ViewPointManager P) (L : LocalCoveragePlanner P)
    (selected_viewpoint_indices : List Int) (i j : Nat) : Int :=
  let a := GetAnchorInd L selected_viewpoint_indices
  let n := selected_viewpoint_indices.length
  if a.start_ind ≠ a.end_ind ∧ a.robot_ind ≠ a.lookahead_ind then
    if i < n ∧ j = n + 1 then SpecDummyDistance a.start_ind a.end_ind i
    else if j < n ∧ i = n + 1 then SpecDummyDistance a.start_ind a.end_ind j
    else if i < n ∧ j = n then SpecDummyDistance a.robot_ind a.lookahead_ind i
    else if j < n ∧ i = n then SpecDummyDistance a.robot_ind a.lookahead_ind j
    else if (i = n + 1 ∧ j = n) ∨ (i = n ∧ j = n + 1) then 9999
    else SpecRealEntry E M selected_viewpoint_indices i j
  else if a.start_ind ≠ a.end_ind then
    if i < n ∧ j = n then SpecDummyDistance a.start_ind a.end_ind i
    else if j < n ∧ i = n then SpecDummyDistance a.start_ind a.end_ind j
    else SpecRealEntry E M selected_viewpoint_indices i j
  else if a.robot_ind ≠ a.lookahead_ind then
    if i < n ∧ j = n then SpecDummyDistance a.robot_ind a.lookahead_ind i
    else if j < n ∧ i = n then SpecDummyDistance a.robot_ind a.lookahead_ind j
    else SpecRealEntry E M selected_viewpoint_indices i j
  else SpecRealEntry E M selected_viewpoint_indices i j

/-- The demo planner with four distinct anchors: robot at viewpoint `0`, start at `1`, end at
`2`, lookahead at `3`. -/
def SpreadPlanner : LocalCoveragePlanner Int :=
  { DemoPlanner with
    robot_viewpoint_ind_ := 0,
    start_viewpoint_ind_ := 1,
    end_viewpoint_ind_ := 2,
    lookahead_viewpoint_ind_ := 3 }

/-- The demo collaborators with a path length of one unit per segment between consecutive
poses, so that a path without poses has length `0`. -/
def SegmentCollaborators : Collaborators Int :=
  { DemoCollaborators with
    ScaledPathLength := fun poses => 10 * ((poses.length - 1 : Nat) : Int) }

/-- The demo manager with two-pose paths, except that it has no path (an empty pose list) from
viewpoint `2` to viewpoint `1`. -/
def GapManager : ViewPointManager Int :=
  { DemoManager with
    GetViewPointShortestPath := fun u v => if u = 2 ∧ v = 1 then [] else [u, v] }

/-- One of the four anchors of the planner: start, end, robot or lookahead viewpoint. -/
def SpecAnchor (L : LocalCoveragePlanner P) (v : Int) : Prop :=
  v = L.start_viewpoint_ind_ ∨ v = L.end_viewpoint_ind_ ∨ v = L.robot_viewpoint_ind_ ∨
    v = L.lookahead_viewpoint_ind_

/-- Eligibility in the words of the specification, for a viewpoint id: (a) it is listed among
the manager's candidates, (b) it is not visited, (c) it lies in an exploring cell. -/
def SpecEligible (M : ViewPointManager P) (v : Int) : Prop :=
  v ∈ M.GetViewPointCandidateIndices ∧ M.ViewPointVisited v false = false ∧
    M.ViewPointInExploringCell v = true

/-- The test of the reuse step in the words of the specification: `v` is the id of an array
index of the cycle memory that is not visited and is still a candidate. -/
def SpecReusable (M : ViewPointManager P) (L : LocalCoveragePlanner P) (v : Int) : Prop :=
  ∃ array_ind ∈ L.last_selected_viewpoint_array_indices_,
    v = M.GetViewPointInd array_ind ∧ M.ViewPointVisited array_ind true = false ∧
      M.IsViewPointCandidate array_ind true = true

/-- The demo manager with viewpoint `3` outside every exploring cell. -/
def DimManager : ViewPointManager Int :=
  { DemoManager with ViewPointInExploringCell := fun v => decide (v ≠ 3) }

/-- The test after a pick and the re-ranking, in the words of the specification: the working
queue is non-empty and its top gain reaches `kMinAddPointNum` and, in frontier mode,
`kMinAddFrontierPointNum` as well. -/
def SpecContinues (L : LocalCoveragePlanner P) (use_frontier : Bool)
    (working : List (Int × Int)) : Prop :=
  ∃ top rest, working = top :: rest ∧
    if use_frontier then top.1 ≥ L.kMinAddPointNum ∧ top.1 ≥ L.kMinAddFrontierPointNum
    else top.1 ≥ L.kMinAddPointNum

/-- The lines "Randomly select the next point" of the loop of `SelectViewPoint`, followed by the
next round of the loop: the draw, the read `queue_copy[queue_idx]`, the next pick. -/
def NextPick (E : Collaborators P) (M : ViewPointManager P) (L : LocalCoveragePlanner P)
    (gen : Nat → Nat) (queue : List (Int × Int)) (use_frontier : Bool) (fuel k : Nat)
    (covered_copy : List Bool) (queue_copy : List (Int × Int))
    (selected_viewpoint_indices : List Int) : Except Fault (List Int) :=
  match DrawQueueIdx gen k
      (min L.kGreedyViewPointSampleRange (CountSampleRange L queue use_frontier)) with
  | Except.error e => Except.error e
  | Except.ok queue_idx =>
    match queue_copy[queue_idx]? with
    | none => Except.error Fault.out_of_range
    | some entry =>
      SelectViewPointLoop E M L gen queue use_frontier fuel (k + 1) covered_copy queue_copy
        selected_viewpoint_indices queue_idx entry.2

/-- Deterministic greedy in the words of the specification, one pick per round: the head of the
working queue is picked, its points are marked, the remaining entries are re-ranked and sorted,
and the next round follows while the top gain reaches the thresholds. -/
def SpecGreedyLoop (E : Collaborators P) (M : ViewPointManager P) (L : LocalCoveragePlanner P)
    (use_frontier : Bool) :
    Nat → List Bool → Int × Int → List (Int × Int) → List Int → Except Fault (List Int)
  | 0, _, _, _, _ => Except.error Fault.fuel
  | fuel + 1, covered_copy, head, tail, selected_viewpoint_indices =>
    match (CoveredListOf M use_frontier (M.GetViewPointArrayInd head.2)).foldlM MarkCovered
        covered_copy with
    | Except.error e => Except.error e
    | Except.ok covered_copy =>
      match tail.mapM (ReRankEntry M use_frontier covered_copy) with
      | Except.error e => Except.error e
      | Except.ok ranked =>
        match E.SortInRev ranked with
        | [] => Except.ok (selected_viewpoint_indices ++ [head.2])
        | top :: rest =>
          if top.1 ≥ L.kMinAddPointNum ∧
              (use_frontier = true → top.1 ≥ L.kMinAddFrontierPointNum) then
            SpecGreedyLoop E M L use_frontier fuel covered_copy top rest
              (selected_viewpoint_indices ++ [head.2])
          else
            Except.ok (selected_viewpoint_indices ++ [head.2])

/-- Deterministic greedy selection in the words of the specification: nothing is picked when the
queue is empty or its top gain is below `MinGain`; otherwise the picks start at the head of the
queue.  No random generator takes part. -/
def SpecGreedy (E : Collaborators P) (M : ViewPointManager P) (L : LocalCoveragePlanner P)
    (queue : List (Int × Int)) (covered : List Bool) (selected_viewpoint_indices : List Int)
    (use_frontier : Bool) : Except Fault (List Int) :=
  match queue with
  | [] => Except.ok selected_viewpoint_indices
  | head :: tail =>
    if head.1 < SpecMinGain L use_frontier then Except.ok selected_viewpoint_indices
    else
      SpecGreedyLoop E M L use_frontier queue.length covered head tail
        selected_viewpoint_indices

/-- The demo planner with a sample range of `2`. -/
def RangeTwoPlanner : LocalCoveragePlanner Int :=
  { DemoPlanner with kGreedyViewPointSampleRange := 2 }

/-- The demo manager with viewpoint `3` seeing surface point `0` only, a point that viewpoint
`1` sees too. -/
def NestedManager : ViewPointManager Int :=
  { DemoManager with
    GetViewPointCoveredPointList := fun v _ =>
      if v = 1 then [0, 1, 2] else if v = 2 then [3, 4] else if v = 3 then [0] else [],
    GetViewPointCoveredPointNumIn := fun covered v _ =>
      (((if v = 1 then [0, 1, 2] else if v = 2 then [3, 4] else if v = 3 then [0] else []
        : List Nat).filter (fun i => covered.getD i false = false)).length : Int) }

/-- The demo manager with a gain of `2` surface points for every viewpoint in the one-argument
query `GetViewPointCoveredPointNum`. -/
def RichManager : ViewPointManager Int :=
  { DemoManager with GetViewPointCoveredPointNum := fun _ => 2 }

/-- The path of an iteration of the optimisation loop, by the selection it hands to
`SolveTSP`. -/
def SpecIterationPath (E : Collaborators P) (M : ViewPointManager P)
    (L : LocalCoveragePlanner P) (selected_viewpoint_indices : List Int) : List (Node P) :=
  (SolveTSP E M L selected_viewpoint_indices []).1

/-- The ordered id list of an iteration of the optimisation loop, by the selection it hands to
`SolveTSP`. -/
def SpecIterationOrder (E : Collaborators P) (M : ViewPointManager P)
    (L : LocalCoveragePlanner P) (selected_viewpoint_indices : List Int) : List Int :=
  (SolveTSP E M L selected_viewpoint_indices []).2

/-- Iteration `i` is the one to keep, in the words of the specification: its path is non-empty,
no non-empty path of any iteration is shorter, and every non-empty path of an earlier iteration
is longer.  `calls` lists the selections of the iterations, oldest first. -/
def SpecKept (E : Collaborators P) (M : ViewPointManager P) (L : LocalCoveragePlanner P)
    (calls : List (List Int)) (i : Nat) : Prop :=
  i < calls.length ∧
  (SpecIterationPath E M L (calls.getD i [])).isEmpty = false ∧
  (∀ j, j < calls.length → (SpecIterationPath E M L (calls.getD j [])).isEmpty = false →
    E.GetLength (SpecIterationPath E M L (calls.getD i [])) ≤
      E.GetLength (SpecIterationPath E M L (calls.getD j []))) ∧
  (∀ j, j < i → (SpecIterationPath E M L (calls.getD j [])).isEmpty = false →
    E.GetLength (SpecIterationPath E M L (calls.getD i [])) <
      E.GetLength (SpecIterationPath E M L (calls.getD j [])))

/-- The state of the optimisation loop keeps the shortest path so far: either no iteration has
given a non-empty path yet and path, cycle memory and minimum are as at the start, or they are
those of the iteration to keep. -/
def KeepsShortest (E : Collaborators P) (M : ViewPointManager P) (L : LocalCoveragePlanner P)
    (memory : List Int) (st : Progress P) : Prop :=
  (st.min_path_length = none ∧ st.local_path = [] ∧
      st.last_selected_viewpoint_indices_ = memory ∧
      ∀ sel ∈ st.solve_tsp_calls, (SpecIterationPath E M L sel).isEmpty = true) ∨
    ∃ i, SpecKept E M L st.solve_tsp_calls i ∧
      st.min_path_length =
        some (E.GetLength (SpecIterationPath E M L (st.solve_tsp_calls.getD i []))) ∧
      st.local_path = SpecIterationPath E M L (st.solve_tsp_calls.getD i []) ∧
      st.last_selected_viewpoint_indices_ =
        SpecIterationOrder E M L (st.solve_tsp_calls.getD i [])

/-! ## Auxiliary lemmas -/

theorem foldl_range_consecutive {α β : Type} (d : α) (step : β → α → α → β) :
    ∀ (t : List α) (init : β),
      (List.range (t.length - 1)).foldl
          (fun acc i => step acc (t.getD i d) (t.getD (i + 1) d)) init =
        (t.zip t.tail).foldl (fun acc uv => step acc uv.1 uv.2) init
  | [], init => by simp
  | [a], init => by simp
  | a :: b :: t, init => by
    have ih := foldl_range_consecutive d step (b :: t) (step init a b)
    simp only [List.length_cons, Nat.add_sub_cancel] at ih ⊢
    rw [List.range_succ_eq_map, List.foldl_cons, List.foldl_map]
    simp only [List.tail_cons, List.zip_cons_cons, List.foldl_cons] at ih ⊢
    rw [← ih]
    simp [List.getD_cons_succ]

theorem filterMap_range'_getElem? {α : Type} (poses : List α) :
    ∀ (k s : Nat), (List.range' s k).filterMap (fun j => poses[j]?) = (poses.drop s).take k
  | 0, s => by simp
  | k + 1, s => by
    rw [List.range'_succ, List.filterMap_cons]
    by_cases h : s < poses.length
    · rw [List.getElem?_eq_getElem h, List.drop_eq_getElem_cons h, List.take_succ_cons,
        filterMap_range'_getElem? poses k (s + 1)]
    · have h1 : poses[s]? = none := List.getElem?_eq_none (Nat.le_of_not_lt h)
      have h2 : poses.drop s = [] := List.drop_eq_nil_of_le (Nat.le_of_not_lt h)
      have h3 : poses.drop (s + 1) = [] := List.drop_eq_nil_of_le (by omega)
      rw [h1, filterMap_range'_getElem? poses k (s + 1), h2, h3]
      simp

theorem foldl_match_eq_filterMap {α β γ : Type} (f : γ → Option α) (g : β → α → β) :
    ∀ (l : List γ) (init : β),
      l.foldl (fun acc j => match f j with
        | some a => g acc a
        | none => acc) init = (l.filterMap f).foldl g init
  | [], init => rfl
  | j :: l, init => by
    rw [List.foldl_cons, List.filterMap_cons]
    cases h : f j with
    | none => simpa using foldl_match_eq_filterMap f g l init
    | some a => simpa using foldl_match_eq_filterMap f g l (g init a)

theorem AppendViaPoints_eq (E : Collaborators P) (poses : List P) (tsp_path : List (Node P)) :
    AppendViaPoints E poses tsp_path =
      ((SpecInteriorPoses poses).map ViaNode).foldl E.Append tsp_path := by
  unfold AppendViaPoints SpecInteriorPoses
  by_cases h : poses.length > 2
  · rw [if_pos h]
    have h1 := foldl_match_eq_filterMap (fun j => poses[j]?)
      (fun acc pose => E.Append acc (ViaNode pose)) (List.range' 1 (poses.length - 1 - 1)) tsp_path
    rw [h1, filterMap_range'_getElem?, List.foldl_map, List.dropLast_eq_take]
    simp [List.length_tail]
  · rw [if_neg h]
    have h2 : poses.tail.dropLast = [] := by
      match poses, h with
      | [], _ => rfl
      | [a], _ => rfl
      | [a, b], _ => rfl
      | a :: b :: c :: t, h => simp at h
    rw [h2]
    rfl

theorem AssemblePath_eq (E : Collaborators P) (M : ViewPointManager P)
    (L : LocalCoveragePlanner P) (selected path_index : List Int) :
    AssemblePath E M L selected path_index =
      ((ConsecutivePairs (path_index.map (fun p => selected.getD p.toNat 0))).flatMap
        (fun uv => SpecPairNodes M L uv.1 uv.2)).foldl E.Append [] := by
  have key : ∀ (pairs : List (Int × Int)) (init : List (Node P)),
      pairs.foldl (fun tsp_path uv =>
        E.Append (AppendViaPoints E (M.GetViewPointShortestPath
            (selected.getD uv.1.toNat 0) (selected.getD uv.2.toNat 0))
          (E.Append tsp_path (CurNode M L (selected.getD uv.1.toNat 0))))
          (NextNode M L (selected.getD uv.2.toNat 0))) init =
      ((pairs.map (fun uv => (selected.getD uv.1.toNat 0, selected.getD uv.2.toNat 0))).flatMap
        (fun uv => SpecPairNodes M L uv.1 uv.2)).foldl E.Append init := by
    intro pairs
    induction pairs with
    | nil => intro init; rfl
    | cons uv pairs ih =>
      intro init
      rw [List.foldl_cons, ih, List.map_cons, List.flatMap_cons, List.foldl_append]
      congr 1
      have hv : (fun pose : P => Node.mk pose NodeType.LOCAL_VIA_POINT (-1)) = ViaNode := rfl
      simp [SpecPairNodes, AppendViaPoints_eq, List.foldl_append, hv]
  have hz : ConsecutivePairs (path_index.map (fun p => selected.getD p.toNat 0)) =
      (path_index.zip path_index.tail).map
        (fun uv => (selected.getD uv.1.toNat 0, selected.getD uv.2.toNat 0)) := by
    unfold ConsecutivePairs
    rw [← List.map_tail, List.zip_map]
    rfl
  rw [hz, ← key]
  unfold AssemblePath
  by_cases h : path_index.length > 1
  · rw [if_pos h]
    exact foldl_range_consecutive 0 (fun tsp_path p q =>
        E.Append (AppendViaPoints E (M.GetViewPointShortestPath
            (selected.getD p.toNat 0) (selected.getD q.toNat 0))
          (E.Append tsp_path (CurNode M L (selected.getD p.toNat 0))))
          (NextNode M L (selected.getD q.toNat 0))) path_index []
  · rw [if_neg h]
    match path_index, h with
    | [], _ => rfl
    | [a], _ => rfl
    | a :: b :: t, h => simp at h

theorem FilteredPathIndex_nil (E : Collaborators P) (M : ViewPointManager P)
    (L : LocalCoveragePlanner P) : FilteredPathIndex E M L [] = [] := by
  unfold FilteredPathIndex
  apply List.filter_eq_nil_iff.mpr
  intro a _
  by_cases h : 0 ≤ a
  · simp [h]
  · have h2 : a < 0 := by omega
    simp [h, h2]

theorem SolveTSP_path_eq (E : Collaborators P) (M : ViewPointManager P)
    (L : LocalCoveragePlanner P) (selected ordered : List Int) :
    (SolveTSP E M L selected ordered).1 =
      ((ConsecutivePairs (TourViewPoints E M L selected)).flatMap
        (fun uv => SpecPairNodes M L uv.1 uv.2)).foldl E.Append [] := by
  cases selected with
  | nil =>
    simp [SolveTSP, TourViewPoints, ClosedPathIndex, FilteredPathIndex_nil, ConsecutivePairs]
  | cons a t =>
    simp only [SolveTSP, TourViewPoints]
    exact AssemblePath_eq E M L (a :: t) _

theorem CurNode_ind (M : ViewPointManager P) (L : LocalCoveragePlanner P) (u : Int) :
    (CurNode M L u).local_viewpoint_ind_ = u ∧
      (CurNode M L u).position_ = M.GetViewPointPosition u ∧
      (CurNode M L u).type_ ≠ NodeType.LOCAL_VIA_POINT := by
  unfold CurNode
  simp only []
  split_ifs <;> simp

theorem NextNode_ind (M : ViewPointManager P) (L : LocalCoveragePlanner P) (v : Int) :
    (NextNode M L v).local_viewpoint_ind_ = v ∧
      (NextNode M L v).position_ = M.GetViewPointPosition v ∧
      (NextNode M L v).type_ ≠ NodeType.LOCAL_VIA_POINT := by
  unfold NextNode
  simp only []
  split_ifs <;> simp

theorem mem_FilteredPathIndex (E : Collaborators P) (M : ViewPointManager P)
    (L : LocalCoveragePlanner P) (selected : List Int) (p : Int)
    (h : p ∈ FilteredPathIndex E M L selected) : 0 ≤ p ∧ p < (selected.length : Int) := by
  unfold FilteredPathIndex at h
  simp only [List.mem_filter] at h
  have h2 := h.2
  simp at h2
  omega

theorem foldl_Append_ends (E : Collaborators P) (hA : AppendsOrMerges E) :
    ∀ (emitted path : List (Node P)), path ++ emitted ≠ [] →
      (emitted.foldl E.Append path).head? = (path ++ emitted).head? ∧
        (emitted.foldl E.Append path).getLast? = (path ++ emitted).getLast?
  | [], path, _ => by simp
  | node :: emitted, path, _ => by
    rw [List.foldl_cons]
    rcases hA path node with h | ⟨h, hlast⟩
    · rw [h]
      have ih := foldl_Append_ends E hA emitted (path ++ [node]) (by simp)
      simpa using ih
    · have hp : path ≠ [] := by
        intro hnil
        simp [hnil] at hlast
      rw [h]
      have ih := foldl_Append_ends E hA emitted path (by simp [hp])
      refine ⟨?_, ?_⟩
      · rw [ih.1]
        cases path with
        | nil => exact absurd rfl hp
        | cons a t => simp
      · rw [ih.2]
        cases emitted with
        | nil => simp [hlast]
        | cons b t =>
          rw [List.getLast?_append_of_ne_nil _ (by simp),
            List.getLast?_append_of_ne_nil _ (by simp)]
          simp [List.getLast?_cons_cons]

theorem emitted_ends (M : ViewPointManager P) (L : LocalCoveragePlanner P) :
    ∀ (rest : List Int) (u : Int), rest ≠ [] →
      ((ConsecutivePairs (u :: rest)).flatMap (fun uv => SpecPairNodes M L uv.1 uv.2)).head? =
          some (CurNode M L u) ∧
        ∀ (d : Int),
          ((ConsecutivePairs (u :: rest)).flatMap
            (fun uv => SpecPairNodes M L uv.1 uv.2)).getLast? =
              some (NextNode M L ((u :: rest).getLastD d))
  | [], u, h => absurd rfl h
  | [v], u, _ => by
    constructor
    · simp [ConsecutivePairs, SpecPairNodes]
    · intro d
      simp only [ConsecutivePairs, List.tail_cons, List.zip_cons_cons, List.zip_nil_right,
        List.flatMap_cons, List.flatMap_nil, List.append_nil, SpecPairNodes]
      rw [List.getLast?_concat]
      simp
  | v :: w :: rest, u, _ => by
    have ih := emitted_ends M L (w :: rest) v (by simp)
    constructor
    · simp [ConsecutivePairs, SpecPairNodes]
    · intro d
      have h2 := ih.2 d
      simp only [ConsecutivePairs, List.tail_cons, List.zip_cons_cons, List.flatMap_cons] at h2 ⊢
      rw [List.getLast?_append_of_ne_nil _ (by simp [SpecPairNodes])]
      rw [h2]
      simp

theorem GetAnchorInd_start_eq_end (L : LocalCoveragePlanner P) (selected : List Int)
    (h : L.start_viewpoint_ind_ = L.end_viewpoint_ind_) :
    (GetAnchorInd L selected).start_ind = (GetAnchorInd L selected).end_ind := by
  unfold GetAnchorInd
  generalize List.range selected.length = idx
  have key : ∀ (l : List Nat) (a : AnchorInd), a.start_ind = a.end_ind →
      (l.foldl (fun a i =>
        let a := if selected.getD i 0 = L.start_viewpoint_ind_ then
          { a with start_ind := i } else a
        let a := if selected.getD i 0 = L.end_viewpoint_ind_ then
          { a with end_ind := i } else a
        let a := if selected.getD i 0 = L.robot_viewpoint_ind_ then
          { a with robot_ind := i } else a
        let a := if selected.getD i 0 = L.lookahead_viewpoint_ind_ then
          { a with lookahead_ind := i } else a
        a) a).start_ind =
      (l.foldl (fun a i =>
        let a := if selected.getD i 0 = L.start_viewpoint_ind_ then
          { a with start_ind := i } else a
        let a := if selected.getD i 0 = L.end_viewpoint_ind_ then
          { a with end_ind := i } else a
        let a := if selected.getD i 0 = L.robot_viewpoint_ind_ then
          { a with robot_ind := i } else a
        let a := if selected.getD i 0 = L.lookahead_viewpoint_ind_ then
          { a with lookahead_ind := i } else a
        a) a).end_ind := by
    intro l
    induction l with
    | nil => intro a ha; exact ha
    | cons i l ih =>
      intro a ha
      rw [List.foldl_cons]
      apply ih
      rw [← h]
      simp only []
      split_ifs <;> simp [ha]
  exact key idx _ rfl

theorem DemoCollaborators_AppendsOrMerges : AppendsOrMerges DemoCollaborators := by
  intro path node
  by_cases h : path.getLast? = some node
  · exact Or.inr ⟨by simp [DemoCollaborators, h], h⟩
  · exact Or.inl (by simp [DemoCollaborators, h])

/-- C8: when `start_viewpoint_ind_` equals `end_viewpoint_ind_` and the tour is non-empty (the
solver's answer holds at least one index of a real node), the path returned by `SolveTSP` is
closed: it has a first and a last node, and they carry the same viewpoint id and the same
position.  `Append` may push each node or skip a node equal to the last one. -/
theorem SolveTSP_closed_when_start_eq_end (E : Collaborators P) (M : ViewPointManager P)
    (L : LocalCoveragePlanner P) (selected ordered : List Int)
    (hA : AppendsOrMerges E)
    (hse : L.start_viewpoint_ind_ = L.end_viewpoint_ind_)
    (htour : ∃ p ∈ E.TSPSolver (DistanceMatrix E M L selected) (GetAnchorInd L selected).start_ind
        (decide ((GetAnchorInd L selected).start_ind ≠ (GetAnchorInd L selected).end_ind)),
      0 ≤ p ∧ p < (selected.length : Int)) :
    ∃ first last : Node P,
      (SolveTSP E M L selected ordered).1.head? = some first ∧
      (SolveTSP E M L selected ordered).1.getLast? = some last ∧
      first.local_viewpoint_ind_ = last.local_viewpoint_ind_ ∧
      first.position_ = last.position_ := by
  rw [SolveTSP_path_eq]
  obtain ⟨p, hp, hp0, hpn⟩ := htour
  have hmem : p ∈ FilteredPathIndex E M L selected := by
    unfold FilteredPathIndex
    simp only [List.mem_filter]
    refine ⟨hp, ?_⟩
    have h1 : ¬ (p ≥ (selected.length : Int)) := by omega
    have h2 : ¬ (p < 0) := by omega
    simp [h1, h2]
  have hidx := GetAnchorInd_start_eq_end L selected hse
  obtain ⟨first, rest, hf⟩ : ∃ first rest, FilteredPathIndex E M L selected = first :: rest := by
    cases hfl : FilteredPathIndex E M L selected with
    | nil => rw [hfl] at hmem; simp at hmem
    | cons a t => exact ⟨a, t, rfl⟩
  have htv : TourViewPoints E M L selected =
      selected.getD first.toNat 0 ::
        (rest.map (fun p => selected.getD p.toNat 0) ++ [selected.getD first.toNat 0]) := by
    unfold TourViewPoints ClosedPathIndex
    simp only [hf, hidx, if_true]
    simp
  have hrest : rest.map (fun p => selected.getD p.toNat 0) ++ [selected.getD first.toNat 0] ≠
      [] := by simp
  have hends := emitted_ends M L _ (selected.getD first.toNat 0) hrest
  rw [htv]
  have hne : ([] : List (Node P)) ++
      ((ConsecutivePairs (selected.getD first.toNat 0 ::
        (rest.map (fun p => selected.getD p.toNat 0) ++ [selected.getD first.toNat 0]))).flatMap
          (fun uv => SpecPairNodes M L uv.1 uv.2)) ≠ [] := by
    intro hnil
    have h1 := hends.1
    rw [List.nil_append] at hnil
    rw [hnil] at h1
    simp at h1
  have hfold := foldl_Append_ends E hA _ [] hne
  rw [List.nil_append] at hfold
  refine ⟨CurNode M L (selected.getD first.toNat 0),
    NextNode M L (selected.getD first.toNat 0), ?_, ?_, ?_, ?_⟩
  · rw [hfold.1, hends.1]
  · rw [hfold.2, hends.2 0]
    have hl : (selected.getD first.toNat 0 ::
        (rest.map (fun p => selected.getD p.toNat 0) ++ [selected.getD first.toNat 0])).getLastD
          0 = selected.getD first.toNat 0 := by
      rw [← List.cons_append, List.getLastD_eq_getLast?, List.getLast?_concat]
      rfl
    rw [hl]
  · rw [(CurNode_ind M L _).1, (NextNode_ind M L _).1]
  · rw [(CurNode_ind M L _).2.1, (NextNode_ind M L _).2.1]

/-- Instance of C8: the selection `0, 1, 2` with all anchors at viewpoint `0`. -/
theorem SolveTSP_closed_when_start_eq_end_witness :
    DemoPlanner.start_viewpoint_ind_ = DemoPlanner.end_viewpoint_ind_ ∧
    ∃ first last : Node Int,
      (SolveTSP DemoCollaborators DemoManager DemoPlanner [0, 1, 2] []).1.head? = some first ∧
      (SolveTSP DemoCollaborators DemoManager DemoPlanner [0, 1, 2] []).1.getLast? = some last ∧
      first.local_viewpoint_ind_ = last.local_viewpoint_ind_ ∧
      first.position_ = last.position_ :=
  ⟨rfl, SolveTSP_closed_when_start_eq_end DemoCollaborators DemoManager DemoPlanner [0, 1, 2] []
    DemoCollaborators_AppendsOrMerges rfl ⟨0, by decide, by decide, by decide⟩⟩

theorem SpecPairNodes_of_short_path (M : ViewPointManager P) (L : LocalCoveragePlanner P)
    (u v : Int) (h : (M.GetViewPointShortestPath u v).length ≤ 2) :
    SpecPairNodes M L u v = [CurNode M L u, NextNode M L v] := by
  unfold SpecPairNodes SpecInteriorPoses
  match hp : M.GetViewPointShortestPath u v, h with
  | [], _ => rfl
  | [a], _ => rfl
  | [a, b], _ => rfl
  | a :: b :: c :: t, h => simp at h

/-- C9: the nodes that `SolveTSP` appends to its path are, for the consecutive pairs `(u, v)` of
the post-processed tour in order, the node of `u`, then the interior poses (all poses but the
first and the last) of the manager's path from `u` to `v`, in order, each as a node of type
`LOCAL_VIA_POINT` at the pose's position, then the node of `v`; nothing stands between the two
when the path has at most 2 poses. -/
theorem SolveTSP_via_points_are_interior_poses (E : Collaborators P) (M : ViewPointManager P)
    (L : LocalCoveragePlanner P) (selected ordered : List Int) :
    (SolveTSP E M L selected ordered).1 =
        ((ConsecutivePairs (TourViewPoints E M L selected)).flatMap
          (fun uv => SpecPairNodes M L uv.1 uv.2)).foldl E.Append [] ∧
      ∀ u v : Int, (M.GetViewPointShortestPath u v).length ≤ 2 →
        SpecPairNodes M L u v = [CurNode M L u, NextNode M L v] := by
  exact ⟨SolveTSP_path_eq E M L selected ordered, SpecPairNodes_of_short_path M L⟩

theorem foldlM_invariant {σ α : Type} (f : σ → α → Except Fault σ) (Inv : σ → Prop)
    (hstep : ∀ s a s', Inv s → f s a = Except.ok s' → Inv s') :
    ∀ (l : List α) (s s' : σ), Inv s → l.foldlM f s = Except.ok s' → Inv s'
  | [], s, s', hs, h => by
    simp only [List.foldlM_nil, pure, Except.pure, Except.ok.injEq] at h
    exact h ▸ hs
  | a :: l, s, s', hs, h => by
    rw [List.foldlM_cons] at h
    cases hf : f s a with
    | error e =>
      rw [hf] at h
      simp [bind, Except.bind] at h
    | ok s1 =>
      rw [hf] at h
      simp only [bind, Except.bind] at h
      exact foldlM_invariant f Inv hstep l s1 s' (hstep s a s1 hs hf) h

theorem SampleViewPoints_ok (E : Collaborators P) (M : ViewPointManager P)
    (L : LocalCoveragePlanner P) (global_path : List (Node P))
    (uncovered_point_num uncovered_frontier_point_num : Nat) (S : Sampling P)
    (h : SampleViewPoints E M L global_path uncovered_point_num uncovered_frontier_point_num =
      Except.ok S) :
    S.planner =
        (GetNavigationViewPointIndices M { L with local_coverage_complete_ := false }
          global_path []).1 ∧
      S.navigation_viewpoint_indices =
        [S.planner.start_viewpoint_ind_, S.planner.end_viewpoint_ind_,
          S.planner.robot_viewpoint_ind_, S.planner.lookahead_viewpoint_ind_] := by
  unfold SampleViewPoints at h
  simp only [] at h
  split at h
  · exact absurd h (by simp)
  · simp only [Except.ok.injEq] at h
    subst h
    exact ⟨rfl, by simp [GetNavigationViewPointIndices]⟩

theorem GetNavigationViewPointIndices_keeps (M : ViewPointManager P)
    (L : LocalCoveragePlanner P) (global_path : List (Node P)) (nav : List Int) :
    (GetNavigationViewPointIndices M L global_path nav).1.local_coverage_complete_ =
        L.local_coverage_complete_ ∧
      (GetNavigationViewPointIndices M L global_path nav).1.last_selected_viewpoint_indices_ =
        L.last_selected_viewpoint_indices_ ∧
      (GetNavigationViewPointIndices M L global_path nav).1.last_selected_viewpoint_array_indices_ =
        L.last_selected_viewpoint_array_indices_ ∧
      (GetNavigationViewPointIndices M L global_path nav).1.use_frontier_ = L.use_frontier_ ∧
      (GetNavigationViewPointIndices M L global_path nav).1.kMinAddPointNum =
        L.kMinAddPointNum := by
  unfold GetNavigationViewPointIndices GetBoundaryViewpointIndices
  simp only []
  split_ifs <;> simp

/-- What an iteration of the optimisation loop that returns has done. -/
theorem OptimizationItr_ok (E : Collaborators P) (M : ViewPointManager P)
    (rd : Nat → Nat → Nat) (S : Sampling P) (st st' : Progress P) (itr : Nat)
    (h : OptimizationItr E M rd S st itr = Except.ok st') :
    ∃ (sel : List Int) (frontier_queue : List (Int × Int)) (frontier_covered : List Bool),
      st'.solve_tsp_calls = st.solve_tsp_calls ++
        [E.UniquifyIntVector (sel ++ S.reused_viewpoint_indices ++
          S.navigation_viewpoint_indices)] ∧
      st'.ordered_viewpoint_indices =
        (SolveTSP E M S.planner (E.UniquifyIntVector (sel ++ S.reused_viewpoint_indices ++
          S.navigation_viewpoint_indices)) st.ordered_viewpoint_indices).2 ∧
      st'.frontier_queue = frontier_queue ∧
      st'.frontier_covered = frontier_covered ∧
      ((st'.last_selected_viewpoint_indices_ = st'.ordered_viewpoint_indices ∧
          st'.local_path =
            (SolveTSP E M S.planner (E.UniquifyIntVector (sel ++ S.reused_viewpoint_indices ++
              S.navigation_viewpoint_indices)) st.ordered_viewpoint_indices).1 ∧
          st'.local_path.isEmpty = false) ∨
        (st'.last_selected_viewpoint_indices_ = st.last_selected_viewpoint_indices_ ∧
          st'.local_path = st.local_path)) := by
  unfold OptimizationItr at h
  simp only [] at h
  split at h
  · exact absurd h (by simp)
  · rename_i sel0 hsel0
    split at h
    · exact absurd h (by simp)
    · rename_i fq fc sel hsel
      refine ⟨sel, fq, fc, ?_⟩
      split_ifs at h with hc
      · simp only [Except.ok.injEq] at h
        subst h
        exact ⟨rfl, rfl, rfl, rfl, Or.inl ⟨rfl, rfl, hc.1⟩⟩
      · simp only [Except.ok.injEq] at h
        subst h
        exact ⟨rfl, rfl, rfl, rfl, Or.inr ⟨rfl, rfl⟩⟩

/-- What the `else` branch has done when it returns. -/
theorem SinglePass_ok (E : Collaborators P) (M : ViewPointManager P)
    (rd : Nat → Nat → Nat) (S : Sampling P) (st st' : Progress P) (complete : Bool)
    (h : SinglePass E M rd S st = Except.ok (st', complete)) :
    ∃ (sel : List Int) (frontier_queue : List (Int × Int)) (frontier_covered : List Bool),
      SelectViewPointFromFrontierQueue E M S.planner (rd 0) st.frontier_queue
          st.frontier_covered S.reused_viewpoint_indices =
        Except.ok (frontier_queue, frontier_covered, sel) ∧
      complete = (if sel = [] then true else S.planner.local_coverage_complete_) ∧
      st'.solve_tsp_calls = st.solve_tsp_calls ++
        [E.UniquifyIntVector (sel ++ S.navigation_viewpoint_indices)] ∧
      st'.last_selected_viewpoint_indices_ =
        (SolveTSP E M S.planner (E.UniquifyIntVector (sel ++ S.navigation_viewpoint_indices))
          st.ordered_viewpoint_indices).2 ∧
      st'.local_path =
        (SolveTSP E M S.planner (E.UniquifyIntVector (sel ++ S.navigation_viewpoint_indices))
          st.ordered_viewpoint_indices).1 := by
  unfold SinglePass at h
  simp only [List.nil_append] at h
  split at h
  · exact absurd h (by simp)
  · rename_i fq fc sel hsel
    simp only [Except.ok.injEq, Prod.mk.injEq] at h
    obtain ⟨h1, h2⟩ := h
    subst h1
    subst h2
    exact ⟨sel, fq, fc, hsel, rfl, rfl, rfl, rfl⟩

/-- The shape of a call that returns: the sampling stage returned, and so did the branch taken. -/
theorem SolveLocalCoverageProblem_ok (E : Collaborators P) (M : ViewPointManager P)
    (rd : Nat → Nat → Nat) (L : LocalCoveragePlanner P) (flags : Int → Bool)
    (global_path : List (Node P)) (uncovered_point_num uncovered_frontier_point_num : Nat)
    (res : Outcome P)
    (h : SolveLocalCoverageProblem E M rd L flags global_path uncovered_point_num
      uncovered_frontier_point_num = Except.ok res) :
    ∃ S : Sampling P,
      SampleViewPoints E M L global_path uncovered_point_num uncovered_frontier_point_num =
        Except.ok S ∧
      ((OptimizationBranch S = true ∧ ∃ st,
          (List.range S.planner.kLocalPathOptimizationItrMax.toNat).foldlM
            (OptimizationItr E M rd S) (InitialProgress S) = Except.ok st ∧
          res = Conclude M S st S.planner.local_coverage_complete_ flags) ∨
        (OptimizationBranch S = false ∧ ∃ st complete,
          SinglePass E M rd S (InitialProgress S) = Except.ok (st, complete) ∧
          res = Conclude M S st complete flags)) := by
  unfold SolveLocalCoverageProblem at h
  split at h
  · exact absurd h (by simp)
  · rename_i S hS
    refine ⟨S, hS, ?_⟩
    split_ifs at h with hb
    · split at h
      · exact absurd h (by simp)
      · rename_i st hst
        simp only [Except.ok.injEq] at h
        exact Or.inl ⟨hb, st, hst, h.symm⟩
    · split at h
      · exact absurd h (by simp)
      · rename_i st complete hst
        simp only [Except.ok.injEq] at h
        exact Or.inr ⟨by simpa using hb, st, complete, hst, h.symm⟩

theorem DemoCollaborators_Uniquify_mem (l : List Int) (x : Int) :
    x ∈ DemoCollaborators.UniquifyIntVector l ↔ x ∈ l := by
  simp [DemoCollaborators, (List.perm_insertionSort (fun a b : Int => a ≤ b) l).mem_iff]

theorem DemoCollaborators_Uniquify_nodup (l : List Int) :
    (DemoCollaborators.UniquifyIntVector l).Nodup := by
  simp [DemoCollaborators, List.nodup_dedup]

/-- C1: in a call of `SolveLocalCoverageProblem` that returns, every selection passed to
`SolveTSP`, in the optimisation branch and in the `else` branch alike, holds the four anchor ids
`start_viewpoint_ind_`, `end_viewpoint_ind_`, `robot_viewpoint_ind_` and
`lookahead_viewpoint_ind_` of the call, given that `UniquifyIntVector` keeps the set of
elements.  No assumption is made on the gains of the anchors. -/
theorem SolveLocalCoverageProblem_selections_hold_anchors (E : Collaborators P)
    (M : ViewPointManager P) (rd : Nat → Nat → Nat) (L : LocalCoveragePlanner P)
    (flags : Int → Bool) (global_path : List (Node P))
    (uncovered_point_num uncovered_frontier_point_num : Nat) (res : Outcome P)
    (hU : ∀ (l : List Int) (x : Int), x ∈ E.UniquifyIntVector l ↔ x ∈ l)
    (h : SolveLocalCoverageProblem E M rd L flags global_path uncovered_point_num
      uncovered_frontier_point_num = Except.ok res) :
    ∀ sel ∈ res.solve_tsp_calls,
      res.planner.start_viewpoint_ind_ ∈ sel ∧ res.planner.end_viewpoint_ind_ ∈ sel ∧
        res.planner.robot_viewpoint_ind_ ∈ sel ∧ res.planner.lookahead_viewpoint_ind_ ∈ sel := by
  obtain ⟨S, hS, hbranch⟩ := SolveLocalCoverageProblem_ok E M rd L flags global_path
    uncovered_point_num uncovered_frontier_point_num res h
  have hnav := (SampleViewPoints_ok E M L global_path uncovered_point_num
    uncovered_frontier_point_num S hS).2
  have hin : ∀ pre : List Int,
      S.planner.start_viewpoint_ind_ ∈
          E.UniquifyIntVector (pre ++ S.navigation_viewpoint_indices) ∧
        S.planner.end_viewpoint_ind_ ∈
          E.UniquifyIntVector (pre ++ S.navigation_viewpoint_indices) ∧
        S.planner.robot_viewpoint_ind_ ∈
          E.UniquifyIntVector (pre ++ S.navigation_viewpoint_indices) ∧
        S.planner.lookahead_viewpoint_ind_ ∈
          E.UniquifyIntVector (pre ++ S.navigation_viewpoint_indices) := by
    intro pre
    rw [hnav]
    simp [hU]
  rcases hbranch with ⟨_, st, hst, hres⟩ | ⟨_, st, complete, hst, hres⟩
  · subst hres
    have hinv := foldlM_invariant (OptimizationItr E M rd S)
      (fun st => ∀ sel ∈ st.solve_tsp_calls,
        S.planner.start_viewpoint_ind_ ∈ sel ∧ S.planner.end_viewpoint_ind_ ∈ sel ∧
          S.planner.robot_viewpoint_ind_ ∈ sel ∧ S.planner.lookahead_viewpoint_ind_ ∈ sel)
      (by
        intro s itr s' hs hstep sel hsel
        obtain ⟨picked, fq, fc, hcalls, _⟩ := OptimizationItr_ok E M rd S s s' itr hstep
        rw [hcalls] at hsel
        rcases List.mem_append.mp hsel with hold | hnew
        · exact hs sel hold
        · rw [List.mem_singleton] at hnew
          subst hnew
          exact hin (picked ++ S.reused_viewpoint_indices))
      _ (InitialProgress S) st (by intro sel hsel; simp [InitialProgress] at hsel) hst
    exact hinv
  · subst hres
    obtain ⟨picked, fq, fc, _, _, hcalls, _⟩ := SinglePass_ok E M rd S _ st complete hst
    intro sel hsel
    change sel ∈ st.solve_tsp_calls at hsel
    rw [hcalls] at hsel
    simp only [InitialProgress, List.nil_append, List.mem_singleton] at hsel
    subst hsel
    exact hin picked

/-- Instance of C1: the demo planner takes the optimisation branch and passes the selection
`0, 1, 2, 3` to `SolveTSP` in each of its two iterations. -/
theorem SolveLocalCoverageProblem_selections_hold_anchors_witness :
    ∃ res : Outcome Int,
      SolveLocalCoverageProblem DemoCollaborators DemoManager (fun _ _ => 0) DemoPlanner
        (fun _ => false) [] 6 0 = Except.ok res ∧
      res.solve_tsp_calls = [[0, 1, 2, 3], [0, 1, 2, 3]] ∧
      ∀ sel ∈ res.solve_tsp_calls,
        res.planner.start_viewpoint_ind_ ∈ sel ∧ res.planner.end_viewpoint_ind_ ∈ sel ∧
          res.planner.robot_viewpoint_ind_ ∈ sel ∧ res.planner.lookahead_viewpoint_ind_ ∈ sel :=
  ⟨_, rfl, by decide,
    SolveLocalCoverageProblem_selections_hold_anchors DemoCollaborators DemoManager
      (fun _ _ => 0) DemoPlanner (fun _ => false) [] 6 0 _ DemoCollaborators_Uniquify_mem rfl⟩

theorem SolveTSP_ordered_nodup (E : Collaborators P) (M : ViewPointManager P)
    (L : LocalCoveragePlanner P) (selected ordered : List Int)
    (hsel : selected.Nodup)
    (hT : ∀ (D : List (List Int)) (depot : Nat) (has_dummy : Bool),
      (E.TSPSolver D depot has_dummy).Nodup)
    (hord : ordered.Nodup) :
    (SolveTSP E M L selected ordered).2.Nodup := by
  cases hs : selected with
  | nil => simpa [SolveTSP] using hord
  | cons a t =>
    rw [← hs]
    have hshape : (SolveTSP E M L selected ordered).2 =
        (FilteredPathIndex E M L selected).map (fun p => selected.getD p.toNat 0) := by
      rw [hs]
      rfl
    rw [hshape]
    apply List.Nodup.map_on
    · intro x hx y hy hxy
      have hx1 := mem_FilteredPathIndex E M L selected x hx
      have hy1 := mem_FilteredPathIndex E M L selected y hy
      have hxl : x.toNat < selected.length := by omega
      have hyl : y.toNat < selected.length := by omega
      rw [List.getD_eq_getElem selected 0 hxl, List.getD_eq_getElem selected 0 hyl] at hxy
      have := (List.Nodup.getElem_inj_iff hsel).mp hxy
      omega
    · unfold FilteredPathIndex
      exact List.Nodup.filter _ (hT _ _ _)

/-- C2: after a call of `SolveLocalCoverageProblem` that returns,
`last_selected_viewpoint_indices_` holds no viewpoint id twice, provided it held none twice
before the call, the solver returns each node index at most once, and `UniquifyIntVector`
returns a list without duplicates. -/
theorem SolveLocalCoverageProblem_last_selected_nodup (E : Collaborators P)
    (M : ViewPointManager P) (rd : Nat → Nat → Nat) (L : LocalCoveragePlanner P)
    (flags : Int → Bool) (global_path : List (Node P))
    (uncovered_point_num uncovered_frontier_point_num : Nat) (res : Outcome P)
    (hprev : L.last_selected_viewpoint_indices_.Nodup)
    (hT : ∀ (D : List (List Int)) (depot : Nat) (has_dummy : Bool),
      (E.TSPSolver D depot has_dummy).Nodup)
    (hU : ∀ l : List Int, (E.UniquifyIntVector l).Nodup)
    (h : SolveLocalCoverageProblem E M rd L flags global_path uncovered_point_num
      uncovered_frontier_point_num = Except.ok res) :
    res.planner.last_selected_viewpoint_indices_.Nodup := by
  obtain ⟨S, hS, hbranch⟩ := SolveLocalCoverageProblem_ok E M rd L flags global_path
    uncovered_point_num uncovered_frontier_point_num res h
  have hpl := (SampleViewPoints_ok E M L global_path uncovered_point_num
    uncovered_frontier_point_num S hS).1
  have hkeep := (GetNavigationViewPointIndices_keeps M
    { L with local_coverage_complete_ := false } global_path []).2.1
  rw [← hpl] at hkeep
  rcases hbranch with ⟨_, st, hst, hres⟩ | ⟨_, st, complete, hst, hres⟩
  · subst hres
    have hinv := foldlM_invariant (OptimizationItr E M rd S)
      (fun st => st.last_selected_viewpoint_indices_.Nodup ∧
        st.ordered_viewpoint_indices.Nodup)
      (by
        intro s itr s' hs hstep
        obtain ⟨picked, fq, fc, _, hord, _, _, hlast⟩ :=
          OptimizationItr_ok E M rd S s s' itr hstep
        have hnew : s'.ordered_viewpoint_indices.Nodup := by
          rw [hord]
          exact SolveTSP_ordered_nodup E M S.planner _ _ (hU _) hT hs.2
        rcases hlast with ⟨hl, _⟩ | ⟨hl, _⟩
        · exact ⟨hl ▸ hnew, hnew⟩
        · exact ⟨hl ▸ hs.1, hnew⟩)
      _ (InitialProgress S) st
      (by
        refine ⟨?_, ?_⟩
        · change S.planner.last_selected_viewpoint_indices_.Nodup
          rw [hkeep]
          exact hprev
        · exact List.nodup_nil)
      hst
    exact hinv.1
  · subst hres
    obtain ⟨picked, fq, fc, _, _, _, hlast, _⟩ := SinglePass_ok E M rd S _ st complete hst
    change st.last_selected_viewpoint_indices_.Nodup
    rw [hlast]
    exact SolveTSP_ordered_nodup E M S.planner _ _ (hU _) hT List.nodup_nil

theorem DemoCollaborators_TSPSolver_nodup (D : List (List Int)) (depot : Nat)
    (has_dummy : Bool) : (DemoCollaborators.TSPSolver D depot has_dummy).Nodup := by
  show ((List.range D.length).map (fun (i : Nat) => (i : Int))).Nodup
  exact List.Nodup.map_on (fun a _ b _ hab => by simpa using hab) (List.nodup_range _)

/-- Instance of C2: the demo planner ends its call with the cycle memory `0, 1, 2, 3`. -/
theorem SolveLocalCoverageProblem_last_selected_nodup_witness :
    DemoPlanner.last_selected_viewpoint_indices_.Nodup ∧
    ∃ res : Outcome Int,
      SolveLocalCoverageProblem DemoCollaborators DemoManager (fun _ _ => 0) DemoPlanner
        (fun _ => false) [] 6 0 = Except.ok res ∧
      res.planner.last_selected_viewpoint_indices_ = [0, 1, 2, 3] ∧
      res.planner.last_selected_viewpoint_indices_.Nodup :=
  ⟨List.nodup_nil, _, rfl, by decide,
    SolveLocalCoverageProblem_last_selected_nodup DemoCollaborators DemoManager
      (fun _ _ => 0) DemoPlanner (fun _ => false) [] 6 0 _ List.nodup_nil
      DemoCollaborators_TSPSolver_nodup DemoCollaborators_Uniquify_nodup rfl⟩

theorem SelectViewPointLoop_appends (E : Collaborators P) (M : ViewPointManager P)
    (L : LocalCoveragePlanner P) (gen : Nat → Nat) (queue : List (Int × Int))
    (use_frontier : Bool) :
    ∀ (fuel k : Nat) (covered_copy : List Bool) (queue_copy : List (Int × Int))
      (sel : List Int) (queue_idx : Nat) (cur_ind : Int) (out : List Int),
      SelectViewPointLoop E M L gen queue use_frontier fuel k covered_copy queue_copy sel
          queue_idx cur_ind = Except.ok out →
        ∃ app : List Int, out = sel ++ cur_ind :: app
  | 0, _, _, _, _, _, _, _, h => by simp [SelectViewPointLoop] at h
  | fuel + 1, k, covered_copy, queue_copy, sel, queue_idx, cur_ind, out, h => by
    unfold SelectViewPointLoop at h
    simp only [] at h
    split at h
    · exact absurd h (by simp)
    · split at h
      · exact absurd h (by simp)
      · split at h
        · simp only [Except.ok.injEq] at h
          exact ⟨[], by simp [← h]⟩
        · split_ifs at h
          · simp only [Except.ok.injEq] at h
            exact ⟨[], by simp [← h]⟩
          · simp only [Except.ok.injEq] at h
            exact ⟨[], by simp [← h]⟩
          · split at h
            · exact absurd h (by simp)
            · split at h
              · exact absurd h (by simp)
              · rename_i entry _
                obtain ⟨app, happ⟩ := SelectViewPointLoop_appends E M L gen queue use_frontier
                  fuel _ _ _ _ _ _ out h
                exact ⟨entry.2 :: app, by simp [happ]⟩

theorem SelectViewPoint_appends (E : Collaborators P) (M : ViewPointManager P)
    (L : LocalCoveragePlanner P) (gen : Nat → Nat) (queue : List (Int × Int))
    (covered : List Bool) (sel : List Int) (use_frontier : Bool) (out : List Int)
    (h : SelectViewPoint E M L gen queue covered sel use_frontier = Except.ok out) :
    ∃ app : List Int, out = sel ++ app := by
  unfold SelectViewPoint at h
  split at h
  · simp only [Except.ok.injEq] at h
    exact ⟨[], by simp [← h]⟩
  · rename_i top rest
    by_cases hg : (if use_frontier then decide (top.1 < L.kMinAddFrontierPointNum)
        else decide (top.1 < L.kMinAddPointNum)) = true
    · rw [if_pos hg] at h
      simp only [Except.ok.injEq] at h
      exact ⟨[], by simp [← h]⟩
    · rw [if_neg hg] at h
      simp only [] at h
      split at h
      · exact absurd h (by simp)
      · split at h
        · exact absurd h (by simp)
        · obtain ⟨app, happ⟩ := SelectViewPointLoop_appends E M L gen _ use_frontier
            _ _ _ _ _ _ _ out h
          exact ⟨_ :: app, happ⟩

theorem SelectViewPointFromFrontierQueue_appends (E : Collaborators P)
    (M : ViewPointManager P) (L : LocalCoveragePlanner P) (gen : Nat → Nat)
    (frontier_queue : List (Int × Int)) (frontier_covered : List Bool) (sel : List Int)
    (out : List (Int × Int) × List Bool × List Int)
    (h : SelectViewPointFromFrontierQueue E M L gen frontier_queue frontier_covered sel =
      Except.ok out) :
    ∃ app : List Int, out.2.2 = sel ++ app := by
  unfold SelectViewPointFromFrontierQueue at h
  split at h
  · simp only [Except.ok.injEq] at h
    exact ⟨[], by simp [← h]⟩
  · split_ifs at h
    · split at h
      · exact absurd h (by simp)
      · simp only [] at h
        split at h
        · exact absurd h (by simp)
        · rename_i out_sel hout
          simp only [Except.ok.injEq] at h
          obtain ⟨app, happ⟩ := SelectViewPoint_appends E M L gen _ _ sel true out_sel hout
          exact ⟨app, by simp [← h, happ]⟩
    · simp only [Except.ok.injEq] at h
      exact ⟨[], by simp [← h]⟩

theorem SampleViewPoints_complete_reset (E : Collaborators P) (M : ViewPointManager P)
    (L : LocalCoveragePlanner P) (global_path : List (Node P))
    (uncovered_point_num uncovered_frontier_point_num : Nat) (S : Sampling P)
    (h : SampleViewPoints E M L global_path uncovered_point_num uncovered_frontier_point_num =
      Except.ok S) :
    S.planner.local_coverage_complete_ = false := by
  rw [(SampleViewPoints_ok E M L global_path uncovered_point_num
    uncovered_frontier_point_num S h).1]
  exact (GetNavigationViewPointIndices_keeps M
    { L with local_coverage_complete_ := false } global_path []).1

/-- C3: after a call of `SolveLocalCoverageProblem` that returns, `local_coverage_complete_` is
true exactly when the `else` branch was taken (the surface queue is empty or its top gain is not
greater than `kMinAddPointNum`), the list of reused viewpoints is empty, and
`SelectViewPointFromFrontierQueue`, called on that list, returned it with nothing appended; it
is false in every other case.  `S` holds the local variables at the branch. -/
theorem SolveLocalCoverageProblem_complete_iff (E : Collaborators P) (M : ViewPointManager P)
    (rd : Nat → Nat → Nat) (L : LocalCoveragePlanner P) (flags : Int → Bool)
    (global_path : List (Node P)) (uncovered_point_num uncovered_frontier_point_num : Nat)
    (S : Sampling P) (res : Outcome P)
    (hS : SampleViewPoints E M L global_path uncovered_point_num
      uncovered_frontier_point_num = Except.ok S)
    (h : SolveLocalCoverageProblem E M rd L flags global_path uncovered_point_num
      uncovered_frontier_point_num = Except.ok res) :
    res.planner.local_coverage_complete_ = true ↔
      ((S.queue = [] ∨
          ∃ top rest, S.queue = top :: rest ∧ ¬ top.1 > S.planner.kMinAddPointNum) ∧
        S.reused_viewpoint_indices = [] ∧
        ∃ frontier_queue frontier_covered,
          SelectViewPointFromFrontierQueue E M S.planner (rd 0) S.frontier_queue
              S.frontier_covered S.reused_viewpoint_indices =
            Except.ok (frontier_queue, frontier_covered, S.reused_viewpoint_indices)) := by
  obtain ⟨S', hS', hbranch⟩ := SolveLocalCoverageProblem_ok E M rd L flags global_path
    uncovered_point_num uncovered_frontier_point_num res h
  rw [hS] at hS'
  simp only [Except.ok.injEq] at hS'
  subst hS'
  have hreset := SampleViewPoints_complete_reset E M L global_path uncovered_point_num
    uncovered_frontier_point_num S hS
  rcases hbranch with ⟨hb, st, hst, hres⟩ | ⟨hb, st, complete, hst, hres⟩
  · subst hres
    have hfalse :
        (Conclude M S st S.planner.local_coverage_complete_ flags).planner.local_coverage_complete_ =
          false := hreset
    rw [hfalse]
    constructor
    · intro hc
      exact absurd hc (by simp)
    · rintro ⟨hq, _, _⟩
      unfold OptimizationBranch at hb
      rcases hq with hq | ⟨top, rest, hq, hle⟩
      · rw [hq] at hb
        exact absurd hb (by simp)
      · rw [hq] at hb
        simp only [decide_eq_true_eq] at hb
        exact absurd hb hle
  · subst hres
    obtain ⟨sel, fq, fc, hsel, hcomplete, _⟩ := SinglePass_ok E M rd S _ st complete hst
    have hc : (Conclude M S st complete flags).planner.local_coverage_complete_ = complete :=
      rfl
    rw [hc, hcomplete, hreset]
    have hsel' : SelectViewPointFromFrontierQueue E M S.planner (rd 0) S.frontier_queue
        S.frontier_covered S.reused_viewpoint_indices = Except.ok (fq, fc, sel) := hsel
    have helse : S.queue = [] ∨
        ∃ top rest, S.queue = top :: rest ∧ ¬ top.1 > S.planner.kMinAddPointNum := by
      unfold OptimizationBranch at hb
      cases hq : S.queue with
      | nil => exact Or.inl rfl
      | cons top rest =>
        rw [hq] at hb
        simp only [decide_eq_false_iff_not] at hb
        exact Or.inr ⟨top, rest, rfl, hb⟩
    constructor
    · intro hempty
      have hnil : sel = [] := by
        by_contra hne
        simp [hne] at hempty
      obtain ⟨app, happ⟩ := SelectViewPointFromFrontierQueue_appends E M S.planner (rd 0)
        S.frontier_queue S.frontier_covered S.reused_viewpoint_indices _ hsel'
      simp only [] at happ
      rw [hnil] at happ
      have hr : S.reused_viewpoint_indices = [] := by
        cases hrv : S.reused_viewpoint_indices with
        | nil => rfl
        | cons a t =>
          rw [hrv] at happ
          simp at happ
      refine ⟨helse, hr, fq, fc, ?_⟩
      rw [hsel', hnil, hr]
    · rintro ⟨_, hr, fq', fc', hsame⟩
      rw [hsel'] at hsame
      simp only [Except.ok.injEq, Prod.mk.injEq] at hsame
      rw [hsame.2.2, hr]
      simp

/-- Instance of C3: with the single candidate at the robot the `else` branch is taken, nothing
is reused or picked, and the flag is set. -/
theorem SolveLocalCoverageProblem_complete_iff_witness :
    ∃ (S : Sampling Int) (res : Outcome Int),
      SampleViewPoints SoloCollaborators SoloManager DemoPlanner [] 2 0 = Except.ok S ∧
      SolveLocalCoverageProblem SoloCollaborators SoloManager (fun _ _ => 0) DemoPlanner
        (fun _ => false) [] 2 0 = Except.ok res ∧
      S.queue = [] ∧
      (res.planner.local_coverage_complete_ = true ↔
        ((S.queue = [] ∨
            ∃ top rest, S.queue = top :: rest ∧ ¬ top.1 > S.planner.kMinAddPointNum) ∧
          S.reused_viewpoint_indices = [] ∧
          ∃ frontier_queue frontier_covered,
            SelectViewPointFromFrontierQueue SoloCollaborators SoloManager S.planner
                ((fun _ _ => 0) 0) S.frontier_queue S.frontier_covered
                S.reused_viewpoint_indices =
              Except.ok (frontier_queue, frontier_covered, S.reused_viewpoint_indices))) :=
  ⟨_, _, rfl, rfl, rfl,
    SolveLocalCoverageProblem_complete_iff SoloCollaborators SoloManager (fun _ _ => 0)
      DemoPlanner (fun _ => false) [] 2 0 _ _ rfl rfl⟩

/-! ## The scenario with one candidate -/

theorem MarkCovered_foldlM_ok :
    ∀ (points : List Int) (point_list : List Bool),
      (∀ point_ind ∈ points, 0 ≤ point_ind ∧ point_ind < (point_list.length : Int)) →
      ∃ marked, points.foldlM MarkCovered point_list = Except.ok marked ∧
        marked.length = point_list.length
  | [], point_list, _ => ⟨point_list, rfl, rfl⟩
  | point_ind :: points, point_list, h => by
    have h0 := h point_ind (List.mem_cons_self _ _)
    have hin : InRange point_list point_ind = true := by
      simp [InRange, h0.1, h0.2]
    have hrest : ∀ q ∈ points,
        0 ≤ q ∧ q < ((point_list.set point_ind.toNat true).length : Int) := by
      intro q hq
      simpa using h q (List.mem_cons_of_mem _ hq)
    obtain ⟨marked, hm, hl⟩ := MarkCovered_foldlM_ok points
      (point_list.set point_ind.toNat true) hrest
    refine ⟨marked, ?_, by simpa using hl⟩
    rw [List.foldlM_cons]
    simp only [MarkCovered, hin, if_true, bind, Except.bind]
    exact hm

theorem UpdateCoverage_foldlM_ok (M : ViewPointManager P) (L : LocalCoveragePlanner P)
    (a : Int) (n : Nat) (hf : L.use_frontier_ = false)
    (hpts : ∀ point_ind ∈ M.GetViewPointCoveredPointList a true,
      0 ≤ point_ind ∧ point_ind < (n : Int)) :
    ∀ (l : List Int) (bitmaps : List Bool × List Bool),
      (∀ x ∈ l, x = a) → bitmaps.1.length = n →
      ∃ covered, l.foldlM (UpdateCoverage M L) bitmaps = Except.ok (covered, bitmaps.2)
  | [], bitmaps, _, _ => ⟨bitmaps.1, rfl⟩
  | x :: l, bitmaps, hall, hlen => by
    have hx : x = a := hall x (List.mem_cons_self _ _)
    subst hx
    obtain ⟨marked, hm, hl⟩ := MarkCovered_foldlM_ok (M.GetViewPointCoveredPointList x true)
      bitmaps.1 (by rw [hlen]; exact hpts)
    have hstep : UpdateCoverage M L bitmaps x = Except.ok (marked, bitmaps.2) := by
      simp only [UpdateCoverage, UpdateViewPointCoveredPoint, hm, hf]
      simp
    obtain ⟨covered, hc⟩ := UpdateCoverage_foldlM_ok M L x n hf hpts l (marked, bitmaps.2)
      (fun y hy => hall y (List.mem_cons_of_mem _ hy)) (by rw [← hlen]; exact hl)
    refine ⟨covered, ?_⟩
    rw [List.foldlM_cons, hstep]
    simp only [bind, Except.bind]
    exact hc

/-- The local variables at the branch in the scenario with one candidate. -/
theorem OneCandidateAtRobot_sampling (E : Collaborators P) (M : ViewPointManager P)
    (L : LocalCoveragePlanner P) (v : Int)
    (uncovered_point_num uncovered_frontier_point_num : Nat)
    (hsc : OneCandidateAtRobot E M L v uncovered_point_num) :
    ∃ S : Sampling P,
      SampleViewPoints E M L [] uncovered_point_num uncovered_frontier_point_num =
        Except.ok S ∧
      S.queue = [] ∧ S.frontier_queue = [] ∧ S.reused_viewpoint_indices = [] ∧
      S.navigation_viewpoint_indices = [v, v, v, v] ∧
      S.planner = AnchoredAt L v := by
  obtain ⟨hcand, hnear, hfront, hmem, hmemarr, hsort, hpts⟩ := hsc
  have hnav : GetNavigationViewPointIndices M { L with local_coverage_complete_ := false }
      [] [] = (AnchoredAt L v, [v, v, v, v]) := by
    unfold GetNavigationViewPointIndices GetBoundaryViewpointIndices Reverse
      GetBoundaryViewpointIndex AnchoredAt
    simp only [hnear, List.reverse_nil, List.nil_append]
    split_ifs <;> rfl
  have hfront' : (AnchoredAt L v).use_frontier_ = false := hfront
  obtain ⟨covered, hcov⟩ := UpdateCoverage_foldlM_ok M (AnchoredAt L v)
    (M.GetViewPointArrayInd v) uncovered_point_num hfront' hpts
    [M.GetViewPointArrayInd v, M.GetViewPointArrayInd v, M.GetViewPointArrayInd v,
      M.GetViewPointArrayInd v]
    (List.replicate uncovered_point_num false,
      List.replicate uncovered_frontier_point_num false)
    (by intro x hx; simpa using hx) (by simp)
  have henq : EnqueueViewpointCandidates E M (AnchoredAt L v)
      [] [] covered (List.replicate uncovered_frontier_point_num false)
      [M.GetViewPointArrayInd v, M.GetViewPointArrayInd v, M.GetViewPointArrayInd v,
        M.GetViewPointArrayInd v] = ([], []) := by
    unfold EnqueueViewpointCandidates
    simp only [hcand, List.foldl_cons, List.foldl_nil, hfront']
    have hstep : EnqueueViewpointCandidate M (AnchoredAt L v)
        covered (List.replicate uncovered_frontier_point_num false)
        [M.GetViewPointArrayInd v, M.GetViewPointArrayInd v, M.GetViewPointArrayInd v,
          M.GetViewPointArrayInd v] ([], []) v = ([], []) := by
      unfold EnqueueViewpointCandidate
      by_cases h1 : M.ViewPointVisited v false = true ∨ M.ViewPointInExploringCell v = false
      · rw [if_pos h1]
      · rw [if_neg h1]
        simp
    rw [hstep]
    simp [hsort]
  refine ⟨{ planner := AnchoredAt L v,
            navigation_viewpoint_indices := [v, v, v, v],
            reused_viewpoint_indices := [],
            pre_selected_viewpoint_array_indices :=
              [M.GetViewPointArrayInd v, M.GetViewPointArrayInd v, M.GetViewPointArrayInd v,
                M.GetViewPointArrayInd v],
            covered := covered,
            frontier_covered := List.replicate uncovered_frontier_point_num false,
            queue := [],
            frontier_queue := [] }, ?_, rfl, rfl, rfl, rfl, rfl⟩
  have hmemarr' : (AnchoredAt L v).last_selected_viewpoint_array_indices_ = [] := hmemarr
  unfold SampleViewPoints
  simp only [hnav, hmemarr', List.foldl_nil, List.map_nil, List.nil_append, List.map_cons,
    hcov, henq]

/-- The call in the scenario with one candidate: it returns, with the flag set and the path that
`SolveTSP` builds for the deduplicated anchors. -/
theorem OneCandidateAtRobot_outcome (E : Collaborators P) (M : ViewPointManager P)
    (rd : Nat → Nat → Nat) (L : LocalCoveragePlanner P) (flags : Int → Bool) (v : Int)
    (uncovered_point_num uncovered_frontier_point_num : Nat)
    (hsc : OneCandidateAtRobot E M L v uncovered_point_num) :
    ∃ res : Outcome P,
      SolveLocalCoverageProblem E M rd L flags [] uncovered_point_num
        uncovered_frontier_point_num = Except.ok res ∧
      res.planner.local_coverage_complete_ = true ∧
      res.local_path =
        (SolveTSP E M (AnchoredAt L v) (E.UniquifyIntVector [v, v, v, v]) []).1 := by
  obtain ⟨S, hS, hq, hfq, hr, hnav, hpl⟩ := OneCandidateAtRobot_sampling E M L v
    uncovered_point_num uncovered_frontier_point_num hsc
  have hb : OptimizationBranch S = false := by
    unfold OptimizationBranch
    rw [hq]
  have hpass : ∃ st : Progress P,
      SinglePass E M rd S (InitialProgress S) = Except.ok (st, true) ∧
      st.local_path =
        (SolveTSP E M (AnchoredAt L v) (E.UniquifyIntVector [v, v, v, v]) []).1 := by
    unfold SinglePass
    simp only [InitialProgress, hr, hfq, hnav, hpl, List.nil_append,
      SelectViewPointFromFrontierQueue, if_true]
    exact ⟨_, rfl, rfl⟩
  obtain ⟨st, hst, hpath⟩ := hpass
  have hsolve : SolveLocalCoverageProblem E M rd L flags [] uncovered_point_num
      uncovered_frontier_point_num = Except.ok (Conclude M S st true flags) := by
    unfold SolveLocalCoverageProblem
    simp only [hS, hb, hst]
    rfl
  exact ⟨Conclude M S st true flags, hsolve, rfl, hpath⟩

/-- C4, as amended: for the input with exactly one candidate viewpoint, located at the robot
(the nearest candidate of every position), frontier mode off, an empty global path and an empty
cycle memory, `SolveLocalCoverageProblem` returns with `local_coverage_complete_` true: nothing
is reused and nothing is picked before the anchors are added. -/
theorem SolveLocalCoverageProblem_one_candidate_complete (E : Collaborators P)
    (M : ViewPointManager P) (rd : Nat → Nat → Nat) (L : LocalCoveragePlanner P)
    (flags : Int → Bool) (v : Int) (uncovered_point_num uncovered_frontier_point_num : Nat)
    (hsc : OneCandidateAtRobot E M L v uncovered_point_num) :
    ∃ res : Outcome P,
      SolveLocalCoverageProblem E M rd L flags [] uncovered_point_num
        uncovered_frontier_point_num = Except.ok res ∧
      res.planner.local_coverage_complete_ = true := by
  obtain ⟨res, hres, hc, _⟩ := OneCandidateAtRobot_outcome E M rd L flags v
    uncovered_point_num uncovered_frontier_point_num hsc
  exact ⟨res, hres, hc⟩

theorem SoloManager_OneCandidateAtRobot (E : Collaborators Int) (hsort : E.SortInRev [] = []) :
    OneCandidateAtRobot E SoloManager DemoPlanner 0 2 :=
  ⟨rfl, fun _ => rfl, rfl, rfl, rfl, hsort, by decide⟩

/-- Instance of the amended C4 on the solo manager. -/
theorem SolveLocalCoverageProblem_one_candidate_complete_witness :
    OneCandidateAtRobot SoloCollaborators SoloManager DemoPlanner 0 2 ∧
    ∃ res : Outcome Int,
      SolveLocalCoverageProblem SoloCollaborators SoloManager (fun _ _ => 0) DemoPlanner
        (fun _ => false) [] 2 0 = Except.ok res ∧
      res.planner.local_coverage_complete_ = true :=
  ⟨SoloManager_OneCandidateAtRobot SoloCollaborators rfl,
    SolveLocalCoverageProblem_one_candidate_complete SoloCollaborators SoloManager
      (fun _ _ => 0) DemoPlanner (fun _ => false) 0 2 0
      (SoloManager_OneCandidateAtRobot SoloCollaborators rfl)⟩

/-- Counterexample to C4 as stated: one candidate at the robot, frontier mode off, empty global
path, empty cycle memory; the call returns with `local_coverage_complete_` true, not false. -/
theorem SolveLocalCoverageProblem_one_candidate_not_incomplete :
    SoloManager.GetViewPointCandidateIndices = [0] ∧
    DemoPlanner.use_frontier_ = false ∧
    DemoPlanner.last_selected_viewpoint_indices_ = [] ∧
    ∃ res : Outcome Int,
      SolveLocalCoverageProblem SoloCollaborators SoloManager (fun _ _ => 0) DemoPlanner
        (fun _ => false) [] 2 0 = Except.ok res ∧
      res.planner.local_coverage_complete_ ≠ false :=
  ⟨rfl, rfl, rfl, _, rfl, by decide⟩

theorem uniquify_all_equal (E : Collaborators P) (v : Int)
    (hUmem : ∀ (l : List Int) (x : Int), x ∈ E.UniquifyIntVector l ↔ x ∈ l)
    (hUnodup : ∀ l : List Int, (E.UniquifyIntVector l).Nodup) :
    E.UniquifyIntVector [v, v, v, v] = [v] := by
  have hmem : ∀ x, x ∈ E.UniquifyIntVector [v, v, v, v] ↔ x = v := by
    intro x
    rw [hUmem]
    simp
  have hnd := hUnodup [v, v, v, v]
  cases hl : E.UniquifyIntVector [v, v, v, v] with
  | nil =>
    have := (hmem v).mpr rfl
    rw [hl] at this
    simp at this
  | cons a t =>
    rw [hl] at hmem hnd
    have ha : a = v := (hmem a).mp (List.mem_cons_self _ _)
    subst ha
    cases t with
    | nil => rfl
    | cons b t =>
      have hb : b = a := (hmem b).mp (by simp)
      subst hb
      simp at hnd

theorem SolveTSP_single_anchor (E : Collaborators P) (M : ViewPointManager P)
    (L : LocalCoveragePlanner P) (v : Int)
    (hT : ∀ (D : List (List Int)) (depot : Nat) (has_dummy : Bool),
      E.TSPSolver D depot has_dummy = [0])
    (hself : (M.GetViewPointShortestPath v v).length ≤ 2) :
    (SolveTSP E M (AnchoredAt L v) [v] []).1 =
      E.Append (E.Append []
        { position_ := M.GetViewPointPosition v, type_ := NodeType.ROBOT,
          local_viewpoint_ind_ := v })
        { position_ := M.GetViewPointPosition v, type_ := NodeType.ROBOT,
          local_viewpoint_ind_ := v } := by
  have htour : TourViewPoints E M (AnchoredAt L v) [v] = [v, v] := by
    have hidx : (GetAnchorInd (AnchoredAt L v) [v]).start_ind =
        (GetAnchorInd (AnchoredAt L v) [v]).end_ind :=
      GetAnchorInd_start_eq_end (AnchoredAt L v) [v] rfl
    unfold TourViewPoints ClosedPathIndex FilteredPathIndex
    simp [hT, hidx]
  have hpair := SpecPairNodes_of_short_path M (AnchoredAt L v) v v hself
  rw [SolveTSP_path_eq, htour]
  simp only [ConsecutivePairs, List.tail_cons, List.zip_cons_cons, List.zip_nil_right,
    List.flatMap_cons, List.flatMap_nil, List.append_nil, hpair, List.foldl_cons,
    List.foldl_nil]
  simp [CurNode, NextNode, AnchoredAt]

theorem SoloCollaborators_AppendSkipsRepeat : AppendSkipsRepeat SoloCollaborators := by
  constructor
  · intro node
    simp [SoloCollaborators, DemoCollaborators]
  · intro path node h
    simp [SoloCollaborators, DemoCollaborators, h]

/-- C5: for the input with exactly one candidate viewpoint `v`, located at the robot, frontier
mode off, an empty global path, an empty cycle memory and a solver that returns the one-node
tour `[0]`, the call returns and the returned path consists of exactly one node, of type
`ROBOT`, at the position of `v` with id `v`.  `SolveTSP` closes the tour to `0, 0` and hands the
`ROBOT` node of `v` to `Append` twice; `Append` skips a node equal to the last node of the path,
and the manager's path from `v` to itself has no interior pose. -/
theorem SolveLocalCoverageProblem_one_candidate_path (E : Collaborators P)
    (M : ViewPointManager P) (rd : Nat → Nat → Nat) (L : LocalCoveragePlanner P)
    (flags : Int → Bool) (v : Int) (uncovered_point_num uncovered_frontier_point_num : Nat)
    (hsc : OneCandidateAtRobot E M L v uncovered_point_num)
    (hT : ∀ (D : List (List Int)) (depot : Nat) (has_dummy : Bool),
      E.TSPSolver D depot has_dummy = [0])
    (hUmem : ∀ (l : List Int) (x : Int), x ∈ E.UniquifyIntVector l ↔ x ∈ l)
    (hUnodup : ∀ l : List Int, (E.UniquifyIntVector l).Nodup)
    (hself : (M.GetViewPointShortestPath v v).length ≤ 2)
    (hA : AppendSkipsRepeat E) :
    ∃ res : Outcome P,
      SolveLocalCoverageProblem E M rd L flags [] uncovered_point_num
        uncovered_frontier_point_num = Except.ok res ∧
      res.local_path =
        [{ position_ := M.GetViewPointPosition v, type_ := NodeType.ROBOT,
           local_viewpoint_ind_ := v }] ∧
      res.local_path.length = 1 ∧
      ∀ node ∈ res.local_path, node.type_ = NodeType.ROBOT := by
  obtain ⟨res, hres, _, hpath⟩ := OneCandidateAtRobot_outcome E M rd L flags v
    uncovered_point_num uncovered_frontier_point_num hsc
  have hskip := hA.2
    [{ position_ := M.GetViewPointPosition v, type_ := NodeType.ROBOT,
       local_viewpoint_ind_ := v }]
    { position_ := M.GetViewPointPosition v, type_ := NodeType.ROBOT,
      local_viewpoint_ind_ := v } rfl
  rw [uniquify_all_equal E v hUmem hUnodup, SolveTSP_single_anchor E M L v hT hself,
    hA.1, hskip] at hpath
  refine ⟨res, hres, hpath, ?_, ?_⟩
  · rw [hpath]
    rfl
  · intro node hnode
    rw [hpath, List.mem_singleton] at hnode
    rw [hnode]

/-- Instance of C5 on the solo manager: the returned path is the single `ROBOT` node of
viewpoint `0`. -/
theorem SolveLocalCoverageProblem_one_candidate_path_witness :
    OneCandidateAtRobot SoloCollaborators SoloManager DemoPlanner 0 2 ∧
    AppendSkipsRepeat SoloCollaborators ∧
    ∃ res : Outcome Int,
      SolveLocalCoverageProblem SoloCollaborators SoloManager (fun _ _ => 0) DemoPlanner
        (fun _ => false) [] 2 0 = Except.ok res ∧
      res.local_path =
        [{ position_ := 0, type_ := NodeType.ROBOT, local_viewpoint_ind_ := 0 }] ∧
      res.local_path.length = 1 ∧
      ∀ node ∈ res.local_path, node.type_ = NodeType.ROBOT :=
  ⟨SoloManager_OneCandidateAtRobot SoloCollaborators rfl,
    SoloCollaborators_AppendSkipsRepeat,
    SolveLocalCoverageProblem_one_candidate_path SoloCollaborators SoloManager
      (fun _ _ => 0) DemoPlanner (fun _ => false) 0 2 0
      (SoloManager_OneCandidateAtRobot SoloCollaborators rfl) (fun _ _ _ => rfl)
      DemoCollaborators_Uniquify_mem DemoCollaborators_Uniquify_nodup (by decide)
      SoloCollaborators_AppendSkipsRepeat⟩

/-- C6 at its failing input: viewpoint `3` is in the cycle memory and is no longer a candidate,
the `else` branch is taken and the solver returns no tour.  The call returns an empty path and
overwrites both lists of the cycle memory with the empty list. -/
theorem SolveLocalCoverageProblem_else_branch_clears_memory :
    StalePlanner.last_selected_viewpoint_indices_ = [3] ∧
    StalePlanner.last_selected_viewpoint_array_indices_ = [3] ∧
    ∃ res : Outcome Int,
      SolveLocalCoverageProblem NoTourCollaborators SoloManager (fun _ _ => 0) StalePlanner
        (fun _ => false) [] 2 0 = Except.ok res ∧
      res.local_path = [] ∧
      res.planner.last_selected_viewpoint_indices_ = [] ∧
      res.planner.last_selected_viewpoint_array_indices_ = [] :=
  ⟨rfl, rfl, _, rfl, by decide, by decide, by decide⟩

/-- The sibling run of the failing input of C6: with the same stale cycle memory and a solver
that returns no tour, the optimisation branch returns an empty path and keeps both lists. -/
theorem SolveLocalCoverageProblem_optimisation_branch_keeps_memory :
    ∃ res : Outcome Int,
      SolveLocalCoverageProblem NoTourCollaborators DemoManager (fun _ _ => 0) StalePlanner
        (fun _ => false) [] 6 0 = Except.ok res ∧
      res.local_path = [] ∧
      res.planner.last_selected_viewpoint_indices_ = [3] ∧
      res.planner.last_selected_viewpoint_array_indices_ = [3] :=
  ⟨_, rfl, by decide, by decide, by decide⟩

/-! ## The "selected" flags -/

theorem clear_flags_apply (M : ViewPointManager P) (flags : Int → Bool) (a : Int) :
    ∀ n : Nat,
      ((List.range n).foldl
        (fun flags (i : Nat) => SetViewPointSelected M flags (i : Int) false true) flags) a =
        if 0 ≤ a ∧ a < (n : Int) then false else flags a
  | 0 => by
    have h : ¬ (0 ≤ a ∧ a < ((0 : Nat) : Int)) := by omega
    rw [List.range_zero, List.foldl_nil, if_neg h]
  | n + 1 => by
    rw [List.range_succ, List.foldl_append, List.foldl_cons, List.foldl_nil]
    have hset : ∀ f : Int → Bool,
        SetViewPointSelected M f (n : Int) false true = Function.update f (n : Int) false :=
      fun _ => rfl
    rw [hset]
    by_cases ha : a = (n : Int)
    · subst ha
      have h : 0 ≤ (n : Int) ∧ (n : Int) < ((n + 1 : Nat) : Int) := by omega
      rw [Function.update_same, if_pos h]
    · rw [Function.update_noteq ha, clear_flags_apply M flags a n]
      by_cases h1 : 0 ≤ a ∧ a < (n : Int)
      · have h2 : 0 ≤ a ∧ a < ((n + 1 : Nat) : Int) := by omega
        rw [if_pos h1, if_pos h2]
      · have h2 : ¬ (0 ≤ a ∧ a < ((n + 1 : Nat) : Int)) := by omega
        rw [if_neg h1, if_neg h2]

theorem set_flags_apply (M : ViewPointManager P) (L : LocalCoveragePlanner P) (a : Int) :
    ∀ (l : List Int) (flags : Int → Bool),
      (l.foldl (fun flags viewpoint_index =>
        if viewpoint_index ≠ L.robot_viewpoint_ind_ ∧
            viewpoint_index ≠ L.start_viewpoint_ind_ ∧
            viewpoint_index ≠ L.end_viewpoint_ind_ ∧
            viewpoint_index ≠ L.lookahead_viewpoint_ind_ then
          SetViewPointSelected M flags viewpoint_index true false
        else
          flags) flags) a = true ↔
        (flags a = true ∨
          ∃ u ∈ l, (u ≠ L.robot_viewpoint_ind_ ∧ u ≠ L.start_viewpoint_ind_ ∧
            u ≠ L.end_viewpoint_ind_ ∧ u ≠ L.lookahead_viewpoint_ind_) ∧
            M.GetViewPointArrayInd u = a)
  | [], flags => by simp
  | u :: l, flags => by
    rw [List.foldl_cons, set_flags_apply M L a l]
    by_cases hu : u ≠ L.robot_viewpoint_ind_ ∧ u ≠ L.start_viewpoint_ind_ ∧
        u ≠ L.end_viewpoint_ind_ ∧ u ≠ L.lookahead_viewpoint_ind_
    · rw [if_pos hu]
      have hset : SetViewPointSelected M flags u true false =
          Function.update flags (M.GetViewPointArrayInd u) true := rfl
      rw [hset]
      by_cases ha : a = M.GetViewPointArrayInd u
      · subst ha
        simp only [Function.update_same, true_or, true_iff]
        exact Or.inr ⟨u, List.mem_cons_self _ _, hu, rfl⟩
      · rw [Function.update_noteq ha]
        constructor
        · rintro (h | ⟨w, hw, hwn, hwa⟩)
          · exact Or.inl h
          · exact Or.inr ⟨w, List.mem_cons_of_mem _ hw, hwn, hwa⟩
        · rintro (h | ⟨w, hw, hwn, hwa⟩)
          · exact Or.inl h
          · rcases List.mem_cons.mp hw with hwu | hwl
            · subst hwu
              exact absurd hwa.symm ha
            · exact Or.inr ⟨w, hwl, hwn, hwa⟩
    · rw [if_neg hu]
      constructor
      · rintro (h | ⟨w, hw, hwn, hwa⟩)
        · exact Or.inl h
        · exact Or.inr ⟨w, List.mem_cons_of_mem _ hw, hwn, hwa⟩
      · rintro (h | ⟨w, hw, hwn, hwa⟩)
        · exact Or.inl h
        · rcases List.mem_cons.mp hw with hwu | hwl
          · subst hwu
            exact absurd hwn hu
          · exact Or.inr ⟨w, hwl, hwn, hwa⟩

theorem SolveLocalCoverageProblem_selected (E : Collaborators P) (M : ViewPointManager P)
    (rd : Nat → Nat → Nat) (L : LocalCoveragePlanner P) (flags : Int → Bool)
    (global_path : List (Node P)) (uncovered_point_num uncovered_frontier_point_num : Nat)
    (res : Outcome P)
    (h : SolveLocalCoverageProblem E M rd L flags global_path uncovered_point_num
      uncovered_frontier_point_num = Except.ok res) :
    res.selected = WriteSelectedFlags M res.planner flags := by
  obtain ⟨S, _, hbranch⟩ := SolveLocalCoverageProblem_ok E M rd L flags global_path
    uncovered_point_num uncovered_frontier_point_num res h
  rcases hbranch with ⟨_, st, _, hres⟩ | ⟨_, st, complete, _, hres⟩
  · subst hres
    rfl
  · subst hres
    rfl

/-- C7: after a call of `SolveLocalCoverageProblem` that returns, for every viewpoint `v` whose
array index lies in `0 .. GetViewPointNum() - 1`, the manager's "selected" flag of `v` is true
exactly when `v` is in `last_selected_viewpoint_indices_` and is none of the four anchors; a flag
at an array index outside that range that belongs to no viewpoint of the list is left as it was.
Distinct viewpoint ids have distinct array indices.  The flags are the only manager state the
call writes: every other use of the manager is a query. -/
theorem SolveLocalCoverageProblem_selected_flags (E : Collaborators P) (M : ViewPointManager P)
    (rd : Nat → Nat → Nat) (L : LocalCoveragePlanner P) (flags : Int → Bool)
    (global_path : List (Node P)) (uncovered_point_num uncovered_frontier_point_num : Nat)
    (res : Outcome P)
    (hinj : ∀ u w : Int, M.GetViewPointArrayInd u = M.GetViewPointArrayInd w → u = w)
    (h : SolveLocalCoverageProblem E M rd L flags global_path uncovered_point_num
      uncovered_frontier_point_num = Except.ok res) :
    (∀ v : Int, 0 ≤ M.GetViewPointArrayInd v → M.GetViewPointArrayInd v < M.GetViewPointNum →
      (res.selected (M.GetViewPointArrayInd v) = true ↔
        v ∈ res.planner.last_selected_viewpoint_indices_ ∧
          v ≠ res.planner.robot_viewpoint_ind_ ∧ v ≠ res.planner.start_viewpoint_ind_ ∧
          v ≠ res.planner.end_viewpoint_ind_ ∧ v ≠ res.planner.lookahead_viewpoint_ind_)) ∧
    (∀ a : Int, ¬ (0 ≤ a ∧ a < M.GetViewPointNum) →
      (∀ u ∈ res.planner.last_selected_viewpoint_indices_, M.GetViewPointArrayInd u ≠ a) →
      res.selected a = flags a) := by
  rw [SolveLocalCoverageProblem_selected E M rd L flags global_path uncovered_point_num
    uncovered_frontier_point_num res h]
  unfold WriteSelectedFlags
  constructor
  · intro v hv0 hvn
    rw [set_flags_apply M res.planner (M.GetViewPointArrayInd v), clear_flags_apply]
    have hin : 0 ≤ M.GetViewPointArrayInd v ∧
        M.GetViewPointArrayInd v < ((M.GetViewPointNum.toNat : Nat) : Int) := by omega
    simp only [hin, and_self, if_true, Bool.false_eq_true, false_or]
    constructor
    · rintro ⟨u, hu, hun, hua⟩
      have huv : u = v := hinj u v hua
      subst huv
      exact ⟨hu, hun⟩
    · rintro ⟨hv, hvn'⟩
      exact ⟨v, hv, hvn', rfl⟩
  · intro a ha hnot
    have hout : ¬ (0 ≤ a ∧ a < ((M.GetViewPointNum.toNat : Nat) : Int)) := by omega
    have hiff := set_flags_apply M res.planner a res.planner.last_selected_viewpoint_indices_
      ((List.range M.GetViewPointNum.toNat).foldl
        (fun flags (i : Nat) => SetViewPointSelected M flags (i : Int) false true) flags)
    rw [clear_flags_apply, if_neg hout] at hiff
    have hno : ¬ ∃ u ∈ res.planner.last_selected_viewpoint_indices_,
        (u ≠ res.planner.robot_viewpoint_ind_ ∧ u ≠ res.planner.start_viewpoint_ind_ ∧
          u ≠ res.planner.end_viewpoint_ind_ ∧ u ≠ res.planner.lookahead_viewpoint_ind_) ∧
        M.GetViewPointArrayInd u = a := by
      rintro ⟨u, hu, _, hua⟩
      exact hnot u hu hua
    simp only [hno, or_false] at hiff
    cases hfa : flags a with
    | true => exact hiff.mpr hfa
    | false =>
      by_contra hne
      have ht := hiff.mp (by simpa using hne)
      rw [hfa] at ht
      exact absurd ht (by simp)

/-- Instance of C7: after the demo call the flags of viewpoints `1, 2, 3` are set and the flag
of the anchor `0` is not. -/
theorem SolveLocalCoverageProblem_selected_flags_witness :
    ∃ res : Outcome Int,
      SolveLocalCoverageProblem DemoCollaborators DemoManager (fun _ _ => 0) DemoPlanner
        (fun _ => true) [] 6 0 = Except.ok res ∧
      (List.map res.selected [0, 1, 2, 3, 4] = [false, true, true, true, true]) ∧
      (∀ v : Int, 0 ≤ DemoManager.GetViewPointArrayInd v →
        DemoManager.GetViewPointArrayInd v < DemoManager.GetViewPointNum →
        (res.selected (DemoManager.GetViewPointArrayInd v) = true ↔
          v ∈ res.planner.last_selected_viewpoint_indices_ ∧
            v ≠ res.planner.robot_viewpoint_ind_ ∧ v ≠ res.planner.start_viewpoint_ind_ ∧
            v ≠ res.planner.end_viewpoint_ind_ ∧ v ≠ res.planner.lookahead_viewpoint_ind_)) ∧
      (∀ a : Int, ¬ (0 ≤ a ∧ a < DemoManager.GetViewPointNum) →
        (∀ u ∈ res.planner.last_selected_viewpoint_indices_,
          DemoManager.GetViewPointArrayInd u ≠ a) →
        res.selected a = (fun _ => true) a) :=
  ⟨_, rfl, by decide,
    SolveLocalCoverageProblem_selected_flags DemoCollaborators DemoManager (fun _ _ => 0)
      DemoPlanner (fun _ => true) [] 6 0 _ (fun _ _ huw => huw) rfl⟩

/-! ## A solver that returns no tour -/

theorem SolveTSP_no_tour (E : Collaborators P) (M : ViewPointManager P)
    (L : LocalCoveragePlanner P) (selected ordered : List Int)
    (hT : ∀ (D : List (List Int)) (depot : Nat) (has_dummy : Bool),
      E.TSPSolver D depot has_dummy = []) :
    (SolveTSP E M L selected ordered).1 = [] ∧
      ((SolveTSP E M L selected ordered).2 = [] ∨
        (SolveTSP E M L selected ordered).2 = ordered) := by
  have hf : FilteredPathIndex E M L selected = [] := by
    unfold FilteredPathIndex
    simp [hT]
  constructor
  · rw [SolveTSP_path_eq]
    have ht : TourViewPoints E M L selected = [] := by
      unfold TourViewPoints ClosedPathIndex
      simp [hf]
    rw [ht]
    rfl
  · cases selected with
    | nil => exact Or.inr rfl
    | cons a t =>
      left
      show (FilteredPathIndex E M L (a :: t)).map _ = []
      rw [hf]
      rfl

/-- With a solver that returns no tour, a call that returns gives an empty path; the
optimisation branch leaves `last_selected_viewpoint_indices_` as it was, the `else` branch
replaces it, and with it the array-index list, by the empty list. -/
theorem SolveLocalCoverageProblem_no_tour (E : Collaborators P) (M : ViewPointManager P)
    (rd : Nat → Nat → Nat) (L : LocalCoveragePlanner P) (flags : Int → Bool)
    (global_path : List (Node P)) (uncovered_point_num uncovered_frontier_point_num : Nat)
    (S : Sampling P) (res : Outcome P)
    (hT : ∀ (D : List (List Int)) (depot : Nat) (has_dummy : Bool),
      E.TSPSolver D depot has_dummy = [])
    (hS : SampleViewPoints E M L global_path uncovered_point_num
      uncovered_frontier_point_num = Except.ok S)
    (h : SolveLocalCoverageProblem E M rd L flags global_path uncovered_point_num
      uncovered_frontier_point_num = Except.ok res) :
    res.local_path = [] ∧
      (OptimizationBranch S = true →
        res.planner.last_selected_viewpoint_indices_ = L.last_selected_viewpoint_indices_) ∧
      (OptimizationBranch S = false →
        res.planner.last_selected_viewpoint_indices_ = [] ∧
          res.planner.last_selected_viewpoint_array_indices_ = []) := by
  obtain ⟨S', hS', hbranch⟩ := SolveLocalCoverageProblem_ok E M rd L flags global_path
    uncovered_point_num uncovered_frontier_point_num res h
  rw [hS] at hS'
  simp only [Except.ok.injEq] at hS'
  subst hS'
  have hpl := (SampleViewPoints_ok E M L global_path uncovered_point_num
    uncovered_frontier_point_num S hS).1
  have hkeep := (GetNavigationViewPointIndices_keeps M
    { L with local_coverage_complete_ := false } global_path []).2.1
  rw [← hpl] at hkeep
  rcases hbranch with ⟨hb, st, hst, hres⟩ | ⟨hb, st, complete, hst, hres⟩
  · subst hres
    have hinv := foldlM_invariant (OptimizationItr E M rd S)
      (fun st => st.local_path = [] ∧
        st.last_selected_viewpoint_indices_ = L.last_selected_viewpoint_indices_)
      (by
        intro s itr s' hs hstep
        obtain ⟨picked, fq, fc, _, _, _, _, hlast⟩ :=
          OptimizationItr_ok E M rd S s s' itr hstep
        rcases hlast with ⟨_, hpath, hne⟩ | ⟨hl, hpath⟩
        · rw [hpath, (SolveTSP_no_tour E M S.planner _ _ hT).1] at hne
          simp at hne
        · exact ⟨hpath ▸ hs.1, hl ▸ hs.2⟩)
      _ (InitialProgress S) st ⟨rfl, hkeep⟩ hst
    refine ⟨hinv.1, fun _ => hinv.2, fun hb' => ?_⟩
    rw [hb] at hb'
    exact absurd hb' (by simp)
  · subst hres
    obtain ⟨picked, fq, fc, _, _, _, hlast, hpath⟩ := SinglePass_ok E M rd S _ st complete hst
    have hnt := SolveTSP_no_tour E M S.planner
      (E.UniquifyIntVector (picked ++ S.navigation_viewpoint_indices))
      (InitialProgress S).ordered_viewpoint_indices hT
    have hl : st.last_selected_viewpoint_indices_ = [] := by
      rw [hlast]
      rcases hnt.2 with h1 | h1
      · exact h1
      · rw [h1]
        rfl
    refine ⟨?_, fun hb' => ?_, fun _ => ⟨hl, ?_⟩⟩
    · show st.local_path = []
      rw [hpath]
      exact hnt.1
    · rw [hb] at hb'
      exact absurd hb' (by simp)
    · show st.last_selected_viewpoint_indices_.map M.GetViewPointArrayInd = []
      rw [hl]
      rfl

/-! ## Boundary viewpoints -/

theorem GetBoundaryViewpointIndexLoop_eq (M : ViewPointManager P) :
    ∀ (nodes : List (Node P)) (boundary : Int),
      GetBoundaryViewpointIndexLoop M nodes boundary =
        match (nodes.takeWhile (SpecWalkable M)).getLast? with
        | none => boundary
        | some node => M.GetNearestCandidateViewPointInd node.position_
  | [], boundary => rfl
  | node :: rest, boundary => by
    unfold GetBoundaryViewpointIndexLoop
    by_cases hbad : node.type_ = NodeType.GLOBAL_VIEWPOINT ∨ node.type_ = NodeType.HOME ∨
        M.InLocalPlanningHorizon node.position_ = false
    · rw [if_pos hbad]
      have hw : SpecWalkable M node = false := by
        unfold SpecWalkable
        rcases hbad with h | h | h <;> simp [h]
      simp [List.takeWhile_cons, hw]
    · rw [if_neg hbad]
      have hw : SpecWalkable M node = true := by
        unfold SpecWalkable
        simp only [not_or] at hbad
        obtain ⟨h1, h2, h3⟩ := hbad
        simp [h1, h2]
        simpa using h3
      rw [GetBoundaryViewpointIndexLoop_eq M rest, List.takeWhile_cons, hw]
      simp only [if_true, List.getLast?_cons]
      cases (rest.takeWhile (SpecWalkable M)).getLast? <;> rfl

theorem GetBoundaryViewpointIndex_eq (M : ViewPointManager P) (L : LocalCoveragePlanner P)
    (global_path : List (Node P)) :
    GetBoundaryViewpointIndex M L global_path =
      SpecBoundaryViewpoint M L.robot_viewpoint_ind_ global_path := by
  unfold GetBoundaryViewpointIndex SpecBoundaryViewpoint
  cases global_path with
  | nil => rfl
  | cons front rest =>
    simp only []
    by_cases hh : M.InLocalPlanningHorizon front.position_ = true
    · rw [if_pos hh]
      exact GetBoundaryViewpointIndexLoop_eq M (front :: rest) L.robot_viewpoint_ind_
    · rw [if_neg hh]
      have hw : SpecWalkable M front = false := by
        unfold SpecWalkable
        simp [hh]
      simp [List.takeWhile_cons, hw]

/-- C17: for every global path `GetBoundaryViewpointIndex` returns the nearest candidate to the
position of the last node of the longest prefix whose nodes are all inside the local planning
horizon and of a type other than `GLOBAL_VIEWPOINT` and `HOME`; it returns
`robot_viewpoint_ind_` when that prefix is empty, which is the case for the empty path and for
a path whose first node is outside the horizon or of type `GLOBAL_VIEWPOINT` or `HOME`.  The
start anchor is this value on the path, the end anchor this value on the reversed path. -/
theorem GetBoundaryViewpointIndex_longest_walkable_prefix (M : ViewPointManager P)
    (L : LocalCoveragePlanner P) (global_path : List (Node P)) :
    GetBoundaryViewpointIndex M L global_path =
        SpecBoundaryViewpoint M L.robot_viewpoint_ind_ global_path ∧
      (global_path.takeWhile (SpecWalkable M) = [] →
        GetBoundaryViewpointIndex M L global_path = L.robot_viewpoint_ind_) ∧
      (∀ first rest, global_path = first :: rest →
        (M.InLocalPlanningHorizon first.position_ = false ∨
          first.type_ = NodeType.GLOBAL_VIEWPOINT ∨ first.type_ = NodeType.HOME) →
        GetBoundaryViewpointIndex M L global_path = L.robot_viewpoint_ind_) ∧
      GetBoundaryViewpointIndex M L [] = L.robot_viewpoint_ind_ ∧
      (GetBoundaryViewpointIndices M L global_path).start_viewpoint_ind_ =
        GetBoundaryViewpointIndex M L global_path ∧
      (GetBoundaryViewpointIndices M L global_path).end_viewpoint_ind_ =
        GetBoundaryViewpointIndex M L global_path.reverse := by
  refine ⟨GetBoundaryViewpointIndex_eq M L global_path, ?_, ?_, rfl, rfl, rfl⟩
  · intro hempty
    rw [GetBoundaryViewpointIndex_eq]
    unfold SpecBoundaryViewpoint
    rw [hempty]
    rfl
  · intro first rest hpath hbad
    rw [GetBoundaryViewpointIndex_eq]
    unfold SpecBoundaryViewpoint
    have hw : SpecWalkable M first = false := by
      unfold SpecWalkable
      rcases hbad with h | h | h <;> simp [h]
    rw [hpath, List.takeWhile_cons, hw]
    rfl

/-! ## The gate of the frontier selection -/

/-- C15: `SelectViewPointFromFrontierQueue` returns its three arguments (frontier queue,
frontier bitmap, selected list) as they were when frontier mode is off, or the frontier queue
is empty, or the gain of its first entry is less than or equal to `kMinAddFrontierPointNum`; a
top gain equal to `kMinAddFrontierPointNum` thus selects nothing. -/
theorem SelectViewPointFromFrontierQueue_gate_closed (E : Collaborators P)
    (M : ViewPointManager P) (L : LocalCoveragePlanner P) (gen : Nat → Nat)
    (frontier_queue : List (Int × Int)) (frontier_covered : List Bool)
    (selected_viewpoint_indices : List Int)
    (hgate : L.use_frontier_ = false ∨ frontier_queue = [] ∨
      ∃ top rest, frontier_queue = top :: rest ∧ top.1 ≤ L.kMinAddFrontierPointNum) :
    SelectViewPointFromFrontierQueue E M L gen frontier_queue frontier_covered
        selected_viewpoint_indices =
      Except.ok (frontier_queue, frontier_covered, selected_viewpoint_indices) := by
  unfold SelectViewPointFromFrontierQueue
  cases frontier_queue with
  | nil => rfl
  | cons top rest =>
    simp only []
    have hno : ¬ (L.use_frontier_ = true ∧ top.1 > L.kMinAddFrontierPointNum) := by
      rintro ⟨hon, hgt⟩
      rcases hgate with h | h | ⟨top', rest', h, hle⟩
      · rw [h] at hon
        exact absurd hon (by simp)
      · exact absurd h (by simp)
      · simp only [List.cons.injEq] at h
        rw [← h.1] at hle
        omega
    rw [if_neg hno]

/-- Instance of C15: frontier mode on and a top gain equal to `kMinAddFrontierPointNum`. -/
theorem SelectViewPointFromFrontierQueue_gate_closed_witness :
    FrontierPlanner.use_frontier_ = true ∧
    FrontierPlanner.kMinAddFrontierPointNum = 1 ∧
    SelectViewPointFromFrontierQueue DemoCollaborators FrontierManager FrontierPlanner
        (fun _ => 0) [(1, 2)] [true, false] [1] =
      Except.ok ([(1, 2)], [true, false], [1]) :=
  ⟨rfl, rfl,
    SelectViewPointFromFrontierQueue_gate_closed DemoCollaborators FrontierManager
      FrontierPlanner (fun _ => 0) [(1, 2)] [true, false] [1]
      (Or.inr (Or.inr ⟨(1, 2), [], rfl, by decide⟩))⟩

/-- C14 at its failing input: frontier mode on, two optimisation iterations, viewpoint `1` in
the surface queue and viewpoint `2` in the frontier queue.  The first iteration leaves the
frontier bitmap marked by its surface pick and the frontier queue re-ranked; the second
iteration is handed these, finds the top gain at the threshold and picks no frontier viewpoint,
so the two selections passed to `SolveTSP` differ. -/
theorem OptimizationItr_frontier_state_carries_over :
    ∃ (S : Sampling Int) (first : Progress Int) (res : Outcome Int),
      SampleViewPoints DemoCollaborators FrontierManager FrontierPlanner [] 3 2 =
        Except.ok S ∧
      S.frontier_queue = [(2, 2)] ∧ S.frontier_covered = [false, false] ∧
      OptimizationItr DemoCollaborators FrontierManager (fun _ _ => 0) S (InitialProgress S) 0 =
        Except.ok first ∧
      first.frontier_queue = [(1, 2)] ∧ first.frontier_covered = [true, false] ∧
      SolveLocalCoverageProblem DemoCollaborators FrontierManager (fun _ _ => 0)
        FrontierPlanner (fun _ => false) [] 3 2 = Except.ok res ∧
      res.solve_tsp_calls = [[0, 1, 2], [0, 1]] :=
  ⟨_, _, _, rfl, by decide, by decide, rfl, by decide, by decide, rfl, by decide⟩

/-! ## Marking -/

theorem getD_set_true (bitmap : List Bool) (k i : Nat) (hk : k < bitmap.length) :
    (bitmap.set k true).getD i false = (bitmap.getD i false || decide (i = k)) := by
  simp only [List.getD_eq_getElem?_getD, List.getElem?_set]
  by_cases h : k = i
  · subst h
    simp [hk]
  · have h' : ¬ i = k := fun e => h e.symm
    simp [h, h']

/-- The bitmap after marking a list of points that lie within it: same length, and a bit is set
exactly when it was set or its index is one of the points. -/
theorem MarkCovered_foldlM_spec :
    ∀ (points : List Int) (bitmap : List Bool),
      (∀ point_ind ∈ points, 0 ≤ point_ind ∧ point_ind < (bitmap.length : Int)) →
      ∃ marked, points.foldlM MarkCovered bitmap = Except.ok marked ∧
        marked.length = bitmap.length ∧
        ∀ i : Nat, marked.getD i false = (bitmap.getD i false || decide ((i : Int) ∈ points))
  | [], bitmap, _ => ⟨bitmap, rfl, rfl, by simp⟩
  | point_ind :: points, bitmap, h => by
    have h0 := h point_ind (List.mem_cons_self _ _)
    have hin : InRange bitmap point_ind = true := by
      simp [InRange, h0.1, h0.2]
    have hk : point_ind.toNat < bitmap.length := by omega
    have hrest : ∀ q ∈ points,
        0 ≤ q ∧ q < ((bitmap.set point_ind.toNat true).length : Int) := by
      intro q hq
      simpa using h q (List.mem_cons_of_mem _ hq)
    obtain ⟨marked, hm, hl, hbits⟩ := MarkCovered_foldlM_spec points
      (bitmap.set point_ind.toNat true) hrest
    refine ⟨marked, ?_, by simpa using hl, ?_⟩
    · rw [List.foldlM_cons]
      simp only [MarkCovered, hin, if_true, bind, Except.bind]
      exact hm
    · intro i
      rw [hbits i, getD_set_true bitmap point_ind.toNat i hk]
      have hiff : (i = point_ind.toNat) ↔ ((i : Int) = point_ind) := by omega
      by_cases hi : (i : Int) = point_ind
      · have hi' : i = point_ind.toNat := hiff.mpr hi
        have e1 : decide (i = point_ind.toNat) = true := decide_eq_true hi'
        have e2 : decide ((i : Int) ∈ point_ind :: points) = true :=
          decide_eq_true (by rw [hi]; exact List.mem_cons_self _ _)
        rw [e1, e2]
        simp
      · have hi' : ¬ i = point_ind.toNat := fun e => hi (hiff.mp e)
        simp [hi, hi', List.mem_cons]

theorem bitmap_ext (a b : List Bool) (hlen : a.length = b.length)
    (hbits : ∀ i : Nat, a.getD i false = b.getD i false) : a = b := by
  apply List.ext_getElem hlen
  intro i h1 h2
  have := hbits i
  rw [List.getD_eq_getElem a false h1, List.getD_eq_getElem b false h2] at this
  exact this

/-- Idempotence, commutativity and monotonicity of marking two lists of points that lie within
the bitmap. -/
theorem MarkCovered_foldlM_algebra (pa pb : List Int) (bitmap : List Bool)
    (ha : ∀ p ∈ pa, 0 ≤ p ∧ p < (bitmap.length : Int))
    (hb : ∀ p ∈ pb, 0 ≤ p ∧ p < (bitmap.length : Int)) :
    ∃ ma mb mab : List Bool,
      pa.foldlM MarkCovered bitmap = Except.ok ma ∧
      pa.foldlM MarkCovered ma = Except.ok ma ∧
      pb.foldlM MarkCovered bitmap = Except.ok mb ∧
      pb.foldlM MarkCovered ma = Except.ok mab ∧
      pa.foldlM MarkCovered mb = Except.ok mab ∧
      ma.length = bitmap.length ∧
      ∀ i : Nat, bitmap.getD i false = true → ma.getD i false = true := by
  obtain ⟨ma, hma, hla, hba⟩ := MarkCovered_foldlM_spec pa bitmap ha
  obtain ⟨mb, hmb, hlb, hbb⟩ := MarkCovered_foldlM_spec pb bitmap hb
  obtain ⟨maa, hmaa, hlaa, hbaa⟩ := MarkCovered_foldlM_spec pa ma (by rw [hla]; exact ha)
  obtain ⟨mab, hmab, hlab, hbab⟩ := MarkCovered_foldlM_spec pb ma (by rw [hla]; exact hb)
  obtain ⟨mba, hmba, hlba, hbba⟩ := MarkCovered_foldlM_spec pa mb (by rw [hlb]; exact ha)
  have h1 : maa = ma := by
    apply bitmap_ext _ _ hlaa
    intro i
    rw [hbaa i, hba i]
    cases bitmap.getD i false <;> cases decide ((i : Int) ∈ pa) <;> rfl
  have h2 : mba = mab := by
    apply bitmap_ext _ _ (by rw [hlba, hlab, hlb, hla])
    intro i
    rw [hbba i, hbab i, hbb i, hba i]
    cases bitmap.getD i false <;> cases decide ((i : Int) ∈ pa) <;>
      cases decide ((i : Int) ∈ pb) <;> rfl
  refine ⟨ma, mb, mab, hma, h1 ▸ hmaa, hmb, hmab, h2 ▸ hmba, hla, ?_⟩
  intro i hi
  rw [hba i, hi]
  rfl

/-- C16: marking with `UpdateViewPointCoveredPoint`, and likewise with
`UpdateViewPointCoveredFrontierPoint`, is idempotent and commutative and never clears a bit:
for every bitmap and viewpoints `a`, `b` whose point indices are within the bitmap, each marking
returns, marking `a` twice gives the bitmap of marking `a` once, marking `a` then `b` gives the
bitmap of marking `b` then `a`, and a bit that was true stays true. -/
theorem UpdateViewPointCoveredPoint_idempotent_commutative (M : ViewPointManager P)
    (bitmap frontier_bitmap : List Bool) (a b : Int) (ua ub : Bool)
    (ha : ∀ p ∈ M.GetViewPointCoveredPointList a ua, 0 ≤ p ∧ p < (bitmap.length : Int))
    (hb : ∀ p ∈ M.GetViewPointCoveredPointList b ub, 0 ≤ p ∧ p < (bitmap.length : Int))
    (hfa : ∀ p ∈ M.GetViewPointCoveredFrontierPointList a ua,
      0 ≤ p ∧ p < (frontier_bitmap.length : Int))
    (hfb : ∀ p ∈ M.GetViewPointCoveredFrontierPointList b ub,
      0 ≤ p ∧ p < (frontier_bitmap.length : Int)) :
    (∃ ma mb mab : List Bool,
      UpdateViewPointCoveredPoint M bitmap a ua = Except.ok ma ∧
      UpdateViewPointCoveredPoint M ma a ua = Except.ok ma ∧
      UpdateViewPointCoveredPoint M bitmap b ub = Except.ok mb ∧
      UpdateViewPointCoveredPoint M ma b ub = Except.ok mab ∧
      UpdateViewPointCoveredPoint M mb a ua = Except.ok mab ∧
      ma.length = bitmap.length ∧
      ∀ i : Nat, bitmap.getD i false = true → ma.getD i false = true) ∧
    (∃ ma mb mab : List Bool,
      UpdateViewPointCoveredFrontierPoint M frontier_bitmap a ua = Except.ok ma ∧
      UpdateViewPointCoveredFrontierPoint M ma a ua = Except.ok ma ∧
      UpdateViewPointCoveredFrontierPoint M frontier_bitmap b ub = Except.ok mb ∧
      UpdateViewPointCoveredFrontierPoint M ma b ub = Except.ok mab ∧
      UpdateViewPointCoveredFrontierPoint M mb a ua = Except.ok mab ∧
      ma.length = frontier_bitmap.length ∧
      ∀ i : Nat, frontier_bitmap.getD i false = true → ma.getD i false = true) :=
  ⟨MarkCovered_foldlM_algebra _ _ bitmap ha hb,
    MarkCovered_foldlM_algebra _ _ frontier_bitmap hfa hfb⟩

/-- Instance of C16: viewpoints `1` and `2` of the frontier manager on a surface bitmap of
three points and a frontier bitmap of two points with its second bit set. -/
theorem UpdateViewPointCoveredPoint_idempotent_commutative_witness :
    UpdateViewPointCoveredFrontierPoint FrontierManager [false, true] 1 false =
      Except.ok [true, true] ∧
    ((∃ ma mb mab : List Bool,
      UpdateViewPointCoveredPoint FrontierManager [false, false, false] 1 false =
        Except.ok ma ∧
      UpdateViewPointCoveredPoint FrontierManager ma 1 false = Except.ok ma ∧
      UpdateViewPointCoveredPoint FrontierManager [false, false, false] 2 false =
        Except.ok mb ∧
      UpdateViewPointCoveredPoint FrontierManager ma 2 false = Except.ok mab ∧
      UpdateViewPointCoveredPoint FrontierManager mb 1 false = Except.ok mab ∧
      ma.length = [false, false, false].length ∧
      ∀ i : Nat, [false, false, false].getD i false = true → ma.getD i false = true) ∧
    (∃ ma mb mab : List Bool,
      UpdateViewPointCoveredFrontierPoint FrontierManager [false, true] 1 false =
        Except.ok ma ∧
      UpdateViewPointCoveredFrontierPoint FrontierManager ma 1 false = Except.ok ma ∧
      UpdateViewPointCoveredFrontierPoint FrontierManager [false, true] 2 false =
        Except.ok mb ∧
      UpdateViewPointCoveredFrontierPoint FrontierManager ma 2 false = Except.ok mab ∧
      UpdateViewPointCoveredFrontierPoint FrontierManager mb 1 false = Except.ok mab ∧
      ma.length = [false, true].length ∧
      ∀ i : Nat, [false, true].getD i false = true → ma.getD i false = true)) :=
  ⟨rfl,
    UpdateViewPointCoveredPoint_idempotent_commutative FrontierManager [false, false, false]
      [false, true] 1 2 false false (by decide) (by decide) (by decide) (by decide)⟩

/-! ## Candidate queues -/

theorem EnqueueViewpointCandidate_mem (M : ViewPointManager P) (L : LocalCoveragePlanner P)
    (covered frontier_covered : List Bool) (selected : List Int)
    (queues : List (Int × Int) × List (Int × Int)) (v : Int) (g w : Int) :
    ((g, w) ∈ (EnqueueViewpointCandidate M L covered frontier_covered selected queues v).1 ↔
      (g, w) ∈ queues.1 ∨
        (w = v ∧ SpecNotFiltered M selected v ∧
          g = M.GetViewPointCoveredPointNumIn covered (M.GetViewPointArrayInd v) true ∧
          g ≥ L.kMinAddPointNum)) ∧
    ((g, w) ∈ (EnqueueViewpointCandidate M L covered frontier_covered selected queues v).2 ↔
      (g, w) ∈ queues.2 ∨
        (w = v ∧ SpecNotFiltered M selected v ∧
          M.GetViewPointCoveredPointNumIn covered (M.GetViewPointArrayInd v) true <
            L.kMinAddPointNum ∧
          L.use_frontier_ = true ∧
          g = M.GetViewPointCoveredFrontierPointNumIn frontier_covered
            (M.GetViewPointArrayInd v) true ∧
          g ≥ L.kMinAddFrontierPointNum)) := by
  unfold EnqueueViewpointCandidate SpecNotFiltered
  by_cases h1 : M.ViewPointVisited v false = true ∨ M.ViewPointInExploringCell v = false
  · rw [if_pos h1]
    have hno : ¬ (M.ViewPointVisited v false = false ∧ M.ViewPointInExploringCell v = true ∧
        M.GetViewPointArrayInd v ∉ selected) := by
      rintro ⟨a, b, _⟩
      rcases h1 with h | h
      · rw [a] at h
        exact absurd h (by simp)
      · rw [b] at h
        exact absurd h (by simp)
    simp [hno]
  · rw [if_neg h1]
    simp only [not_or, Bool.not_eq_true, Bool.not_eq_false] at h1
    simp only []
    by_cases h2 : M.GetViewPointArrayInd v ∈ selected
    · rw [if_pos h2]
      simp [h2]
    · rw [if_neg h2]
      by_cases h3 : M.GetViewPointCoveredPointNumIn covered (M.GetViewPointArrayInd v) true ≥
          L.kMinAddPointNum
      · rw [if_pos h3]
        have h3' : ¬ M.GetViewPointCoveredPointNumIn covered (M.GetViewPointArrayInd v) true <
            L.kMinAddPointNum := by omega
        constructor
        · simp only [List.mem_append, List.mem_singleton, Prod.mk.injEq]
          constructor
          · rintro (h | ⟨hg, hw⟩)
            · exact Or.inl h
            · exact Or.inr ⟨hw, ⟨h1.1, h1.2, h2⟩, hg, hg ▸ h3⟩
          · rintro (h | ⟨hw, _, hg, _⟩)
            · exact Or.inl h
            · exact Or.inr ⟨hg, hw⟩
        · simp [h3']
      · rw [if_neg h3]
        have h3' : M.GetViewPointCoveredPointNumIn covered (M.GetViewPointArrayInd v) true <
            L.kMinAddPointNum := by omega
        by_cases h4 : L.use_frontier_ = true
        · rw [if_pos h4]
          by_cases h5 : M.GetViewPointCoveredFrontierPointNumIn frontier_covered
              (M.GetViewPointArrayInd v) true ≥ L.kMinAddFrontierPointNum
          · rw [if_pos h5]
            constructor
            · constructor
              · intro h
                exact Or.inl h
              · rintro (h | ⟨_, _, hg, hge⟩)
                · exact h
                · rw [hg] at hge
                  exact absurd hge h3
            · simp only [List.mem_append, List.mem_singleton, Prod.mk.injEq]
              constructor
              · rintro (h | ⟨hg, hw⟩)
                · exact Or.inl h
                · exact Or.inr ⟨hw, ⟨h1.1, h1.2, h2⟩, h3', h4, hg, hg ▸ h5⟩
              · rintro (h | ⟨hw, _, _, _, hg, _⟩)
                · exact Or.inl h
                · exact Or.inr ⟨hg, hw⟩
          · rw [if_neg h5]
            constructor
            · constructor
              · intro h
                exact Or.inl h
              · rintro (h | ⟨_, _, hg, hge⟩)
                · exact h
                · rw [hg] at hge
                  exact absurd hge h3
            · constructor
              · intro h
                exact Or.inl h
              · rintro (h | ⟨_, _, _, _, hg, hge⟩)
                · exact h
                · rw [hg] at hge
                  exact absurd hge h5
        · rw [if_neg h4]
          constructor
          · constructor
            · intro h
              exact Or.inl h
            · rintro (h | ⟨_, _, hg, hge⟩)
              · exact h
              · rw [hg] at hge
                exact absurd hge h3
          · constructor
            · intro h
              exact Or.inl h
            · rintro (h | ⟨_, _, _, hon, _⟩)
              · exact h
              · exact absurd hon h4

theorem EnqueueViewpointCandidate_foldl_mem (M : ViewPointManager P)
    (L : LocalCoveragePlanner P) (covered frontier_covered : List Bool) (selected : List Int)
    (g w : Int) :
    ∀ (candidates : List Int) (queues : List (Int × Int) × List (Int × Int)),
      ((g, w) ∈ (candidates.foldl
          (EnqueueViewpointCandidate M L covered frontier_covered selected) queues).1 ↔
        (g, w) ∈ queues.1 ∨
          (w ∈ candidates ∧ SpecNotFiltered M selected w ∧
            g = M.GetViewPointCoveredPointNumIn covered (M.GetViewPointArrayInd w) true ∧
            g ≥ L.kMinAddPointNum)) ∧
      ((g, w) ∈ (candidates.foldl
          (EnqueueViewpointCandidate M L covered frontier_covered selected) queues).2 ↔
        (g, w) ∈ queues.2 ∨
          (w ∈ candidates ∧ SpecNotFiltered M selected w ∧
            M.GetViewPointCoveredPointNumIn covered (M.GetViewPointArrayInd w) true <
              L.kMinAddPointNum ∧
            L.use_frontier_ = true ∧
            g = M.GetViewPointCoveredFrontierPointNumIn frontier_covered
              (M.GetViewPointArrayInd w) true ∧
            g ≥ L.kMinAddFrontierPointNum))
  | [], queues => by simp
  | v :: candidates, queues => by
    rw [List.foldl_cons]
    have ih := EnqueueViewpointCandidate_foldl_mem M L covered frontier_covered selected g w
      candidates (EnqueueViewpointCandidate M L covered frontier_covered selected queues v)
    have hstep := EnqueueViewpointCandidate_mem M L covered frontier_covered selected queues
      v g w
    rw [ih.1, ih.2, hstep.1, hstep.2]
    constructor
    · constructor
      · rintro ((h | ⟨hw, hrest⟩) | ⟨hw, hrest⟩)
        · exact Or.inl h
        · exact Or.inr ⟨hw ▸ List.mem_cons_self _ _, hw ▸ hrest⟩
        · exact Or.inr ⟨List.mem_cons_of_mem _ hw, hrest⟩
      · rintro (h | ⟨hw, hrest⟩)
        · exact Or.inl (Or.inl h)
        · rcases List.mem_cons.mp hw with hwv | hwc
          · exact Or.inl (Or.inr ⟨hwv, hwv ▸ hrest⟩)
          · exact Or.inr ⟨hwc, hrest⟩
    · constructor
      · rintro ((h | ⟨hw, hrest⟩) | ⟨hw, hrest⟩)
        · exact Or.inl h
        · exact Or.inr ⟨hw ▸ List.mem_cons_self _ _, hw ▸ hrest⟩
        · exact Or.inr ⟨List.mem_cons_of_mem _ hw, hrest⟩
      · rintro (h | ⟨hw, hrest⟩)
        · exact Or.inl (Or.inl h)
        · rcases List.mem_cons.mp hw with hwv | hwc
          · exact Or.inl (Or.inr ⟨hwv, hwv ▸ hrest⟩)
          · exact Or.inr ⟨hwc, hrest⟩

/-- The entries of the two queues built by `EnqueueViewpointCandidates` from empty queues, when
the sort keeps the entries of a queue. -/
theorem EnqueueViewpointCandidates_mem (E : Collaborators P) (M : ViewPointManager P)
    (L : LocalCoveragePlanner P) (covered frontier_covered : List Bool) (selected : List Int)
    (hsort : ∀ (l : List (Int × Int)) (x : Int × Int), x ∈ E.SortInRev l ↔ x ∈ l)
    (g w : Int) :
    ((g, w) ∈ (EnqueueViewpointCandidates E M L [] [] covered frontier_covered selected).1 ↔
      (w ∈ M.GetViewPointCandidateIndices ∧ SpecNotFiltered M selected w ∧
        g = M.GetViewPointCoveredPointNumIn covered (M.GetViewPointArrayInd w) true ∧
        g ≥ L.kMinAddPointNum)) ∧
    ((g, w) ∈ (EnqueueViewpointCandidates E M L [] [] covered frontier_covered selected).2 ↔
      (w ∈ M.GetViewPointCandidateIndices ∧ SpecNotFiltered M selected w ∧
        M.GetViewPointCoveredPointNumIn covered (M.GetViewPointArrayInd w) true <
          L.kMinAddPointNum ∧
        L.use_frontier_ = true ∧
        g = M.GetViewPointCoveredFrontierPointNumIn frontier_covered
          (M.GetViewPointArrayInd w) true ∧
        g ≥ L.kMinAddFrontierPointNum)) := by
  have hfold := EnqueueViewpointCandidate_foldl_mem M L covered frontier_covered selected g w
    M.GetViewPointCandidateIndices ([], [])
  unfold EnqueueViewpointCandidates
  simp only []
  constructor
  · rw [hsort, hfold.1]
    simp
  · have h2 : (g, w) ∈ (if L.use_frontier_ = true then
        E.SortInRev (M.GetViewPointCandidateIndices.foldl
          (EnqueueViewpointCandidate M L covered frontier_covered selected) ([], [])).2
        else (M.GetViewPointCandidateIndices.foldl
          (EnqueueViewpointCandidate M L covered frontier_covered selected) ([], [])).2) ↔
        (g, w) ∈ (M.GetViewPointCandidateIndices.foldl
          (EnqueueViewpointCandidate M L covered frontier_covered selected) ([], [])).2 := by
      split_ifs
      · exact hsort _ _
      · exact Iff.rfl
    rw [h2, hfold.2]
    simp

/-- C11: `EnqueueViewpointCandidates`, started with two empty queues, puts a candidate id `v`
into the surface queue exactly when `v` is not visited, is in an exploring cell, its array index
is not in the already-selected list, and its surface gain against the given bitmap is at least
`kMinAddPointNum`; it puts `v` into the frontier queue exactly when `v` passes the same three
filters, its surface gain is below `kMinAddPointNum`, frontier mode is on and its frontier gain
is at least `kMinAddFrontierPointNum`.  Each entry carries that gain, and no viewpoint is in
both queues.  The sort is taken to keep the entries of a queue. -/
theorem EnqueueViewpointCandidates_queues (E : Collaborators P) (M : ViewPointManager P)
    (L : LocalCoveragePlanner P) (covered frontier_covered : List Bool) (selected : List Int)
    (hsort : ∀ (l : List (Int × Int)) (x : Int × Int), x ∈ E.SortInRev l ↔ x ∈ l) :
    (∀ g v : Int,
      (g, v) ∈ (EnqueueViewpointCandidates E M L [] [] covered frontier_covered selected).1 ↔
        (v ∈ M.GetViewPointCandidateIndices ∧ SpecNotFiltered M selected v ∧
          g = M.GetViewPointCoveredPointNumIn covered (M.GetViewPointArrayInd v) true ∧
          g ≥ L.kMinAddPointNum)) ∧
    (∀ g v : Int,
      (g, v) ∈ (EnqueueViewpointCandidates E M L [] [] covered frontier_covered selected).2 ↔
        (v ∈ M.GetViewPointCandidateIndices ∧ SpecNotFiltered M selected v ∧
          M.GetViewPointCoveredPointNumIn covered (M.GetViewPointArrayInd v) true <
            L.kMinAddPointNum ∧
          L.use_frontier_ = true ∧
          g = M.GetViewPointCoveredFrontierPointNumIn frontier_covered
            (M.GetViewPointArrayInd v) true ∧
          g ≥ L.kMinAddFrontierPointNum)) ∧
    (∀ g g' v : Int,
      (g, v) ∈ (EnqueueViewpointCandidates E M L [] [] covered frontier_covered selected).1 →
      (g', v) ∉ (EnqueueViewpointCandidates E M L [] [] covered frontier_covered selected).2) := by
  refine ⟨fun g v => (EnqueueViewpointCandidates_mem E M L covered frontier_covered selected
      hsort g v).1,
    fun g v => (EnqueueViewpointCandidates_mem E M L covered frontier_covered selected
      hsort g v).2, ?_⟩
  intro g g' v h1 h2
  have a := (EnqueueViewpointCandidates_mem E M L covered frontier_covered selected
    hsort g v).1.mp h1
  have b := (EnqueueViewpointCandidates_mem E M L covered frontier_covered selected
    hsort g' v).2.mp h2
  obtain ⟨_, _, hg, hge⟩ := a
  obtain ⟨_, _, hlt, _⟩ := b
  rw [hg] at hge
  omega

theorem DemoCollaborators_SortInRev_mem (l : List (Int × Int)) (x : Int × Int) :
    x ∈ DemoCollaborators.SortInRev l ↔ x ∈ l :=
  (List.perm_insertionSort (fun a b : Int × Int => a.1 ≥ b.1) l).mem_iff

/-- Instance of C11: the frontier manager with anchor `0` already selected gives the surface
queue `(3, 1)` and the frontier queue `(2, 2)`. -/
theorem EnqueueViewpointCandidates_queues_witness :
    EnqueueViewpointCandidates DemoCollaborators FrontierManager FrontierPlanner [] []
      [false, false, false] [false, false] [0] = ([(3, 1)], [(2, 2)]) ∧
    (∀ g v : Int,
      (g, v) ∈ (EnqueueViewpointCandidates DemoCollaborators FrontierManager FrontierPlanner
          [] [] [false, false, false] [false, false] [0]).1 ↔
        (v ∈ FrontierManager.GetViewPointCandidateIndices ∧
          SpecNotFiltered FrontierManager [0] v ∧
          g = FrontierManager.GetViewPointCoveredPointNumIn [false, false, false]
            (FrontierManager.GetViewPointArrayInd v) true ∧
          g ≥ FrontierPlanner.kMinAddPointNum)) ∧
    (∀ g v : Int,
      (g, v) ∈ (EnqueueViewpointCandidates DemoCollaborators FrontierManager FrontierPlanner
          [] [] [false, false, false] [false, false] [0]).2 ↔
        (v ∈ FrontierManager.GetViewPointCandidateIndices ∧
          SpecNotFiltered FrontierManager [0] v ∧
          FrontierManager.GetViewPointCoveredPointNumIn [false, false, false]
            (FrontierManager.GetViewPointArrayInd v) true < FrontierPlanner.kMinAddPointNum ∧
          FrontierPlanner.use_frontier_ = true ∧
          g = FrontierManager.GetViewPointCoveredFrontierPointNumIn [false, false]
            (FrontierManager.GetViewPointArrayInd v) true ∧
          g ≥ FrontierPlanner.kMinAddFrontierPointNum)) ∧
    (∀ g g' v : Int,
      (g, v) ∈ (EnqueueViewpointCandidates DemoCollaborators FrontierManager FrontierPlanner
          [] [] [false, false, false] [false, false] [0]).1 →
      (g', v) ∉ (EnqueueViewpointCandidates DemoCollaborators FrontierManager FrontierPlanner
          [] [] [false, false, false] [false, false] [0]).2) :=
  ⟨by decide,
    EnqueueViewpointCandidates_queues DemoCollaborators FrontierManager FrontierPlanner
      [false, false, false] [false, false] [0] DemoCollaborators_SortInRev_mem⟩

/-! ## Greedy selection -/

theorem ReRankEntry_mapM_ids (M : ViewPointManager P) (use_frontier : Bool)
    (covered_copy : List Bool) :
    ∀ (queue_copy ranked : List (Int × Int)),
      queue_copy.mapM (ReRankEntry M use_frontier covered_copy) = Except.ok ranked →
      ranked.map Prod.snd = queue_copy.map Prod.snd
  | [], ranked, h => by
    simp only [List.mapM_nil, pure, Except.pure, Except.ok.injEq] at h
    rw [← h]
  | entry :: queue_copy, ranked, h => by
    rw [List.mapM_cons] at h
    cases h1 : ReRankEntry M use_frontier covered_copy entry with
    | error e =>
      rw [h1] at h
      simp [bind, Except.bind] at h
    | ok first =>
      cases h2 : queue_copy.mapM (ReRankEntry M use_frontier covered_copy) with
      | error e =>
        rw [h1, h2] at h
        simp [bind, Except.bind] at h
      | ok others =>
        rw [h1, h2] at h
        simp only [bind, Except.bind, pure, Except.pure, Except.ok.injEq] at h
        have ih := ReRankEntry_mapM_ids M use_frontier covered_copy queue_copy others h2
        have hfirst : first.2 = entry.2 := by
          unfold ReRankEntry at h1
          split at h1
          · exact absurd h1 (by simp)
          · simp only [Except.ok.injEq] at h1
            rw [← h1]
        rw [← h]
        simp [ih, hfirst]

/-- The ids that the loop of `SelectViewPoint` appends: the current pick first, then ids of
entries of the working queue. -/
theorem SelectViewPointLoop_picks (E : Collaborators P) (M : ViewPointManager P)
    (L : LocalCoveragePlanner P) (gen : Nat → Nat) (queue : List (Int × Int))
    (use_frontier : Bool)
    (hsort : ∀ (l : List (Int × Int)) (x : Int × Int), x ∈ E.SortInRev l → x ∈ l) :
    ∀ (fuel k : Nat) (covered_copy : List Bool) (queue_copy : List (Int × Int))
      (sel : List Int) (queue_idx : Nat) (cur_ind : Int) (out : List Int),
      SelectViewPointLoop E M L gen queue use_frontier fuel k covered_copy queue_copy sel
          queue_idx cur_ind = Except.ok out →
        ∃ app : List Int, out = sel ++ cur_ind :: app ∧
          ∀ v ∈ app, v ∈ queue_copy.map Prod.snd
  | 0, _, _, _, _, _, _, _, h => by simp [SelectViewPointLoop] at h
  | fuel + 1, k, covered_copy, queue_copy, sel, queue_idx, cur_ind, out, h => by
    unfold SelectViewPointLoop at h
    simp only [] at h
    cases hmark : (CoveredListOf M use_frontier (M.GetViewPointArrayInd cur_ind)).foldlM
        MarkCovered covered_copy with
    | error e =>
      rw [hmark] at h
      exact absurd h (by simp)
    | ok marked =>
      rw [hmark] at h
      simp only [] at h
      cases hrank : (queue_copy.eraseIdx queue_idx).mapM
          (ReRankEntry M use_frontier marked) with
      | error e =>
        have hrank' := hrank
        unfold ReRankEntry at hrank'
        rw [hrank'] at h
        exact absurd h (by simp)
      | ok ranked =>
        have hrank' := hrank
        unfold ReRankEntry at hrank'
        rw [hrank'] at h
        simp only [] at h
        have hids := ReRankEntry_mapM_ids M use_frontier marked _ ranked hrank
        cases hs : E.SortInRev ranked with
        | nil =>
          rw [hs] at h
          simp only [Except.ok.injEq] at h
          exact ⟨[], by simp [← h], by simp⟩
        | cons top rest =>
          rw [hs] at h
          simp only [] at h
          split_ifs at h
          · simp only [Except.ok.injEq] at h
            exact ⟨[], by simp [← h], by simp⟩
          · simp only [Except.ok.injEq] at h
            exact ⟨[], by simp [← h], by simp⟩
          · split at h
            · exact absurd h (by simp)
            · split at h
              · exact absurd h (by simp)
              · rename_i idx' _ entry hentry
                obtain ⟨app, happ, hin⟩ := SelectViewPointLoop_picks E M L gen queue
                  use_frontier hsort fuel _ _ _ _ _ _ out h
                have hsub : ∀ v ∈ (top :: rest).map Prod.snd, v ∈ queue_copy.map Prod.snd := by
                  intro v hv
                  rcases List.mem_map.mp hv with ⟨e, he, rfl⟩
                  have he1 : e ∈ ranked := hsort ranked e (hs ▸ he)
                  have he2 : e.2 ∈ ranked.map Prod.snd := List.mem_map.mpr ⟨e, he1, rfl⟩
                  rw [hids] at he2
                  rcases List.mem_map.mp he2 with ⟨e', he', heq⟩
                  exact List.mem_map.mpr ⟨e', List.mem_of_mem_eraseIdx he', heq⟩
                refine ⟨entry.2 :: app, by simp [happ], ?_⟩
                intro v hv
                rcases List.mem_cons.mp hv with hv1 | hv2
                · rw [hv1]
                  exact hsub _ (List.mem_map.mpr ⟨entry, List.getElem?_mem hentry, rfl⟩)
                · exact hsub v (hin v hv2)

/-- The ids that `SelectViewPoint` appends are ids of entries of its queue. -/
theorem SelectViewPoint_picks (E : Collaborators P) (M : ViewPointManager P)
    (L : LocalCoveragePlanner P) (gen : Nat → Nat) (queue : List (Int × Int))
    (covered : List Bool) (sel : List Int) (use_frontier : Bool) (out : List Int)
    (hsort : ∀ (l : List (Int × Int)) (x : Int × Int), x ∈ E.SortInRev l → x ∈ l)
    (h : SelectViewPoint E M L gen queue covered sel use_frontier = Except.ok out) :
    ∃ app : List Int, out = sel ++ app ∧ ∀ v ∈ app, v ∈ queue.map Prod.snd := by
  unfold SelectViewPoint at h
  split at h
  · simp only [Except.ok.injEq] at h
    exact ⟨[], by simp [← h], by simp⟩
  · rename_i top rest
    by_cases hg : (if use_frontier then decide (top.1 < L.kMinAddFrontierPointNum)
        else decide (top.1 < L.kMinAddPointNum)) = true
    · rw [if_pos hg] at h
      simp only [Except.ok.injEq] at h
      exact ⟨[], by simp [← h], by simp⟩
    · rw [if_neg hg] at h
      simp only [] at h
      split at h
      · exact absurd h (by simp)
      · split at h
        · exact absurd h (by simp)
        · rename_i idx _ entry hentry
          obtain ⟨app, happ, hin⟩ := SelectViewPointLoop_picks E M L gen _ use_frontier hsort
            _ _ _ _ _ _ _ out h
          refine ⟨entry.2 :: app, happ, ?_⟩
          intro v hv
          rcases List.mem_cons.mp hv with hv1 | hv2
          · rw [hv1]
            exact List.mem_map.mpr ⟨entry, List.getElem?_mem hentry, rfl⟩
          · exact hin v hv2

theorem CountUncovered_foldlM_ok (covered_copy : List Bool) :
    ∀ (points : List Int) (init : Int),
      (∀ p ∈ points, 0 ≤ p ∧ p < (covered_copy.length : Int)) →
      ∃ count : Int, points.foldlM (fun add_point_num point_ind =>
        if InRange covered_copy point_ind then
          Except.ok (if covered_copy.getD point_ind.toNat false = false then add_point_num + 1
            else add_point_num)
        else
          Except.error Fault.assertion) init = Except.ok count
  | [], init, _ => ⟨init, rfl⟩
  | p :: points, init, h => by
    have h0 := h p (List.mem_cons_self _ _)
    have hin : InRange covered_copy p = true := by
      simp [InRange, h0.1, h0.2]
    rw [List.foldlM_cons]
    simp only [hin, if_true, bind, Except.bind]
    exact CountUncovered_foldlM_ok covered_copy points _
      (fun q hq => h q (List.mem_cons_of_mem _ hq))

theorem ReRankEntry_mapM_ok (M : ViewPointManager P) (use_frontier : Bool)
    (covered_copy : List Bool) :
    ∀ (queue_copy : List (Int × Int)),
      (∀ v ∈ queue_copy.map Prod.snd,
        ∀ p ∈ CoveredListOf M use_frontier (M.GetViewPointArrayInd v),
          0 ≤ p ∧ p < (covered_copy.length : Int)) →
      ∃ ranked, queue_copy.mapM (ReRankEntry M use_frontier covered_copy) = Except.ok ranked
  | [], _ => ⟨[], rfl⟩
  | entry :: queue_copy, h => by
    obtain ⟨count, hcount⟩ := CountUncovered_foldlM_ok covered_copy
      (CoveredListOf M use_frontier (M.GetViewPointArrayInd entry.2)) 0
      (h entry.2 (by simp))
    obtain ⟨others, hothers⟩ := ReRankEntry_mapM_ok M use_frontier covered_copy queue_copy
      (fun v hv => h v (by
        rw [List.map_cons]
        exact List.mem_cons_of_mem _ hv))
    have h1 : ReRankEntry M use_frontier covered_copy entry = Except.ok (count, entry.2) := by
      unfold ReRankEntry CountUncovered
      rw [hcount]
    refine ⟨(count, entry.2) :: others, ?_⟩
    rw [List.mapM_cons, h1, hothers]
    rfl

theorem CountSampleRange_foldl_ge (L : LocalCoveragePlanner P) (use_frontier : Bool) :
    ∀ (queue : List (Int × Int)) (init : Int),
      init ≤ queue.foldl (fun sample_range entry =>
        if use_frontier then
          if entry.1 ≥ L.kMinAddFrontierPointNum then sample_range + 1 else sample_range
        else
          if entry.1 ≥ L.kMinAddPointNum then sample_range + 1 else sample_range) init
  | [], init => le_refl _
  | entry :: queue, init => by
    rw [List.foldl_cons]
    refine le_trans ?_ (CountSampleRange_foldl_ge L use_frontier queue _)
    split_ifs <;> omega

theorem CountSampleRange_pos (L : LocalCoveragePlanner P) (use_frontier : Bool)
    (top : Int × Int) (rest : List (Int × Int))
    (h : ¬ top.1 < SpecMinGain L use_frontier) :
    1 ≤ CountSampleRange L (top :: rest) use_frontier := by
  unfold CountSampleRange
  rw [List.foldl_cons]
  refine le_trans ?_ (CountSampleRange_foldl_ge L use_frontier rest _)
  unfold SpecMinGain at h
  cases use_frontier with
  | true =>
    simp only [if_true] at h ⊢
    split_ifs <;> omega
  | false =>
    simp only [Bool.false_eq_true, if_false] at h ⊢
    split_ifs <;> omega

theorem DrawQueueIdx_unit_range (L : LocalCoveragePlanner P) (gen : Nat → Nat) (k : Nat)
    (count : Int) (hrange : L.kGreedyViewPointSampleRange = 1) (hcount : 1 ≤ count) :
    DrawQueueIdx gen k (min L.kGreedyViewPointSampleRange count) = Except.ok 0 := by
  rw [hrange, min_eq_left hcount]
  unfold DrawQueueIdx
  simp [Nat.mod_one]

/-- With a sample range of `1` every draw is index `0`, and the loop of `SelectViewPoint`
returns: the working queue loses an entry in each round. -/
theorem SelectViewPointLoop_returns (E : Collaborators P) (M : ViewPointManager P)
    (L : LocalCoveragePlanner P) (gen : Nat → Nat) (queue : List (Int × Int))
    (use_frontier : Bool) (n : Nat)
    (hperm : ∀ l : List (Int × Int), (E.SortInRev l).Perm l)
    (hrange : L.kGreedyViewPointSampleRange = 1)
    (hcount : 1 ≤ CountSampleRange L queue use_frontier) :
    ∀ (fuel k : Nat) (covered_copy : List Bool) (queue_copy : List (Int × Int))
      (sel : List Int) (queue_idx : Nat) (cur_ind : Int),
      covered_copy.length = n → queue_copy.length ≤ fuel → queue_idx < queue_copy.length →
      cur_ind ∈ queue_copy.map Prod.snd →
      (∀ v ∈ queue_copy.map Prod.snd,
        ∀ p ∈ CoveredListOf M use_frontier (M.GetViewPointArrayInd v),
          0 ≤ p ∧ p < (n : Int)) →
      ∃ out, SelectViewPointLoop E M L gen queue use_frontier fuel k covered_copy queue_copy
        sel queue_idx cur_ind = Except.ok out
  | 0, _, _, queue_copy, _, queue_idx, _, _, hfuel, hidx, _, _ => by omega
  | fuel + 1, k, covered_copy, queue_copy, sel, queue_idx, cur_ind, hlen, hfuel, hidx, hcur,
      hpts => by
    obtain ⟨marked, hmark, hmlen⟩ := MarkCovered_foldlM_ok
      (CoveredListOf M use_frontier (M.GetViewPointArrayInd cur_ind)) covered_copy
      (by rw [hlen]; exact hpts cur_ind hcur)
    have hsubids : ∀ v ∈ (queue_copy.eraseIdx queue_idx).map Prod.snd,
        v ∈ queue_copy.map Prod.snd := by
      intro v hv
      rcases List.mem_map.mp hv with ⟨e, he, rfl⟩
      exact List.mem_map.mpr ⟨e, List.mem_of_mem_eraseIdx he, rfl⟩
    obtain ⟨ranked, hrank⟩ := ReRankEntry_mapM_ok M use_frontier marked
      (queue_copy.eraseIdx queue_idx)
      (by
        intro v hv
        rw [hmlen, hlen]
        exact hpts v (hsubids v hv))
    have hids := ReRankEntry_mapM_ids M use_frontier marked _ ranked hrank
    have hrlen : ranked.length ≤ fuel := by
      have h1 : ranked.length = (queue_copy.eraseIdx queue_idx).length := by
        have := congrArg List.length hids
        simpa using this
      rw [h1, List.length_eraseIdx, if_pos hidx]
      omega
    have hrank' := hrank
    unfold ReRankEntry at hrank'
    unfold SelectViewPointLoop
    simp only []
    rw [hmark]
    simp only []
    rw [hrank']
    simp only []
    cases hs : E.SortInRev ranked with
    | nil => exact ⟨_, rfl⟩
    | cons top rest =>
      simp only []
      split_ifs
      · exact ⟨_, rfl⟩
      · exact ⟨_, rfl⟩
      · rw [DrawQueueIdx_unit_range L gen k _ hrange hcount]
        simp only [List.getElem?_cons_zero]
        have hslen : (top :: rest).length ≤ fuel := by
          rw [← hs, (hperm ranked).length_eq]
          exact hrlen
        have hsids : ∀ v ∈ (top :: rest).map Prod.snd, v ∈ queue_copy.map Prod.snd := by
          intro v hv
          rcases List.mem_map.mp hv with ⟨e, he, rfl⟩
          have he1 : e ∈ ranked := (hperm ranked).mem_iff.mp (hs ▸ he)
          have he2 : e.2 ∈ ranked.map Prod.snd := List.mem_map.mpr ⟨e, he1, rfl⟩
          rw [hids] at he2
          exact hsubids _ he2
        exact SelectViewPointLoop_returns E M L gen queue use_frontier n hperm hrange hcount
          fuel (k + 1) marked (top :: rest) (sel ++ [cur_ind]) 0 top.2
          (by rw [hmlen, hlen]) hslen (by simp) (by simp)
          (fun v hv => hpts v (hsids v hv))

/-- With a sample range of `1`, a sort that permutes and covered points within the bitmap,
`SelectViewPoint` returns when its gate is open. -/
theorem SelectViewPoint_returns (E : Collaborators P) (M : ViewPointManager P)
    (L : LocalCoveragePlanner P) (gen : Nat → Nat) (queue : List (Int × Int))
    (covered : List Bool) (sel : List Int) (use_frontier : Bool)
    (hopen : ¬ SpecGateClosed L queue use_frontier)
    (hrange : L.kGreedyViewPointSampleRange = 1)
    (hperm : ∀ l : List (Int × Int), (E.SortInRev l).Perm l)
    (hpts : ∀ v ∈ queue.map Prod.snd,
      ∀ p ∈ CoveredListOf M use_frontier (M.GetViewPointArrayInd v),
        0 ≤ p ∧ p < (covered.length : Int)) :
    ∃ out, SelectViewPoint E M L gen queue covered sel use_frontier = Except.ok out := by
  cases queue with
  | nil => exact absurd (Or.inl rfl) hopen
  | cons top rest =>
    have htop : ¬ top.1 < SpecMinGain L use_frontier := by
      intro hlt
      exact hopen (Or.inr ⟨top, rest, rfl, hlt⟩)
    have hcount := CountSampleRange_pos L use_frontier top rest htop
    have hg : ¬ ((if use_frontier then decide (top.1 < L.kMinAddFrontierPointNum)
        else decide (top.1 < L.kMinAddPointNum)) = true) := by
      unfold SpecMinGain at htop
      cases use_frontier with
      | true => simpa using htop
      | false => simpa using htop
    unfold SelectViewPoint
    simp only []
    rw [if_neg hg, DrawQueueIdx_unit_range L gen 0 _ hrange hcount]
    simp only [List.getElem?_cons_zero]
    exact SelectViewPointLoop_returns E M L gen (top :: rest) use_frontier covered.length
      hperm hrange hcount (top :: rest).length 1 covered (top :: rest) sel 0 top.2 rfl
      (le_refl _) (by simp) (by simp) hpts

theorem SelectViewPoint_of_gate_closed (E : Collaborators P) (M : ViewPointManager P)
    (L : LocalCoveragePlanner P) (gen : Nat → Nat) (queue : List (Int × Int))
    (covered : List Bool) (sel : List Int) (use_frontier : Bool)
    (hclosed : SpecGateClosed L queue use_frontier) :
    SelectViewPoint E M L gen queue covered sel use_frontier = Except.ok sel := by
  unfold SelectViewPoint
  rcases hclosed with h | ⟨top, rest, h, hlt⟩
  · rw [h]
  · rw [h]
    simp only []
    have hg : (if use_frontier then decide (top.1 < L.kMinAddFrontierPointNum)
        else decide (top.1 < L.kMinAddPointNum)) = true := by
      unfold SpecMinGain at hlt
      cases use_frontier with
      | true => simpa using hlt
      | false => simpa using hlt
    rw [if_pos hg]

theorem SelectViewPoint_of_gate_open (E : Collaborators P) (M : ViewPointManager P)
    (L : LocalCoveragePlanner P) (gen : Nat → Nat) (queue : List (Int × Int))
    (covered : List Bool) (sel : List Int) (use_frontier : Bool) (out : List Int)
    (hopen : ¬ SpecGateClosed L queue use_frontier)
    (h : SelectViewPoint E M L gen queue covered sel use_frontier = Except.ok out) :
    ∃ (cur : Int) (app : List Int), out = sel ++ cur :: app := by
  unfold SelectViewPoint at h
  split at h
  · exact absurd (Or.inl rfl) hopen
  · rename_i top rest
    by_cases hg : (if use_frontier then decide (top.1 < L.kMinAddFrontierPointNum)
        else decide (top.1 < L.kMinAddPointNum)) = true
    · exfalso
      apply hopen
      refine Or.inr ⟨top, rest, rfl, ?_⟩
      unfold SpecMinGain
      cases use_frontier with
      | true => simpa using hg
      | false => simpa using hg
    · rw [if_neg hg] at h
      simp only [] at h
      split at h
      · exact absurd h (by simp)
      · split at h
        · exact absurd h (by simp)
        · obtain ⟨app, happ⟩ := SelectViewPointLoop_appends E M L gen _ use_frontier
            _ _ _ _ _ _ _ out h
          exact ⟨_, app, happ⟩

/-- C13: `SelectViewPoint` leaves `selected_viewpoint_indices` as it was exactly when the queue
is empty or the gain of its first entry is below `MinGain` (`kMinAddPointNum` in surface mode,
`kMinAddFrontierPointNum` in frontier mode).  When the gate is open, which is the case for a top
gain equal to `MinGain`, the list it returns is the old list followed by at least one id; with a
sample range of `1`, a sort that permutes and covered points within the bitmap it does return
such a list. -/
theorem SelectViewPoint_initial_gate (E : Collaborators P) (M : ViewPointManager P)
    (L : LocalCoveragePlanner P) (gen : Nat → Nat) (queue : List (Int × Int))
    (covered : List Bool) (sel : List Int) (use_frontier : Bool) :
    (SpecGateClosed L queue use_frontier →
      SelectViewPoint E M L gen queue covered sel use_frontier = Except.ok sel) ∧
    (∀ out, SelectViewPoint E M L gen queue covered sel use_frontier = Except.ok out →
      (out = sel ↔ SpecGateClosed L queue use_frontier)) ∧
    (∀ top rest, queue = top :: rest → top.1 = SpecMinGain L use_frontier →
      ¬ SpecGateClosed L queue use_frontier) ∧
    (¬ SpecGateClosed L queue use_frontier →
      ∀ out, SelectViewPoint E M L gen queue covered sel use_frontier = Except.ok out →
        ∃ (cur : Int) (app : List Int), out = sel ++ cur :: app) ∧
    (¬ SpecGateClosed L queue use_frontier →
      L.kGreedyViewPointSampleRange = 1 →
      (∀ l : List (Int × Int), (E.SortInRev l).Perm l) →
      (∀ v ∈ queue.map Prod.snd,
        ∀ p ∈ CoveredListOf M use_frontier (M.GetViewPointArrayInd v),
          0 ≤ p ∧ p < (covered.length : Int)) →
      ∃ (cur : Int) (app : List Int),
        SelectViewPoint E M L gen queue covered sel use_frontier =
          Except.ok (sel ++ cur :: app)) := by
  refine ⟨SelectViewPoint_of_gate_closed E M L gen queue covered sel use_frontier, ?_, ?_,
    fun hopen out h => SelectViewPoint_of_gate_open E M L gen queue covered sel use_frontier
      out hopen h, ?_⟩
  · intro out h
    constructor
    · intro hsame
      by_contra hopen
      obtain ⟨cur, app, happ⟩ := SelectViewPoint_of_gate_open E M L gen queue covered sel
        use_frontier out hopen h
      rw [hsame] at happ
      have := congrArg List.length happ
      simp at this
    · intro hclosed
      rw [SelectViewPoint_of_gate_closed E M L gen queue covered sel use_frontier hclosed] at h
      simp only [Except.ok.injEq] at h
      exact h.symm
  · intro top rest hq heq
    rintro (h | ⟨top', rest', h, hlt⟩)
    · rw [hq] at h
      exact absurd h (by simp)
    · rw [hq] at h
      simp only [List.cons.injEq] at h
      rw [← h.1] at hlt
      omega
  · intro hopen hrange hperm hpts
    obtain ⟨out, hout⟩ := SelectViewPoint_returns E M L gen queue covered sel use_frontier
      hopen hrange hperm hpts
    obtain ⟨cur, app, happ⟩ := SelectViewPoint_of_gate_open E M L gen queue covered sel
      use_frontier out hopen hout
    exact ⟨cur, app, happ ▸ hout⟩

theorem SetEntry_square (m : Nat) (D : List (List Int)) (i j : Nat) (v : Int)
    (h : SpecSquare m D) : SpecSquare m (SetEntry D i j v) := by
  unfold SetEntry
  refine ⟨by rw [List.length_set]; exact h.1, ?_⟩
  intro row hrow
  by_cases hi : i < D.length
  · rcases List.mem_or_eq_of_mem_set hrow with hmem | heq
    · exact h.2 row hmem
    · rw [heq, List.length_set]
      have hget : D.getD i [] = D[i] := by simp [List.getD_eq_getElem?_getD, hi]
      rw [hget]
      exact h.2 _ (List.getElem_mem _)
  · rw [List.set_eq_of_length_le (by omega)] at hrow
    exact h.2 row hrow

theorem GetEntry_SetEntry (m : Nat) (D : List (List Int)) (i j : Nat) (v : Int) (i' j' : Nat)
    (h : SpecSquare m D) (hi : i < m) (hj : j < m) :
    GetEntry (SetEntry D i j v) i' j' = if i' = i ∧ j' = j then v else GetEntry D i' j' := by
  have hil : i < D.length := by rw [h.1]; exact hi
  have hrow : (D.getD i []).length = m := by
    have hget : D.getD i [] = D[i] := by simp [List.getD_eq_getElem?_getD, hil]
    rw [hget]
    exact h.2 _ (List.getElem_mem _)
  unfold GetEntry SetEntry
  by_cases h1 : i' = i
  · subst h1
    have hget : (D.set i' ((D.getD i' []).set j v)).getD i' [] = (D.getD i' []).set j v := by
      simp [List.getD_eq_getElem?_getD, hil]
    rw [hget]
    by_cases h2 : j' = j
    · subst h2
      rw [if_pos ⟨rfl, rfl⟩]
      rw [List.getD_eq_getElem?_getD] at hrow
      simp [List.getD_eq_getElem?_getD, List.getElem?_set, hrow, hj]
    · rw [if_neg (by tauto)]
      simp [List.getD_eq_getElem?_getD, List.getElem?_set, Ne.symm h2]
  · rw [if_neg (by tauto)]
    have hget : (D.set i ((D.getD i []).set j v)).getD i' [] = D.getD i' [] := by
      simp [List.getD_eq_getElem?_getD, List.getElem?_set, Ne.symm h1]
    rw [hget]

theorem GetEntry_replicate (m i j : Nat) :
    GetEntry (List.replicate m (List.replicate m (0 : Int))) i j = 0 := by
  unfold GetEntry
  by_cases hi : i < m
  · by_cases hj : j < m
    · simp [List.getD_eq_getElem?_getD, List.getElem?_replicate, hi, hj]
    · simp [List.getD_eq_getElem?_getD, List.getElem?_replicate, hi, hj]
  · simp [List.getD_eq_getElem?_getD, List.getElem?_replicate, hi]

theorem SpecSquare_replicate (m : Nat) :
    SpecSquare m (List.replicate m (List.replicate m (0 : Int))) := by
  refine ⟨List.length_replicate _ _, ?_⟩
  intro row hrow
  rw [List.eq_of_mem_replicate hrow, List.length_replicate]

theorem foldl_range'_invariant {σ : Type} (f : σ → Nat → σ) (Inv : Nat → σ → Prop) :
    ∀ (len s : Nat) (init : σ), Inv s init →
      (∀ k st, s ≤ k → k < s + len → Inv k st → Inv (k + 1) (f st k)) →
      Inv (s + len) ((List.range' s len).foldl f init)
  | 0, s, init, h0, _ => by simpa using h0
  | len + 1, s, init, h0, hstep => by
    rw [List.range'_succ, List.foldl_cons]
    have h := foldl_range'_invariant f Inv len (s + 1) (f init s)
      (hstep s init (le_refl _) (by omega) h0)
      (fun k st hk hk' => hstep k st (by omega) (by omega))
    have e : s + (len + 1) = s + 1 + len := by omega
    rw [e]
    exact h

theorem foldl_range_invariant {σ : Type} (f : σ → Nat → σ) (Inv : Nat → σ → Prop)
    (n : Nat) (init : σ) (h0 : Inv 0 init)
    (hstep : ∀ k st, k < n → Inv k st → Inv (k + 1) (f st k)) :
    Inv n ((List.range n).foldl f init) := by
  rw [List.range_eq_range']
  have h := foldl_range'_invariant f Inv n 0 init h0
    (fun k st _ hk => hstep k st (by omega))
  simpa using h

theorem FillLower_entry (w : Nat → Nat → Int) (m n : Nat) (D0 : List (List Int))
    (hsq : SpecSquare m D0) (hn : n ≤ m) :
    SpecSquare m ((List.range n).foldl (fun D i =>
        (List.range i).foldl (fun D j => SetEntry D i j (w i j)) D) D0) ∧
    ∀ i' j', GetEntry ((List.range n).foldl (fun D i =>
        (List.range i).foldl (fun D j => SetEntry D i j (w i j)) D) D0) i' j' =
      if j' < i' ∧ i' < n then w i' j' else GetEntry D0 i' j' := by
  have hstep : ∀ i D, i < n →
      (SpecSquare m D ∧ ∀ i' j', GetEntry D i' j' =
        if j' < i' ∧ i' < i then w i' j' else GetEntry D0 i' j') →
      (SpecSquare m ((List.range i).foldl (fun D j => SetEntry D i j (w i j)) D) ∧
        ∀ i' j', GetEntry ((List.range i).foldl (fun D j => SetEntry D i j (w i j)) D) i' j' =
          if j' < i' ∧ i' < i + 1 then w i' j' else GetEntry D0 i' j') := by
    intro i D hi hInv
    have hinner := foldl_range_invariant (fun D j => SetEntry D i j (w i j))
      (fun j0 D => SpecSquare m D ∧ ∀ i' j', GetEntry D i' j' =
        if j' < i' ∧ (i' < i ∨ (i' = i ∧ j' < j0)) then w i' j' else GetEntry D0 i' j')
      i D
      ⟨hInv.1, fun i' j' => by
        rw [hInv.2]
        exact if_congr (by omega) rfl rfl⟩
      (fun j D' hj hI => ⟨SetEntry_square m D' i j _ hI.1, fun i' j' => by
        rw [GetEntry_SetEntry m D' i j _ i' j' hI.1 (by omega) (by omega)]
        by_cases hij : i' = i ∧ j' = j
        · rw [if_pos hij, hij.1, hij.2, if_pos (by omega)]
        · rw [if_neg hij, hI.2]
          exact if_congr (by omega) rfl rfl⟩)
    refine ⟨hinner.1, fun i' j' => ?_⟩
    rw [hinner.2]
    exact if_congr (by omega) rfl rfl
  exact foldl_range_invariant
    (fun D i => (List.range i).foldl (fun D j => SetEntry D i j (w i j)) D)
    (fun k D => SpecSquare m D ∧ ∀ i' j', GetEntry D i' j' =
      if j' < i' ∧ i' < k then w i' j' else GetEntry D0 i' j')
    n D0 ⟨hsq, fun i' j' => by rw [if_neg (by omega)]⟩ hstep

theorem FillUpper_entry (m n : Nat) (D1 : List (List Int))
    (hsq : SpecSquare m D1) (hn : n ≤ m) :
    SpecSquare m ((List.range n).foldl (fun D i =>
        (List.range' (i + 1) (n - (i + 1))).foldl
          (fun D j => SetEntry D i j (GetEntry D j i)) D) D1) ∧
    ∀ i' j', GetEntry ((List.range n).foldl (fun D i =>
        (List.range' (i + 1) (n - (i + 1))).foldl
          (fun D j => SetEntry D i j (GetEntry D j i)) D) D1) i' j' =
      if i' < j' ∧ j' < n then GetEntry D1 j' i' else GetEntry D1 i' j' := by
  have hstep : ∀ i D, i < n →
      (SpecSquare m D ∧ ∀ i' j', GetEntry D i' j' =
        if i' < j' ∧ j' < n ∧ i' < i then GetEntry D1 j' i' else GetEntry D1 i' j') →
      (SpecSquare m ((List.range' (i + 1) (n - (i + 1))).foldl
          (fun D j => SetEntry D i j (GetEntry D j i)) D) ∧
        ∀ i' j', GetEntry ((List.range' (i + 1) (n - (i + 1))).foldl
            (fun D j => SetEntry D i j (GetEntry D j i)) D) i' j' =
          if i' < j' ∧ j' < n ∧ i' < i + 1 then GetEntry D1 j' i'
          else GetEntry D1 i' j') := by
    intro i D hi hInv
    have hinner := foldl_range'_invariant (fun D j => SetEntry D i j (GetEntry D j i))
      (fun j0 D => SpecSquare m D ∧ ∀ i' j', GetEntry D i' j' =
        if i' < j' ∧ j' < n ∧ (i' < i ∨ (i' = i ∧ j' < j0)) then GetEntry D1 j' i'
        else GetEntry D1 i' j')
      (n - (i + 1)) (i + 1) D
      ⟨hInv.1, fun i' j' => by
        rw [hInv.2]
        exact if_congr (by omega) rfl rfl⟩
      (fun j D' hj hj' hI => ⟨SetEntry_square m D' i j _ hI.1, fun i' j' => by
        rw [GetEntry_SetEntry m D' i j _ i' j' hI.1 (by omega) (by omega)]
        by_cases hij : i' = i ∧ j' = j
        · rw [if_pos hij, hij.1, hij.2, hI.2, if_neg (by omega), if_pos (by omega)]
        · rw [if_neg hij, hI.2]
          exact if_congr (by omega) rfl rfl⟩)
    refine ⟨hinner.1, fun i' j' => ?_⟩
    rw [hinner.2]
    exact if_congr (by omega) rfl rfl
  have h := foldl_range_invariant
    (fun D i => (List.range' (i + 1) (n - (i + 1))).foldl
      (fun D j => SetEntry D i j (GetEntry D j i)) D)
    (fun k D => SpecSquare m D ∧ ∀ i' j', GetEntry D i' j' =
      if i' < j' ∧ j' < n ∧ i' < k then GetEntry D1 j' i' else GetEntry D1 i' j')
    n D1 ⟨hsq, fun i' j' => by rw [if_neg (by omega)]⟩ hstep
  refine ⟨h.1, fun i' j' => ?_⟩
  rw [h.2]
  exact if_congr (by omega) rfl rfl

/-- The entries after the two loops over the real nodes: the scaled path length below the
diagonal, its mirror image above, everything else as before. -/
theorem FillRealEntries_entry (E : Collaborators P) (M : ViewPointManager P)
    (sel : List Int) (m : Nat) (D0 : List (List Int))
    (hsq : SpecSquare m D0) (hn : sel.length ≤ m) :
    SpecSquare m (FillRealEntries E M sel D0) ∧
    ∀ i' j', GetEntry (FillRealEntries E M sel D0) i' j' =
      if j' < i' ∧ i' < sel.length then SpecRealDistance E M sel i' j'
      else if i' < j' ∧ j' < sel.length then SpecRealDistance E M sel j' i'
      else GetEntry D0 i' j' := by
  have h1 := FillLower_entry (SpecRealDistance E M sel) m sel.length D0 hsq hn
  have h2 := FillUpper_entry m sel.length _ h1.1 hn
  refine ⟨h2.1, fun i' j' => ?_⟩
  have h3 := h2.2 i' j'
  rw [h1.2, h1.2] at h3
  refine h3.trans ?_
  split_ifs <;> first | rfl | (exfalso; omega)

theorem ite_eq_of_pos {α : Type} {c : Prop} [Decidable c] {a b x : α} (hc : c) (h : a = x) :
    (if c then a else b) = x := by
  rw [if_pos hc]
  exact h

theorem ite_eq_of_neg {α : Type} {c : Prop} [Decidable c] {a b x : α} (hc : ¬ c) (h : b = x) :
    (if c then a else b) = x := by
  rw [if_neg hc]
  exact h

theorem eq_ite_of_pos {α : Type} {c : Prop} [Decidable c] {a b x : α} (hc : c) (h : x = a) :
    x = (if c then a else b) := by
  rw [if_pos hc]
  exact h

theorem eq_ite_of_neg {α : Type} {c : Prop} [Decidable c] {a b x : α} (hc : ¬ c) (h : x = b) :
    x = (if c then a else b) := by
  rw [if_neg hc]
  exact h

theorem DummyStep_entry (m : Nat) (D : List (List Int)) (i d : Nat) (c : Prop) [Decidable c]
    (hsq : SpecSquare m D) (hi : i < m) (hd : d < m) :
    SpecSquare m (if c then SetEntry (SetEntry D i d 0) d i 0
      else SetEntry (SetEntry D i d 9999) d i 9999) ∧
    ∀ i' j', GetEntry (if c then SetEntry (SetEntry D i d 0) d i 0
        else SetEntry (SetEntry D i d 9999) d i 9999) i' j' =
      if (i' = i ∧ j' = d) ∨ (i' = d ∧ j' = i) then (if c then 0 else 9999)
      else GetEntry D i' j' := by
  by_cases hc : c
  · simp only [if_pos hc]
    refine ⟨SetEntry_square m _ d i _ (SetEntry_square m D i d _ hsq), fun i' j' => ?_⟩
    rw [GetEntry_SetEntry m _ d i _ i' j' (SetEntry_square m D i d _ hsq) hd hi,
      GetEntry_SetEntry m D i d _ i' j' hsq hi hd]
    split_ifs <;> first | rfl | (exfalso; tauto)
  · simp only [if_neg hc]
    refine ⟨SetEntry_square m _ d i _ (SetEntry_square m D i d _ hsq), fun i' j' => ?_⟩
    rw [GetEntry_SetEntry m _ d i _ i' j' (SetEntry_square m D i d _ hsq) hd hi,
      GetEntry_SetEntry m D i d _ i' j' hsq hi hd]
    split_ifs <;> first | rfl | (exfalso; tauto)

theorem AddOneDummy_entry (p q m n d : Nat) (D0 X : List (List Int))
    (hsq : SpecSquare m D0) (hm : m = n + 1) (hd : d = n)
    (hX : X = (List.range n).foldl (fun D i =>
      if i = p ∨ i = q then SetEntry (SetEntry D i d 0) d i 0
      else SetEntry (SetEntry D i d 9999) d i 9999) D0) :
    SpecSquare m X ∧
    ∀ i' j', GetEntry X i' j' =
      if i' < n ∧ j' = n then SpecDummyDistance p q i'
      else if j' < n ∧ i' = n then SpecDummyDistance p q j'
      else GetEntry D0 i' j' := by
  subst hd hm
  have h := foldl_range_invariant
    (fun D i =>
      if i = p ∨ i = q then SetEntry (SetEntry D i d 0) d i 0
      else SetEntry (SetEntry D i d 9999) d i 9999)
    (fun k D => SpecSquare (d + 1) D ∧ ∀ i' j', GetEntry D i' j' =
      if i' < k ∧ j' = d then SpecDummyDistance p q i'
      else if j' < k ∧ i' = d then SpecDummyDistance p q j'
      else GetEntry D0 i' j')
    d D0 ⟨hsq, fun i' j' => by rw [if_neg (by omega), if_neg (by omega)]⟩
    (fun i D hi hI => by
      have hs := DummyStep_entry (d + 1) D i d (i = p ∨ i = q) hI.1 (by omega) (by omega)
      refine ⟨hs.1, fun i' j' => (hs.2 i' j').trans ?_⟩
      rw [hI.2]
      by_cases h1 : i' = i ∧ j' = d
      · exact ite_eq_of_pos (Or.inl h1) (eq_ite_of_pos (by omega) (by rw [h1.1]; rfl))
      · by_cases h2 : i' = d ∧ j' = i
        · exact ite_eq_of_pos (Or.inr h2) (eq_ite_of_neg (by omega)
            (eq_ite_of_pos (by omega) (by rw [h2.2]; rfl)))
        · exact ite_eq_of_neg (by tauto)
            (if_congr (by omega) rfl (if_congr (by omega) rfl rfl)))
  rw [hX]
  exact h

theorem AddTwoDummies_entry (s e r l m n dSE dRL : Nat) (D0 X : List (List Int))
    (hsq : SpecSquare m D0) (hm : m = n + 2) (hSE : dSE = n + 1) (hRL : dRL = n)
    (hX : X = SetEntry (SetEntry ((List.range n).foldl (fun D i =>
      let D :=
        if i = s ∨ i = e then SetEntry (SetEntry D i dSE 0) dSE i 0
        else SetEntry (SetEntry D i dSE 9999) dSE i 9999
      if i = r ∨ i = l then SetEntry (SetEntry D i dRL 0) dRL i 0
      else SetEntry (SetEntry D i dRL 9999) dRL i 9999) D0) dSE dRL 9999) dRL dSE 9999) :
    SpecSquare m X ∧
    ∀ i' j', GetEntry X i' j' =
      if i' < n ∧ j' = n + 1 then SpecDummyDistance s e i'
      else if j' < n ∧ i' = n + 1 then SpecDummyDistance s e j'
      else if i' < n ∧ j' = n then SpecDummyDistance r l i'
      else if j' < n ∧ i' = n then SpecDummyDistance r l j'
      else if (i' = n + 1 ∧ j' = n) ∨ (i' = n ∧ j' = n + 1) then 9999
      else GetEntry D0 i' j' := by
  subst hSE hRL hm
  have h := foldl_range_invariant
    (fun D i =>
      let D :=
        if i = s ∨ i = e then SetEntry (SetEntry D i (dRL + 1) 0) (dRL + 1) i 0
        else SetEntry (SetEntry D i (dRL + 1) 9999) (dRL + 1) i 9999
      if i = r ∨ i = l then SetEntry (SetEntry D i dRL 0) dRL i 0
      else SetEntry (SetEntry D i dRL 9999) dRL i 9999)
    (fun k D => SpecSquare (dRL + 2) D ∧ ∀ i' j', GetEntry D i' j' =
      if i' < k ∧ j' = dRL + 1 then SpecDummyDistance s e i'
      else if j' < k ∧ i' = dRL + 1 then SpecDummyDistance s e j'
      else if i' < k ∧ j' = dRL then SpecDummyDistance r l i'
      else if j' < k ∧ i' = dRL then SpecDummyDistance r l j'
      else GetEntry D0 i' j')
    dRL D0
    ⟨hsq, fun i' j' => by
      rw [if_neg (by omega), if_neg (by omega), if_neg (by omega), if_neg (by omega)]⟩
    (fun i D hi hI => by
      have hs1 := DummyStep_entry (dRL + 2) D i (dRL + 1) (i = s ∨ i = e) hI.1
        (by omega) (by omega)
      have hs2 := DummyStep_entry (dRL + 2) _ i dRL (i = r ∨ i = l) hs1.1
        (by omega) (by omega)
      refine ⟨hs2.1, fun i' j' => (hs2.2 i' j').trans ?_⟩
      rw [hs1.2, hI.2]
      by_cases h1 : i' = i ∧ j' = dRL
      · exact ite_eq_of_pos (Or.inl h1) (eq_ite_of_neg (by omega) (eq_ite_of_neg (by omega)
          (eq_ite_of_pos (by omega) (by rw [h1.1]; rfl))))
      · by_cases h2 : i' = dRL ∧ j' = i
        · exact ite_eq_of_pos (Or.inr h2) (eq_ite_of_neg (by omega) (eq_ite_of_neg (by omega)
            (eq_ite_of_neg (by omega) (eq_ite_of_pos (by omega) (by rw [h2.2]; rfl)))))
        · refine ite_eq_of_neg (by tauto) ?_
          by_cases h3 : i' = i ∧ j' = dRL + 1
          · exact ite_eq_of_pos (Or.inl h3) (eq_ite_of_pos (by omega) (by rw [h3.1]; rfl))
          · by_cases h4 : i' = dRL + 1 ∧ j' = i
            · exact ite_eq_of_pos (Or.inr h4) (eq_ite_of_neg (by omega)
                (eq_ite_of_pos (by omega) (by rw [h4.2]; rfl)))
            · exact ite_eq_of_neg (by tauto) (if_congr (by omega) rfl (if_congr (by omega) rfl
                (if_congr (by omega) rfl (if_congr (by omega) rfl rfl)))))
  have hsq1 := SetEntry_square (dRL + 2) _ (dRL + 1) dRL 9999 h.1
  rw [hX]
  refine ⟨SetEntry_square (dRL + 2) _ dRL (dRL + 1) 9999 hsq1, fun i' j' => ?_⟩
  rw [GetEntry_SetEntry (dRL + 2) _ dRL (dRL + 1) 9999 i' j' hsq1 (by omega) (by omega),
    GetEntry_SetEntry (dRL + 2) _ (dRL + 1) dRL 9999 i' j' h.1 (by omega) (by omega)]
  by_cases h1 : i' = dRL ∧ j' = dRL + 1
  · exact ite_eq_of_pos h1 (eq_ite_of_neg (by omega) (eq_ite_of_neg (by omega)
      (eq_ite_of_neg (by omega) (eq_ite_of_neg (by omega) (eq_ite_of_pos (Or.inr h1) rfl)))))
  · refine ite_eq_of_neg h1 ?_
    by_cases h2 : i' = dRL + 1 ∧ j' = dRL
    · exact ite_eq_of_pos h2 (eq_ite_of_neg (by omega) (eq_ite_of_neg (by omega)
        (eq_ite_of_neg (by omega) (eq_ite_of_neg (by omega)
          (eq_ite_of_pos (Or.inl h2) rfl)))))
    · refine ite_eq_of_neg h2 ((h.2 i' j').trans ?_)
      exact if_congr Iff.rfl rfl (if_congr Iff.rfl rfl (if_congr Iff.rfl rfl
        (if_congr Iff.rfl rfl (eq_ite_of_neg (by tauto) rfl))))

theorem FillRealEntries_replicate_entry (E : Collaborators P) (M : ViewPointManager P)
    (sel : List Int) (m : Nat) (hn : sel.length ≤ m) :
    SpecSquare m (FillRealEntries E M sel (List.replicate m (List.replicate m (0 : Int)))) ∧
    ∀ i' j', GetEntry (FillRealEntries E M sel
        (List.replicate m (List.replicate m (0 : Int)))) i' j' =
      SpecRealEntry E M sel i' j' := by
  have h := FillRealEntries_entry E M sel m _ (SpecSquare_replicate m) hn
  refine ⟨h.1, fun i' j' => ?_⟩
  rw [h.2, GetEntry_replicate]
  rfl

/-- The matrix built by `SolveTSP` is square of side `node_size` and its entries are those of
the specification's matrix. -/
theorem DistanceMatrix_entry (E : Collaborators P) (M : ViewPointManager P)
    (L : LocalCoveragePlanner P) (sel : List Int) :
    SpecSquare (NodeSize (GetAnchorInd L sel) sel.length) (DistanceMatrix E M L sel) ∧
    ∀ i j, GetEntry (DistanceMatrix E M L sel) i j = SpecDistance E M L sel i j := by
  have hD : DistanceMatrix E M L sel =
      AddDummyNodes (GetAnchorInd L sel) sel.length
        (NodeSize (GetAnchorInd L sel) sel.length)
        (FillRealEntries E M sel
          (List.replicate (NodeSize (GetAnchorInd L sel) sel.length)
            (List.replicate (NodeSize (GetAnchorInd L sel) sel.length) (0 : Int)))) := rfl
  rw [hD]
  by_cases h1 : (GetAnchorInd L sel).start_ind ≠ (GetAnchorInd L sel).end_ind
  · by_cases h2 : (GetAnchorInd L sel).robot_ind ≠ (GetAnchorInd L sel).lookahead_ind
    · have hN : NodeSize (GetAnchorInd L sel) sel.length = sel.length + 2 := by
        unfold NodeSize
        rw [if_pos ⟨h1, h2⟩]
      rw [hN]
      have hf := FillRealEntries_replicate_entry E M sel (sel.length + 2) (by omega)
      have hd := AddTwoDummies_entry (GetAnchorInd L sel).start_ind
        (GetAnchorInd L sel).end_ind (GetAnchorInd L sel).robot_ind
        (GetAnchorInd L sel).lookahead_ind (sel.length + 2) sel.length
        (sel.length + 2 - 1) (sel.length + 2 - 2) _
        (AddDummyNodes (GetAnchorInd L sel) sel.length (sel.length + 2)
          (FillRealEntries E M sel (List.replicate (sel.length + 2)
            (List.replicate (sel.length + 2) (0 : Int)))))
        hf.1 rfl (by omega) (by omega)
        (by
          unfold AddDummyNodes
          rw [if_pos ⟨h1, h2⟩])
      refine ⟨hd.1, fun i j => ?_⟩
      rw [hd.2, hf.2]
      unfold SpecDistance
      simp only []
      exact eq_ite_of_pos ⟨h1, h2⟩ rfl
    · have hN : NodeSize (GetAnchorInd L sel) sel.length = sel.length + 1 := by
        unfold NodeSize
        rw [if_neg (fun h => h2 h.2), if_pos (Or.inl h1)]
      rw [hN]
      have hf := FillRealEntries_replicate_entry E M sel (sel.length + 1) (by omega)
      have hd := AddOneDummy_entry (GetAnchorInd L sel).start_ind
        (GetAnchorInd L sel).end_ind (sel.length + 1) sel.length
        (sel.length + 1 - 1) _
        (AddDummyNodes (GetAnchorInd L sel) sel.length (sel.length + 1)
          (FillRealEntries E M sel (List.replicate (sel.length + 1)
            (List.replicate (sel.length + 1) (0 : Int)))))
        hf.1 rfl (by omega)
        (by
          unfold AddDummyNodes
          rw [if_neg (fun h => h2 h.2), if_pos h1])
      refine ⟨hd.1, fun i j => ?_⟩
      rw [hd.2, hf.2]
      unfold SpecDistance
      simp only []
      exact eq_ite_of_neg (fun h => h2 h.2) (eq_ite_of_pos h1 rfl)
  · by_cases h2 : (GetAnchorInd L sel).robot_ind ≠ (GetAnchorInd L sel).lookahead_ind
    · have hN : NodeSize (GetAnchorInd L sel) sel.length = sel.length + 1 := by
        unfold NodeSize
        rw [if_neg (fun h => h1 h.1), if_pos (Or.inr h2)]
      rw [hN]
      have hf := FillRealEntries_replicate_entry E M sel (sel.length + 1) (by omega)
      have hd := AddOneDummy_entry (GetAnchorInd L sel).robot_ind
        (GetAnchorInd L sel).lookahead_ind (sel.length + 1) sel.length
        (sel.length + 1 - 1) _
        (AddDummyNodes (GetAnchorInd L sel) sel.length (sel.length + 1)
          (FillRealEntries E M sel (List.replicate (sel.length + 1)
            (List.replicate (sel.length + 1) (0 : Int)))))
        hf.1 rfl (by omega)
        (by
          unfold AddDummyNodes
          rw [if_neg (fun h => h1 h.1), if_neg h1, if_pos h2])
      refine ⟨hd.1, fun i j => ?_⟩
      rw [hd.2, hf.2]
      unfold SpecDistance
      simp only []
      exact eq_ite_of_neg (fun h => h1 h.1) (eq_ite_of_neg h1 (eq_ite_of_pos h2 rfl))
    · have hN : NodeSize (GetAnchorInd L sel) sel.length = sel.length := by
        unfold NodeSize
        rw [if_neg (fun h => h1 h.1), if_neg (fun h => h.elim h1 h2)]
      rw [hN]
      have hf := FillRealEntries_replicate_entry E M sel sel.length (le_refl _)
      have hA : AddDummyNodes (GetAnchorInd L sel) sel.length sel.length
          (FillRealEntries E M sel (List.replicate sel.length
            (List.replicate sel.length (0 : Int)))) =
          FillRealEntries E M sel (List.replicate sel.length
            (List.replicate sel.length (0 : Int))) := by
        unfold AddDummyNodes
        rw [if_neg (fun h => h1 h.1), if_neg h1, if_neg h2]
      rw [hA]
      refine ⟨hf.1, fun i j => ?_⟩
      rw [hf.2]
      unfold SpecDistance
      simp only []
      exact eq_ite_of_neg (fun h => h1 h.1) (eq_ite_of_neg h1 (eq_ite_of_neg h2 rfl))

theorem SpecRealEntry_symm (E : Collaborators P) (M : ViewPointManager P) (sel : List Int)
    (i j : Nat) : SpecRealEntry E M sel i j = SpecRealEntry E M sel j i := by
  unfold SpecRealEntry
  split_ifs <;> first | rfl | (exfalso; omega)

theorem SpecRealEntry_diag (E : Collaborators P) (M : ViewPointManager P) (sel : List Int)
    (i : Nat) : SpecRealEntry E M sel i i = 0 := by
  unfold SpecRealEntry
  rw [if_neg (by omega), if_neg (by omega)]

theorem SpecDistance_symm (E : Collaborators P) (M : ViewPointManager P)
    (L : LocalCoveragePlanner P) (sel : List Int) (i j : Nat) :
    SpecDistance E M L sel i j = SpecDistance E M L sel j i := by
  unfold SpecDistance
  simp only []
  split_ifs <;> first | rfl | (exfalso; omega) | exact SpecRealEntry_symm E M sel i j

theorem SpecDistance_diag (E : Collaborators P) (M : ViewPointManager P)
    (L : LocalCoveragePlanner P) (sel : List Int) (i : Nat) :
    SpecDistance E M L sel i i = 0 := by
  unfold SpecDistance
  simp only []
  split_ifs <;> first | (exfalso; omega) | exact SpecRealEntry_diag E M sel i

theorem SpecDistance_real (E : Collaborators P) (M : ViewPointManager P)
    (L : LocalCoveragePlanner P) (sel : List Int) (i j : Nat)
    (hj : j < i) (hi : i < sel.length) :
    SpecDistance E M L sel i j = SpecRealDistance E M sel i j := by
  unfold SpecDistance SpecRealEntry
  simp only []
  split_ifs <;> first | rfl | (exfalso; omega)

/-- C18: in `SolveTSP` with `n` selected ids and `S, E, R, L` the values of `start_ind`,
`end_ind`, `robot_ind`, `lookahead_ind`: when `S ≠ E` and `R ≠ L` the distance matrix has
`n + 2` nodes, the start/end dummy is node `n + 1` and the robot/lookahead dummy is node `n`,
every real node `i` is at `0` from the start/end dummy if `i` is `S` or `E` and at `9999`
otherwise, at `0` from the robot/lookahead dummy if `i` is `R` or `L` and at `9999` otherwise,
both ways round, and the two dummies are at `9999` from each other; when exactly one pair is
non-degenerate the matrix has `n + 1` nodes with the dummy of that pair at node `n`; when
neither is, it has `n` nodes. -/
theorem DistanceMatrix_dummy_nodes (E : Collaborators P) (M : ViewPointManager P)
    (L : LocalCoveragePlanner P) (sel : List Int) (a : AnchorInd) (n : Nat)
    (D : List (List Int))
    (ha : GetAnchorInd L sel = a) (hn : sel.length = n) (hD : DistanceMatrix E M L sel = D) :
    (a.start_ind ≠ a.end_ind ∧ a.robot_ind ≠ a.lookahead_ind →
      SpecSquare (n + 2) D ∧
      (∀ i, i < n →
        GetEntry D i (n + 1) = SpecDummyDistance a.start_ind a.end_ind i ∧
        GetEntry D (n + 1) i = SpecDummyDistance a.start_ind a.end_ind i ∧
        GetEntry D i n = SpecDummyDistance a.robot_ind a.lookahead_ind i ∧
        GetEntry D n i = SpecDummyDistance a.robot_ind a.lookahead_ind i) ∧
      GetEntry D (n + 1) n = 9999 ∧ GetEntry D n (n + 1) = 9999) ∧
    (a.start_ind ≠ a.end_ind ∧ a.robot_ind = a.lookahead_ind →
      SpecSquare (n + 1) D ∧
      ∀ i, i < n →
        GetEntry D i n = SpecDummyDistance a.start_ind a.end_ind i ∧
        GetEntry D n i = SpecDummyDistance a.start_ind a.end_ind i) ∧
    (a.start_ind = a.end_ind ∧ a.robot_ind ≠ a.lookahead_ind →
      SpecSquare (n + 1) D ∧
      ∀ i, i < n →
        GetEntry D i n = SpecDummyDistance a.robot_ind a.lookahead_ind i ∧
        GetEntry D n i = SpecDummyDistance a.robot_ind a.lookahead_ind i) ∧
    (a.start_ind = a.end_ind ∧ a.robot_ind = a.lookahead_ind → SpecSquare n D) := by
  subst ha hn hD
  have h := DistanceMatrix_entry E M L sel
  refine ⟨?_, ?_, ?_, ?_⟩
  · rintro ⟨h1, h2⟩
    have hN : NodeSize (GetAnchorInd L sel) sel.length = sel.length + 2 := by
      unfold NodeSize
      rw [if_pos ⟨h1, h2⟩]
    rw [hN] at h
    refine ⟨h.1, fun i hi => ⟨?_, ?_, ?_, ?_⟩, ?_, ?_⟩
    all_goals
      rw [h.2]
      unfold SpecDistance
      simp only []
      split_ifs <;>
        first
        | rfl
        | (exfalso; omega)
        | (exfalso
           simp only [and_true, true_and, or_true, true_or, and_self, not_true_eq_false] at *
             <;> omega)
  · rintro ⟨h1, h2⟩
    have hN : NodeSize (GetAnchorInd L sel) sel.length = sel.length + 1 := by
      unfold NodeSize
      rw [if_neg (fun h => h.2 h2), if_pos (Or.inl h1)]
    rw [hN] at h
    refine ⟨h.1, fun i hi => ⟨?_, ?_⟩⟩
    all_goals
      rw [h.2]
      unfold SpecDistance
      simp only []
      split_ifs <;>
        first
        | rfl
        | (exfalso; omega)
        | (exfalso; simp only [and_true, true_and, or_true, true_or] at *; omega)
  · rintro ⟨h1, h2⟩
    have hN : NodeSize (GetAnchorInd L sel) sel.length = sel.length + 1 := by
      unfold NodeSize
      rw [if_neg (fun h => h.1 h1), if_pos (Or.inr h2)]
    rw [hN] at h
    refine ⟨h.1, fun i hi => ⟨?_, ?_⟩⟩
    all_goals
      rw [h.2]
      unfold SpecDistance
      simp only []
      split_ifs <;>
        first
        | rfl
        | (exfalso; omega)
        | (exfalso; simp only [and_true, true_and, or_true, true_or] at *; omega)
  · rintro ⟨h1, h2⟩
    have hN : NodeSize (GetAnchorInd L sel) sel.length = sel.length := by
      unfold NodeSize
      rw [if_neg (fun h => h.1 h1), if_neg (fun h => h.elim (fun k => k h1) (fun k => k h2))]
    rw [hN] at h
    exact h.1

/-- The two-dummy case of C18 on the selection `[0, 1, 2, 3]` with start `1`, end `2`, robot `0`
and lookahead `3`: six nodes, the start/end dummy at node `5`, the robot/lookahead dummy at
node `4`. -/
theorem DistanceMatrix_dummy_nodes_witness :
    SpecSquare (4 + 2) (DistanceMatrix DemoCollaborators DemoManager SpreadPlanner [0, 1, 2, 3]) ∧
    (∀ i, i < 4 →
      GetEntry (DistanceMatrix DemoCollaborators DemoManager SpreadPlanner [0, 1, 2, 3])
        i (4 + 1) = SpecDummyDistance 1 2 i ∧
      GetEntry (DistanceMatrix DemoCollaborators DemoManager SpreadPlanner [0, 1, 2, 3])
        (4 + 1) i = SpecDummyDistance 1 2 i ∧
      GetEntry (DistanceMatrix DemoCollaborators DemoManager SpreadPlanner [0, 1, 2, 3])
        i 4 = SpecDummyDistance 0 3 i ∧
      GetEntry (DistanceMatrix DemoCollaborators DemoManager SpreadPlanner [0, 1, 2, 3])
        4 i = SpecDummyDistance 0 3 i) ∧
    GetEntry (DistanceMatrix DemoCollaborators DemoManager SpreadPlanner [0, 1, 2, 3])
      (4 + 1) 4 = 9999 ∧
    GetEntry (DistanceMatrix DemoCollaborators DemoManager SpreadPlanner [0, 1, 2, 3])
      4 (4 + 1) = 9999 :=
  (DistanceMatrix_dummy_nodes DemoCollaborators DemoManager SpreadPlanner [0, 1, 2, 3]
    (AnchorInd.mk 1 2 0 3) 4 _ rfl rfl rfl).1 ⟨by decide, by decide⟩

/-- C19: the distance matrix that `SolveTSP` hands to the solver is a square matrix of side
`node_size`, symmetric and with a zero diagonal over all of its nodes, real and dummy, for every
selection and every manager; the entry of a real pair `i > j` is the scaled length of the
manager's path from `selected[i]` to `selected[j]`, and the entry at `[j][i]` is the same
number. -/
theorem DistanceMatrix_symmetric_zero_diagonal (E : Collaborators P) (M : ViewPointManager P)
    (L : LocalCoveragePlanner P) (sel : List Int) :
    SpecSquare (NodeSize (GetAnchorInd L sel) sel.length) (DistanceMatrix E M L sel) ∧
    (∀ i j, i < NodeSize (GetAnchorInd L sel) sel.length →
      j < NodeSize (GetAnchorInd L sel) sel.length →
      GetEntry (DistanceMatrix E M L sel) i j = GetEntry (DistanceMatrix E M L sel) j i) ∧
    (∀ i, i < NodeSize (GetAnchorInd L sel) sel.length →
      GetEntry (DistanceMatrix E M L sel) i i = 0) ∧
    (∀ i j, j < i → i < sel.length →
      GetEntry (DistanceMatrix E M L sel) i j =
        E.ScaledPathLength (M.GetViewPointShortestPath (sel.getD i 0) (sel.getD j 0)) ∧
      GetEntry (DistanceMatrix E M L sel) j i =
        E.ScaledPathLength (M.GetViewPointShortestPath (sel.getD i 0) (sel.getD j 0))) := by
  have h := DistanceMatrix_entry E M L sel
  refine ⟨h.1, fun i j _ _ => ?_, fun i _ => ?_, fun i j hj hi => ⟨?_, ?_⟩⟩
  · rw [h.2, h.2]
    exact SpecDistance_symm E M L sel i j
  · rw [h.2]
    exact SpecDistance_diag E M L sel i
  · rw [h.2]
    exact SpecDistance_real E M L sel i j hj hi
  · rw [h.2, SpecDistance_symm E M L sel j i]
    exact SpecDistance_real E M L sel i j hj hi

/-- C20, the claim fails: the manager has no path from viewpoint `2` to viewpoint `1`, both
selected, and the entries of that pair are `0`, the scaled length of the empty path, not
`9999`. -/
theorem DistanceMatrix_no_sentinel_for_empty_path :
    GapManager.GetViewPointShortestPath 2 1 = [] ∧
    GetEntry (DistanceMatrix SegmentCollaborators GapManager SpreadPlanner [0, 1, 2, 3]) 2 1
      = 0 ∧
    GetEntry (DistanceMatrix SegmentCollaborators GapManager SpreadPlanner [0, 1, 2, 3]) 1 2
      = 0 := by
  refine ⟨rfl, ?_, ?_⟩ <;> decide

/-- C20, amended: when the manager returns an empty pose list for the pair `selected[i]`,
`selected[j]` with `i > j`, `SolveTSP` sets both entries of the pair to the scaled length of
that empty path, as it does for any other path; it writes no sentinel. -/
theorem DistanceMatrix_entry_of_empty_path (E : Collaborators P) (M : ViewPointManager P)
    (L : LocalCoveragePlanner P) (sel : List Int) (i j : Nat)
    (hj : j < i) (hi : i < sel.length)
    (hempty : M.GetViewPointShortestPath (sel.getD i 0) (sel.getD j 0) = []) :
    GetEntry (DistanceMatrix E M L sel) i j = E.ScaledPathLength [] ∧
    GetEntry (DistanceMatrix E M L sel) j i = E.ScaledPathLength [] := by
  have h := DistanceMatrix_entry E M L sel
  rw [h.2, h.2, SpecDistance_symm E M L sel j i, SpecDistance_real E M L sel i j hj hi]
  unfold SpecRealDistance
  rw [hempty]
  exact ⟨rfl, rfl⟩

theorem DistanceMatrix_entry_of_empty_path_witness :
    (1 < 2 ∧ 2 < ([0, 1, 2, 3] : List Int).length ∧
      GapManager.GetViewPointShortestPath (([0, 1, 2, 3] : List Int).getD 2 0)
        (([0, 1, 2, 3] : List Int).getD 1 0) = []) ∧
    GetEntry (DistanceMatrix SegmentCollaborators GapManager SpreadPlanner [0, 1, 2, 3]) 2 1
      = SegmentCollaborators.ScaledPathLength [] ∧
    GetEntry (DistanceMatrix SegmentCollaborators GapManager SpreadPlanner [0, 1, 2, 3]) 1 2
      = SegmentCollaborators.ScaledPathLength [] :=
  ⟨⟨by decide, by decide, rfl⟩,
    DistanceMatrix_entry_of_empty_path SegmentCollaborators GapManager SpreadPlanner
      [0, 1, 2, 3] 2 1 (by decide) (by decide) rfl⟩

theorem ReuseViewPoint_mem (M : ViewPointManager P) (L : LocalCoveragePlanner P)
    (covered frontier_covered : List Bool) (reused : List Int) (a v : Int)
    (hv : v ∈ ReuseViewPoint M L covered frontier_covered reused a) :
    v ∈ reused ∨ (v = M.GetViewPointInd a ∧ M.ViewPointVisited a true = false ∧
      M.IsViewPointCandidate a true = true) := by
  unfold ReuseViewPoint at hv
  by_cases h1 : M.ViewPointVisited a true = true ∨ M.IsViewPointCandidate a true = false
  · rw [if_pos h1] at hv
    exact Or.inl hv
  · rw [if_neg h1] at hv
    have hvis : M.ViewPointVisited a true = false := by
      cases hb : M.ViewPointVisited a true with
      | false => rfl
      | true => exact absurd (Or.inl hb) h1
    have hcand : M.IsViewPointCandidate a true = true := by
      cases hb : M.IsViewPointCandidate a true with
      | true => rfl
      | false => exact absurd (Or.inr hb) h1
    simp only [] at hv
    split_ifs at hv
    all_goals
      first
      | exact Or.inl hv
      | (rcases List.mem_append.mp hv with hold | hnew
         · exact Or.inl hold
         · rw [List.mem_singleton] at hnew
           exact Or.inr ⟨hnew, hvis, hcand⟩)

theorem ReuseViewPoint_foldl_mem (M : ViewPointManager P) (L : LocalCoveragePlanner P)
    (covered frontier_covered : List Bool) (v : Int) :
    ∀ (memory : List Int) (reused : List Int),
      v ∈ memory.foldl (ReuseViewPoint M L covered frontier_covered) reused →
      v ∈ reused ∨ ∃ a ∈ memory, v = M.GetViewPointInd a ∧ M.ViewPointVisited a true = false ∧
        M.IsViewPointCandidate a true = true
  | [], reused, hv => Or.inl hv
  | a :: memory, reused, hv => by
    rw [List.foldl_cons] at hv
    rcases ReuseViewPoint_foldl_mem M L covered frontier_covered v memory _ hv with h | h
    · rcases ReuseViewPoint_mem M L covered frontier_covered reused a v h with h' | h'
      · exact Or.inl h'
      · exact Or.inr ⟨a, List.mem_cons_self _ _, h'⟩
    · obtain ⟨b, hb, hrest⟩ := h
      exact Or.inr ⟨b, List.mem_cons_of_mem _ hb, hrest⟩

/-- Where the lists of the sampling stage come from: the reused ids pass the test of the reuse
step, the ids of both queues are eligible. -/
theorem SampleViewPoints_sources (E : Collaborators P) (M : ViewPointManager P)
    (L : LocalCoveragePlanner P) (global_path : List (Node P))
    (uncovered_point_num uncovered_frontier_point_num : Nat) (S : Sampling P)
    (hsort : ∀ (l : List (Int × Int)) (x : Int × Int), x ∈ E.SortInRev l ↔ x ∈ l)
    (h : SampleViewPoints E M L global_path uncovered_point_num uncovered_frontier_point_num =
      Except.ok S) :
    (∀ v ∈ S.reused_viewpoint_indices, SpecReusable M L v) ∧
    (∀ v ∈ S.queue.map Prod.snd, SpecEligible M v) ∧
    (∀ v ∈ S.frontier_queue.map Prod.snd, SpecEligible M v) := by
  have hkeep := (GetNavigationViewPointIndices_keeps M
    { L with local_coverage_complete_ := false } global_path []).2.2.1
  unfold SampleViewPoints at h
  simp only [] at h
  split at h
  · exact absurd h (by simp)
  · rename_i covered frontier_covered hcov
    simp only [Except.ok.injEq] at h
    subst h
    refine ⟨?_, ?_, ?_⟩
    · intro v hv
      rcases ReuseViewPoint_foldl_mem M _ _ _ v _ [] hv with h0 | ⟨a, ha, hrest⟩
      · exact absurd h0 (List.not_mem_nil _)
      · rw [hkeep] at ha
        exact ⟨a, ha, hrest⟩
    · intro v hv
      rcases List.mem_map.mp hv with ⟨⟨g, w⟩, hgw, rfl⟩
      have hm := ((EnqueueViewpointCandidates_mem E M _ _ _ _ hsort g w).1.mp hgw)
      exact ⟨hm.1, hm.2.1.1, hm.2.1.2.1⟩
    · intro v hv
      rcases List.mem_map.mp hv with ⟨⟨g, w⟩, hgw, rfl⟩
      have hm := ((EnqueueViewpointCandidates_mem E M _ _ _ _ hsort g w).2.mp hgw)
      exact ⟨hm.1, hm.2.1.1, hm.2.1.2.1⟩

/-- The ids that `SelectViewPointFromFrontierQueue` appends, and the ids of the queue it leaves
behind, are ids of entries of the queue it was given. -/
theorem SelectViewPointFromFrontierQueue_picks (E : Collaborators P)
    (M : ViewPointManager P) (L : LocalCoveragePlanner P) (gen : Nat → Nat)
    (frontier_queue : List (Int × Int)) (frontier_covered : List Bool) (sel : List Int)
    (out : List (Int × Int) × List Bool × List Int)
    (hsort : ∀ (l : List (Int × Int)) (x : Int × Int), x ∈ E.SortInRev l → x ∈ l)
    (h : SelectViewPointFromFrontierQueue E M L gen frontier_queue frontier_covered sel =
      Except.ok out) :
    (∃ app : List Int, out.2.2 = sel ++ app ∧ ∀ v ∈ app, v ∈ frontier_queue.map Prod.snd) ∧
    ∀ v ∈ out.1.map Prod.snd, v ∈ frontier_queue.map Prod.snd := by
  unfold SelectViewPointFromFrontierQueue at h
  split at h
  · simp only [Except.ok.injEq] at h
    subst h
    exact ⟨⟨[], by simp, by simp⟩, fun v hv => hv⟩
  · rename_i top rest
    split_ifs at h
    · split at h
      · exact absurd h (by simp)
      · rename_i marked hmarked
        simp only [] at h
        split at h
        · exact absurd h (by simp)
        · rename_i out_sel hout
          simp only [Except.ok.injEq] at h
          subst h
          have hids : ∀ v ∈ (E.SortInRev ((top :: rest).map (fun entry =>
              (M.GetViewPointCoveredFrontierPointNumIn marked entry.2 false,
                entry.2)))).map Prod.snd, v ∈ (top :: rest).map Prod.snd := by
            intro v hv
            rcases List.mem_map.mp hv with ⟨e, he, rfl⟩
            rcases List.mem_map.mp (hsort _ _ he) with ⟨e0, he0, rfl⟩
            exact List.mem_map.mpr ⟨e0, he0, rfl⟩
          obtain ⟨app, happ, hsub⟩ := SelectViewPoint_picks E M L gen _ _ sel true out_sel
            hsort hout
          exact ⟨⟨app, happ, fun v hv => hids v (hsub v hv)⟩, hids⟩
    · simp only [Except.ok.injEq] at h
      subst h
      exact ⟨⟨[], by simp, by simp⟩, fun v hv => hv⟩

/-- What an iteration of the optimisation loop that returns has selected. -/
theorem OptimizationItr_selects (E : Collaborators P) (M : ViewPointManager P)
    (rd : Nat → Nat → Nat) (S : Sampling P) (st st' : Progress P) (itr : Nat)
    (h : OptimizationItr E M rd S st itr = Except.ok st') :
    ∃ (sel0 sel : List Int) (frontier_queue : List (Int × Int))
      (frontier_covered : List Bool),
      SelectViewPoint E M S.planner (rd (2 * itr)) S.queue S.covered [] false =
        Except.ok sel0 ∧
      SelectViewPointFromFrontierQueue E M S.planner (rd (2 * itr + 1)) st.frontier_queue
          st.frontier_covered sel0 = Except.ok (frontier_queue, frontier_covered, sel) ∧
      st'.solve_tsp_calls = st.solve_tsp_calls ++
        [E.UniquifyIntVector (sel ++ S.reused_viewpoint_indices ++
          S.navigation_viewpoint_indices)] ∧
      st'.frontier_queue = frontier_queue := by
  unfold OptimizationItr at h
  simp only [] at h
  split at h
  · exact absurd h (by simp)
  · rename_i sel0 hsel0
    split at h
    · exact absurd h (by simp)
    · rename_i fq fc sel hsel
      refine ⟨sel0, sel, fq, fc, hsel0, hsel, ?_⟩
      split_ifs at h with hc
      · simp only [Except.ok.injEq] at h
        subst h
        exact ⟨rfl, rfl⟩
      · simp only [Except.ok.injEq] at h
        subst h
        exact ⟨rfl, rfl⟩

/-- C12, the claim fails for a reused viewpoint: viewpoint `3` is in the cycle memory, is not
visited and is a candidate, but lies outside every exploring cell; the reuse step takes it and
both selections handed to `SolveTSP` hold it, though it is none of the anchors. -/
theorem SolveLocalCoverageProblem_reuses_outside_exploring_cell :
    ∃ res : Outcome Int,
      SolveLocalCoverageProblem DemoCollaborators DimManager (fun _ _ => 0) StalePlanner
        (fun _ => false) [] 6 0 = Except.ok res ∧
      res.solve_tsp_calls = [[0, 1, 2, 3], [0, 1, 2, 3]] ∧
      ¬ SpecAnchor res.planner 3 ∧
      DimManager.ViewPointInExploringCell 3 = false :=
  ⟨_, rfl, by decide, by unfold SpecAnchor; decide, rfl⟩

/-- C12, amended: in a call of `SolveLocalCoverageProblem` that returns, every viewpoint in a
list handed to `SolveTSP` is one of the four anchors, or is the id of a queue entry, and then it
is listed among the manager's candidates, is not visited and lies in an exploring cell, or was
reused from the cycle memory, and then it is the id of an array index of the memory that is not
visited and is a candidate; the reuse step does not look at the exploring cell.  The sort is
taken to keep the set of entries and `UniquifyIntVector` to return no new element. -/
theorem SolveLocalCoverageProblem_selection_sources (E : Collaborators P)
    (M : ViewPointManager P) (rd : Nat → Nat → Nat) (L : LocalCoveragePlanner P)
    (flags : Int → Bool) (global_path : List (Node P))
    (uncovered_point_num uncovered_frontier_point_num : Nat) (res : Outcome P)
    (hU : ∀ (l : List Int) (x : Int), x ∈ E.UniquifyIntVector l → x ∈ l)
    (hsort : ∀ (l : List (Int × Int)) (x : Int × Int), x ∈ E.SortInRev l ↔ x ∈ l)
    (h : SolveLocalCoverageProblem E M rd L flags global_path uncovered_point_num
      uncovered_frontier_point_num = Except.ok res) :
    ∀ call ∈ res.solve_tsp_calls, ∀ v ∈ call,
      SpecAnchor res.planner v ∨ SpecEligible M v ∨ SpecReusable M L v := by
  obtain ⟨S, hS, hbranch⟩ := SolveLocalCoverageProblem_ok E M rd L flags global_path
    uncovered_point_num uncovered_frontier_point_num res h
  have hnav := (SampleViewPoints_ok E M L global_path uncovered_point_num
    uncovered_frontier_point_num S hS).2
  obtain ⟨hreused, hqueue, hfrontier⟩ := SampleViewPoints_sources E M L global_path
    uncovered_point_num uncovered_frontier_point_num S hsort hS
  have hsort' : ∀ (l : List (Int × Int)) (x : Int × Int), x ∈ E.SortInRev l → x ∈ l :=
    fun l x => (hsort l x).mp
  have hnavmem : ∀ v ∈ S.navigation_viewpoint_indices, SpecAnchor S.planner v := by
    intro v hv
    rw [hnav] at hv
    simp only [List.mem_cons, List.mem_singleton, List.not_mem_nil, or_false] at hv
    exact hv
  have hconv : ∀ v, (v ∈ S.navigation_viewpoint_indices ∨ v ∈ S.reused_viewpoint_indices ∨
      v ∈ S.queue.map Prod.snd ∨ v ∈ S.frontier_queue.map Prod.snd) →
      SpecAnchor S.planner v ∨ SpecEligible M v ∨ SpecReusable M L v := by
    rintro v (hv | hv | hv | hv)
    · exact Or.inl (hnavmem v hv)
    · exact Or.inr (Or.inr (hreused v hv))
    · exact Or.inr (Or.inl (hqueue v hv))
    · exact Or.inr (Or.inl (hfrontier v hv))
  rcases hbranch with ⟨_, st, hst, hres⟩ | ⟨_, st, complete, hst, hres⟩
  · subst hres
    have hinv := foldlM_invariant (OptimizationItr E M rd S)
      (fun st => (∀ v ∈ st.frontier_queue.map Prod.snd, v ∈ S.frontier_queue.map Prod.snd) ∧
        ∀ call ∈ st.solve_tsp_calls, ∀ v ∈ call,
          (v ∈ S.navigation_viewpoint_indices ∨ v ∈ S.reused_viewpoint_indices ∨
            v ∈ S.queue.map Prod.snd ∨ v ∈ S.frontier_queue.map Prod.snd))
      (by
        intro s itr s' hs hstep
        obtain ⟨sel0, sel, fq, fc, h0, h1, hcalls, hfq⟩ :=
          OptimizationItr_selects E M rd S s s' itr hstep
        obtain ⟨app0, happ0, hsub0⟩ := SelectViewPoint_picks E M S.planner _ _ _ [] false
          sel0 hsort' h0
        obtain ⟨⟨app1, happ1, hsub1⟩, hq⟩ := SelectViewPointFromFrontierQueue_picks E M
          S.planner _ _ _ sel0 (fq, fc, sel) hsort' h1
        refine ⟨?_, ?_⟩
        · intro v hv
          rw [hfq] at hv
          exact hs.1 v (hq v hv)
        · intro call hcall v hv
          rw [hcalls] at hcall
          rcases List.mem_append.mp hcall with hold | hnew
          · exact hs.2 call hold v hv
          · rw [List.mem_singleton] at hnew
            subst hnew
            have hv' := hU _ _ hv
            have happ1' : sel = sel0 ++ app1 := happ1
            rw [happ1', happ0] at hv'
            simp only [List.mem_append, List.nil_append] at hv'
            rcases hv' with ((hv' | hv') | hv') | hv'
            · exact Or.inr (Or.inr (Or.inl (hsub0 v hv')))
            · exact Or.inr (Or.inr (Or.inr (hs.1 v (hsub1 v hv'))))
            · exact Or.inr (Or.inl hv')
            · exact Or.inl hv')
      _ (InitialProgress S) st
      ⟨fun v hv => hv, by intro call hcall; simp [InitialProgress] at hcall⟩ hst
    intro call hcall v hv
    exact hconv v (hinv.2 call hcall v hv)
  · subst hres
    obtain ⟨sel, fq, fc, hsel, _, hcalls, _⟩ := SinglePass_ok E M rd S _ st complete hst
    obtain ⟨⟨app1, happ1, hsub1⟩, _⟩ := SelectViewPointFromFrontierQueue_picks E M
      S.planner _ _ _ _ (fq, fc, sel) hsort' hsel
    intro call hcall v hv
    change call ∈ st.solve_tsp_calls at hcall
    rw [hcalls] at hcall
    simp only [InitialProgress, List.nil_append, List.mem_singleton] at hcall
    subst hcall
    have hv' := hU _ _ hv
    have happ1' : sel = S.reused_viewpoint_indices ++ app1 := happ1
    rw [happ1'] at hv'
    simp only [List.mem_append] at hv'
    apply hconv
    rcases hv' with (hv' | hv') | hv'
    · exact Or.inr (Or.inl hv')
    · exact Or.inr (Or.inr (Or.inr (hsub1 v hv')))
    · exact Or.inl hv'

/-- Instance of the amended C12: the demo planner with viewpoint `3` in its cycle memory, on
the manager that has viewpoint `3` outside every exploring cell. -/
theorem SolveLocalCoverageProblem_selection_sources_witness :
    ∃ res : Outcome Int,
      SolveLocalCoverageProblem DemoCollaborators DimManager (fun _ _ => 0) StalePlanner
        (fun _ => false) [] 6 0 = Except.ok res ∧
      ∀ call ∈ res.solve_tsp_calls, ∀ v ∈ call,
        SpecAnchor res.planner v ∨ SpecEligible DimManager v ∨
          SpecReusable DimManager StalePlanner v :=
  ⟨_, rfl,
    SolveLocalCoverageProblem_selection_sources DemoCollaborators DimManager (fun _ _ => 0)
      StalePlanner (fun _ => false) [] 6 0 _
      (fun l x => (DemoCollaborators_Uniquify_mem l x).mp) DemoCollaborators_SortInRev_mem rfl⟩

/-- Instance of C13: the top gain equals `kMinAddPointNum`, the gate is open and viewpoint `2`
is appended to the list. -/
theorem SelectViewPoint_initial_gate_witness :
    ∃ (cur : Int) (app : List Int),
      SelectViewPoint DemoCollaborators DemoManager DemoPlanner (fun _ => 0) [(1, 2)]
        (List.replicate 6 false) [7] false = Except.ok ([7] ++ cur :: app) :=
  (SelectViewPoint_initial_gate DemoCollaborators DemoManager DemoPlanner (fun _ => 0)
    [(1, 2)] (List.replicate 6 false) [7] false).2.2.2.2
    ((SelectViewPoint_initial_gate DemoCollaborators DemoManager DemoPlanner (fun _ => 0)
      [(1, 2)] (List.replicate 6 false) [7] false).2.2.1 (1, 2) [] rfl rfl)
    rfl
    (fun l => List.perm_insertionSort _ l)
    (by decide)

/-! ## The loop of the greedy selection, round by round -/

theorem SelectViewPointLoop_mark_error (E : Collaborators P) (M : ViewPointManager P)
    (L : LocalCoveragePlanner P) (gen : Nat → Nat) (queue : List (Int × Int))
    (use_frontier : Bool) (fuel k : Nat) (covered_copy : List Bool)
    (queue_copy : List (Int × Int)) (sel : List Int) (queue_idx : Nat) (cur_ind : Int)
    (e : Fault)
    (hmark : (CoveredListOf M use_frontier (M.GetViewPointArrayInd cur_ind)).foldlM MarkCovered
      covered_copy = Except.error e) :
    SelectViewPointLoop E M L gen queue use_frontier (fuel + 1) k covered_copy queue_copy sel
      queue_idx cur_ind = Except.error e := by
  unfold SelectViewPointLoop
  simp only []
  rw [hmark]

theorem SelectViewPointLoop_rank_error (E : Collaborators P) (M : ViewPointManager P)
    (L : LocalCoveragePlanner P) (gen : Nat → Nat) (queue : List (Int × Int))
    (use_frontier : Bool) (fuel k : Nat) (covered_copy : List Bool)
    (queue_copy : List (Int × Int)) (sel : List Int) (queue_idx : Nat) (cur_ind : Int)
    (marked : List Bool) (e : Fault)
    (hmark : (CoveredListOf M use_frontier (M.GetViewPointArrayInd cur_ind)).foldlM MarkCovered
      covered_copy = Except.ok marked)
    (hrank : (queue_copy.eraseIdx queue_idx).mapM (ReRankEntry M use_frontier marked) =
      Except.error e) :
    SelectViewPointLoop E M L gen queue use_frontier (fuel + 1) k covered_copy queue_copy sel
      queue_idx cur_ind = Except.error e := by
  unfold ReRankEntry at hrank
  unfold SelectViewPointLoop
  simp only []
  rw [hmark]
  simp only []
  rw [hrank]

/-- A round of the loop whose re-ranked queue fails the test ends the loop with the pick of the
round appended. -/
theorem SelectViewPointLoop_stops (E : Collaborators P) (M : ViewPointManager P)
    (L : LocalCoveragePlanner P) (gen : Nat → Nat) (queue : List (Int × Int))
    (use_frontier : Bool) (fuel k : Nat) (covered_copy : List Bool)
    (queue_copy : List (Int × Int)) (sel : List Int) (queue_idx : Nat) (cur_ind : Int)
    (marked : List Bool) (ranked : List (Int × Int))
    (hmark : (CoveredListOf M use_frontier (M.GetViewPointArrayInd cur_ind)).foldlM MarkCovered
      covered_copy = Except.ok marked)
    (hrank : (queue_copy.eraseIdx queue_idx).mapM (ReRankEntry M use_frontier marked) =
      Except.ok ranked)
    (hstop : ¬ SpecContinues L use_frontier (E.SortInRev ranked)) :
    SelectViewPointLoop E M L gen queue use_frontier (fuel + 1) k covered_copy queue_copy sel
      queue_idx cur_ind = Except.ok (sel ++ [cur_ind]) := by
  unfold ReRankEntry at hrank
  unfold SelectViewPointLoop
  simp only []
  rw [hmark]
  simp only []
  rw [hrank]
  simp only []
  cases hs : E.SortInRev ranked with
  | nil => rfl
  | cons top rest =>
    simp only []
    rw [hs] at hstop
    by_cases h1 : top.1 < L.kMinAddPointNum
    · exact ite_eq_of_pos h1 rfl
    · refine ite_eq_of_neg h1 ?_
      by_cases h2 : use_frontier = true ∧ top.1 < L.kMinAddFrontierPointNum
      · exact ite_eq_of_pos h2 rfl
      · exfalso
        apply hstop
        refine ⟨top, rest, rfl, ?_⟩
        cases use_frontier with
        | true =>
          simp only [if_true]
          simp only [true_and] at h2
          omega
        | false =>
          simp only [Bool.false_eq_true, if_false]
          omega

/-- A round of the loop whose re-ranked queue passes the test goes on to the next draw. -/
theorem SelectViewPointLoop_goes_on (E : Collaborators P) (M : ViewPointManager P)
    (L : LocalCoveragePlanner P) (gen : Nat → Nat) (queue : List (Int × Int))
    (use_frontier : Bool) (fuel k : Nat) (covered_copy : List Bool)
    (queue_copy : List (Int × Int)) (sel : List Int) (queue_idx : Nat) (cur_ind : Int)
    (marked : List Bool) (ranked : List (Int × Int))
    (hmark : (CoveredListOf M use_frontier (M.GetViewPointArrayInd cur_ind)).foldlM MarkCovered
      covered_copy = Except.ok marked)
    (hrank : (queue_copy.eraseIdx queue_idx).mapM (ReRankEntry M use_frontier marked) =
      Except.ok ranked)
    (hcont : SpecContinues L use_frontier (E.SortInRev ranked)) :
    SelectViewPointLoop E M L gen queue use_frontier (fuel + 1) k covered_copy queue_copy sel
        queue_idx cur_ind =
      NextPick E M L gen queue use_frontier fuel k marked (E.SortInRev ranked)
        (sel ++ [cur_ind]) := by
  unfold ReRankEntry at hrank
  unfold SelectViewPointLoop
  simp only []
  rw [hmark]
  simp only []
  rw [hrank]
  simp only []
  obtain ⟨top, rest, hs, hge⟩ := hcont
  rw [hs]
  simp only []
  have h1 : ¬ top.1 < L.kMinAddPointNum := by
    cases use_frontier with
    | true =>
      simp only [if_true] at hge
      omega
    | false =>
      simp only [Bool.false_eq_true, if_false] at hge
      omega
  have h2 : ¬ (use_frontier = true ∧ top.1 < L.kMinAddFrontierPointNum) := by
    rintro ⟨hf, hlt⟩
    rw [hf] at hge
    simp only [if_true] at hge
    omega
  exact ite_eq_of_neg h1 (ite_eq_of_neg h2 rfl)

/-- C21: after a pick and the re-ranking, the loop of `SelectViewPoint` goes on to another pick
exactly when the working queue is non-empty and its top gain is at least `kMinAddPointNum` and,
in frontier mode, at least `kMinAddFrontierPointNum` too; in surface mode `kMinAddPointNum`
alone is tested.  Otherwise the loop ends with the pick of the round as the last id. -/
theorem SelectViewPointLoop_continues_iff (E : Collaborators P) (M : ViewPointManager P)
    (L : LocalCoveragePlanner P) (gen : Nat → Nat) (queue : List (Int × Int))
    (use_frontier : Bool) (fuel k : Nat) (covered_copy : List Bool)
    (queue_copy : List (Int × Int)) (sel : List Int) (queue_idx : Nat) (cur_ind : Int)
    (marked : List Bool) (ranked : List (Int × Int))
    (hmark : (CoveredListOf M use_frontier (M.GetViewPointArrayInd cur_ind)).foldlM MarkCovered
      covered_copy = Except.ok marked)
    (hrank : (queue_copy.eraseIdx queue_idx).mapM (ReRankEntry M use_frontier marked) =
      Except.ok ranked) :
    (SpecContinues L use_frontier (E.SortInRev ranked) →
      SelectViewPointLoop E M L gen queue use_frontier (fuel + 1) k covered_copy queue_copy sel
          queue_idx cur_ind =
        NextPick E M L gen queue use_frontier fuel k marked (E.SortInRev ranked)
          (sel ++ [cur_ind])) ∧
    (¬ SpecContinues L use_frontier (E.SortInRev ranked) →
      SelectViewPointLoop E M L gen queue use_frontier (fuel + 1) k covered_copy queue_copy sel
          queue_idx cur_ind = Except.ok (sel ++ [cur_ind])) ∧
    (∀ out, SelectViewPointLoop E M L gen queue use_frontier (fuel + 1) k covered_copy
        queue_copy sel queue_idx cur_ind = Except.ok out →
      (SpecContinues L use_frontier (E.SortInRev ranked) ↔
        ∃ (next : Int) (app : List Int), out = sel ++ cur_ind :: next :: app)) ∧
    (∀ working, SpecContinues L false working ↔
      ∃ top rest, working = top :: rest ∧ top.1 ≥ L.kMinAddPointNum) ∧
    (∀ working, SpecContinues L true working ↔
      ∃ top rest, working = top :: rest ∧ top.1 ≥ L.kMinAddPointNum ∧
        top.1 ≥ L.kMinAddFrontierPointNum) := by
  refine ⟨SelectViewPointLoop_goes_on E M L gen queue use_frontier fuel k covered_copy
      queue_copy sel queue_idx cur_ind marked ranked hmark hrank,
    SelectViewPointLoop_stops E M L gen queue use_frontier fuel k covered_copy
      queue_copy sel queue_idx cur_ind marked ranked hmark hrank, ?_, ?_, ?_⟩
  · intro out hout
    constructor
    · intro hcont
      rw [SelectViewPointLoop_goes_on E M L gen queue use_frontier fuel k covered_copy
        queue_copy sel queue_idx cur_ind marked ranked hmark hrank hcont] at hout
      unfold NextPick at hout
      split at hout
      · exact absurd hout (by simp)
      · split at hout
        · exact absurd hout (by simp)
        · rename_i entry _
          obtain ⟨app, happ⟩ := SelectViewPointLoop_appends E M L gen queue use_frontier
            _ _ _ _ _ _ _ out hout
          exact ⟨entry.2, app, by simp [happ]⟩
    · rintro ⟨next, app, happ⟩
      by_contra hstop
      rw [SelectViewPointLoop_stops E M L gen queue use_frontier fuel k covered_copy
        queue_copy sel queue_idx cur_ind marked ranked hmark hrank hstop] at hout
      simp only [Except.ok.injEq] at hout
      rw [← hout] at happ
      have := congrArg List.length happ
      simp at this
  · intro working
    unfold SpecContinues
    simp
  · intro working
    unfold SpecContinues
    simp

/-- Instance of C21: after the pick of viewpoint `1` the re-ranked queue is `(2, 2), (1, 3)`,
its top gain `2` reaches `kMinAddPointNum = 1`, and the loop goes on to the next draw. -/
theorem SelectViewPointLoop_continues_iff_witness :
    (CoveredListOf DemoManager false (DemoManager.GetViewPointArrayInd 1)).foldlM MarkCovered
        (List.replicate 6 false) = Except.ok [true, true, true, false, false, false] ∧
    ([((3 : Int), (1 : Int)), (2, 2), (1, 3)].eraseIdx 0).mapM
        (ReRankEntry DemoManager false [true, true, true, false, false, false]) =
      Except.ok [(2, 2), (1, 3)] ∧
    SpecContinues DemoPlanner false (DemoCollaborators.SortInRev [(2, 2), (1, 3)]) ∧
    SelectViewPointLoop DemoCollaborators DemoManager DemoPlanner (fun _ => 0)
        [(3, 1), (2, 2), (1, 3)] false (2 + 1) 1 (List.replicate 6 false)
        [(3, 1), (2, 2), (1, 3)] [] 0 1 =
      NextPick DemoCollaborators DemoManager DemoPlanner (fun _ => 0)
        [(3, 1), (2, 2), (1, 3)] false 2 1 [true, true, true, false, false, false]
        (DemoCollaborators.SortInRev [(2, 2), (1, 3)]) ([] ++ [1]) :=
  ⟨rfl, rfl, ⟨(2, 2), [(1, 3)], rfl, by decide⟩,
    (SelectViewPointLoop_continues_iff DemoCollaborators DemoManager DemoPlanner (fun _ => 0)
      [(3, 1), (2, 2), (1, 3)] false 2 1 (List.replicate 6 false) [(3, 1), (2, 2), (1, 3)] []
      0 1 [true, true, true, false, false, false] [(2, 2), (1, 3)] rfl rfl).1
      ⟨(2, 2), [(1, 3)], rfl, by decide⟩⟩

/-! ## Sample range one -/

/-- With a sample range of `1` and an entry of the queue at the threshold, the loop of
`SelectViewPoint` started at the head of the working queue is the deterministic greedy loop. -/
theorem SelectViewPointLoop_eq_greedy (E : Collaborators P) (M : ViewPointManager P)
    (L : LocalCoveragePlanner P) (gen : Nat → Nat) (queue : List (Int × Int))
    (use_frontier : Bool)
    (hrange : L.kGreedyViewPointSampleRange = 1)
    (hcount : 1 ≤ CountSampleRange L queue use_frontier) :
    ∀ (fuel k : Nat) (covered_copy : List Bool) (head : Int × Int) (tail : List (Int × Int))
      (sel : List Int),
      SelectViewPointLoop E M L gen queue use_frontier fuel k covered_copy (head :: tail) sel
          0 head.2 =
        SpecGreedyLoop E M L use_frontier fuel covered_copy head tail sel
  | 0, _, _, _, _, _ => rfl
  | fuel + 1, k, covered_copy, head, tail, sel => by
    cases hmark : (CoveredListOf M use_frontier (M.GetViewPointArrayInd head.2)).foldlM
        MarkCovered covered_copy with
    | error e =>
      rw [SelectViewPointLoop_mark_error E M L gen queue use_frontier fuel k covered_copy
        (head :: tail) sel 0 head.2 e hmark]
      unfold SpecGreedyLoop
      rw [hmark]
    | ok marked =>
      cases hrank : tail.mapM (ReRankEntry M use_frontier marked) with
      | error e =>
        rw [SelectViewPointLoop_rank_error E M L gen queue use_frontier fuel k covered_copy
          (head :: tail) sel 0 head.2 marked e hmark hrank]
        unfold SpecGreedyLoop
        rw [hmark]
        simp only []
        rw [hrank]
      | ok ranked =>
        have hgreedy : SpecGreedyLoop E M L use_frontier (fuel + 1) covered_copy head tail
            sel =
            match E.SortInRev ranked with
            | [] => Except.ok (sel ++ [head.2])
            | top :: rest =>
              if top.1 ≥ L.kMinAddPointNum ∧
                  (use_frontier = true → top.1 ≥ L.kMinAddFrontierPointNum) then
                SpecGreedyLoop E M L use_frontier fuel marked top rest (sel ++ [head.2])
              else
                Except.ok (sel ++ [head.2]) := by
          conv_lhs => unfold SpecGreedyLoop
          rw [hmark]
          simp only []
          rw [hrank]
        rw [hgreedy]
        cases hs : E.SortInRev ranked with
        | nil =>
          have hstop : ¬ SpecContinues L use_frontier (E.SortInRev ranked) := by
            rintro ⟨top, rest, h, _⟩
            rw [hs] at h
            exact absurd h (by simp)
          rw [SelectViewPointLoop_stops E M L gen queue use_frontier fuel k covered_copy
            (head :: tail) sel 0 head.2 marked ranked hmark hrank hstop]
        | cons top rest =>
          simp only []
          by_cases hc : top.1 ≥ L.kMinAddPointNum ∧
              (use_frontier = true → top.1 ≥ L.kMinAddFrontierPointNum)
          · have hcont : SpecContinues L use_frontier (E.SortInRev ranked) := by
              refine ⟨top, rest, hs, ?_⟩
              cases use_frontier with
              | true =>
                simp only [if_true]
                exact ⟨hc.1, hc.2 rfl⟩
              | false =>
                simp only [Bool.false_eq_true, if_false]
                exact hc.1
            rw [SelectViewPointLoop_goes_on E M L gen queue use_frontier fuel k covered_copy
              (head :: tail) sel 0 head.2 marked ranked hmark hrank hcont, if_pos hc, hs]
            unfold NextPick
            rw [DrawQueueIdx_unit_range L gen k _ hrange hcount]
            simp only [List.getElem?_cons_zero]
            exact SelectViewPointLoop_eq_greedy E M L gen queue use_frontier hrange hcount
              fuel (k + 1) marked top rest (sel ++ [head.2])
          · have hstop : ¬ SpecContinues L use_frontier (E.SortInRev ranked) := by
              rintro ⟨top', rest', h, hge⟩
              rw [hs] at h
              simp only [List.cons.injEq] at h
              rw [← h.1] at hge
              apply hc
              cases use_frontier with
              | true =>
                simp only [if_true] at hge
                exact ⟨hge.1, fun _ => hge.2⟩
              | false =>
                simp only [Bool.false_eq_true, if_false] at hge
                exact ⟨hge, fun h => absurd h (by simp)⟩
            rw [SelectViewPointLoop_stops E M L gen queue use_frontier fuel k covered_copy
              (head :: tail) sel 0 head.2 marked ranked hmark hrank hstop, if_neg hc]

/-- With a sample range of `1`, `SelectViewPoint` is the deterministic greedy selection. -/
theorem SelectViewPoint_eq_greedy (E : Collaborators P) (M : ViewPointManager P)
    (L : LocalCoveragePlanner P) (gen : Nat → Nat) (queue : List (Int × Int))
    (covered : List Bool) (sel : List Int) (use_frontier : Bool)
    (hrange : L.kGreedyViewPointSampleRange = 1) :
    SelectViewPoint E M L gen queue covered sel use_frontier =
      SpecGreedy E M L queue covered sel use_frontier := by
  cases queue with
  | nil => rfl
  | cons head tail =>
    by_cases hlt : head.1 < SpecMinGain L use_frontier
    · rw [SelectViewPoint_of_gate_closed E M L gen (head :: tail) covered sel use_frontier
        (Or.inr ⟨head, tail, rfl, hlt⟩)]
      unfold SpecGreedy
      simp only []
      rw [if_pos hlt]
    · have hcount := CountSampleRange_pos L use_frontier head tail hlt
      have hg : ¬ ((if use_frontier then decide (head.1 < L.kMinAddFrontierPointNum)
          else decide (head.1 < L.kMinAddPointNum)) = true) := by
        unfold SpecMinGain at hlt
        cases use_frontier with
        | true => simpa using hlt
        | false => simpa using hlt
      unfold SelectViewPoint SpecGreedy
      simp only []
      rw [if_neg hg, if_neg hlt, DrawQueueIdx_unit_range L gen 0 _ hrange hcount]
      simp only [List.getElem?_cons_zero]
      exact SelectViewPointLoop_eq_greedy E M L gen (head :: tail) use_frontier hrange hcount
        (head :: tail).length 1 covered head tail sel

/-- C22: with `kGreedyViewPointSampleRange = 1`, `SelectViewPoint` is a deterministic greedy:
for every queue and bitmap it equals the selection that picks the head of the working queue in
every round, whatever the random generator; every draw made with the gate open is index `0`;
and two calls that differ in the generator alone give the same result. -/
theorem SelectViewPoint_sample_range_one (E : Collaborators P) (M : ViewPointManager P)
    (L : LocalCoveragePlanner P) (queue : List (Int × Int)) (covered : List Bool)
    (sel : List Int) (use_frontier : Bool)
    (hrange : L.kGreedyViewPointSampleRange = 1) :
    (∀ gen : Nat → Nat, SelectViewPoint E M L gen queue covered sel use_frontier =
      SpecGreedy E M L queue covered sel use_frontier) ∧
    (¬ SpecGateClosed L queue use_frontier → ∀ (gen : Nat → Nat) (k : Nat),
      DrawQueueIdx gen k
        (min L.kGreedyViewPointSampleRange (CountSampleRange L queue use_frontier)) =
          Except.ok 0) ∧
    (∀ gen gen' : Nat → Nat, SelectViewPoint E M L gen queue covered sel use_frontier =
      SelectViewPoint E M L gen' queue covered sel use_frontier) := by
  refine ⟨fun gen => SelectViewPoint_eq_greedy E M L gen queue covered sel use_frontier hrange,
    ?_, fun gen gen' => ?_⟩
  · intro hopen gen k
    cases queue with
    | nil => exact absurd (Or.inl rfl) hopen
    | cons head tail =>
      have hlt : ¬ head.1 < SpecMinGain L use_frontier :=
        fun h => hopen (Or.inr ⟨head, tail, rfl, h⟩)
      exact DrawQueueIdx_unit_range L gen k _ hrange
        (CountSampleRange_pos L use_frontier head tail hlt)
  · rw [SelectViewPoint_eq_greedy E M L gen queue covered sel use_frontier hrange,
      SelectViewPoint_eq_greedy E M L gen' queue covered sel use_frontier hrange]

/-- Instance of C22: on the demo queue the picks are `1, 2, 3`, the heads of the working queue
in turn, for the generator that always returns `0` and for the one that returns its count. -/
theorem SelectViewPoint_sample_range_one_witness :
    DemoPlanner.kGreedyViewPointSampleRange = 1 ∧
    SpecGreedy DemoCollaborators DemoManager DemoPlanner [(3, 1), (2, 2), (1, 3)]
        (List.replicate 6 false) [] false = Except.ok [1, 2, 3] ∧
    SelectViewPoint DemoCollaborators DemoManager DemoPlanner (fun _ => 0)
        [(3, 1), (2, 2), (1, 3)] (List.replicate 6 false) [] false =
      SelectViewPoint DemoCollaborators DemoManager DemoPlanner (fun k => k + 7)
        [(3, 1), (2, 2), (1, 3)] (List.replicate 6 false) [] false :=
  ⟨rfl, rfl,
    (SelectViewPoint_sample_range_one DemoCollaborators DemoManager DemoPlanner
      [(3, 1), (2, 2), (1, 3)] (List.replicate 6 false) [] false rfl).2.2
      (fun _ => 0) (fun k => k + 7)⟩

/-! ## Draws past the working queue -/

/-- C25 at its failing input: the demo planner with a sample range of `2` and the queue
`(3, 1), (2, 2), (1, 3)` that the sampling stage builds.  After two picks the working queue
holds the one entry `(1, 3)`; the sample range of the third draw is counted over the original
queue and is `2`; the draw `1` reads past the end of the working queue. -/
theorem SelectViewPoint_draw_past_working_queue :
    ∃ S : Sampling Int,
      SampleViewPoints DemoCollaborators DemoManager RangeTwoPlanner [] 6 0 = Except.ok S ∧
      S.queue = [(3, 1), (2, 2), (1, 3)] ∧
      S.covered = List.replicate 6 false ∧
      DrawQueueIdx (fun k => if k = 2 then 1 else 0) 2
          (min S.planner.kGreedyViewPointSampleRange
            (CountSampleRange S.planner S.queue false)) = Except.ok 1 ∧
      NextPick DemoCollaborators DemoManager S.planner (fun k => if k = 2 then 1 else 0)
          S.queue false 1 2 [true, true, true, true, true, false] [(1, 3)] [1, 2] =
        Except.error Fault.out_of_range ∧
      SelectViewPoint DemoCollaborators DemoManager S.planner
          (fun k => if k = 2 then 1 else 0) S.queue S.covered [] false =
        Except.error Fault.out_of_range ∧
      SolveLocalCoverageProblem DemoCollaborators DemoManager
          (fun _ k => if k = 2 then 1 else 0) RangeTwoPlanner (fun _ => false) [] 6 0 =
        Except.error Fault.out_of_range :=
  ⟨_, rfl, by decide, by decide, rfl, rfl, rfl, rfl⟩

/-- C26 at its failing input: the demo planner with a sample range of `2` on the manager whose
viewpoint `3` sees a point of viewpoint `1` only.  After the pick of viewpoint `1` the re-ranked
working queue is `(2, 2), (0, 3)`; the sample range of the second draw is counted over the
original queue and is `2`; the draw `1` is within the working queue and picks viewpoint `3`,
whose gain against the working bitmap is `0`, below `kMinAddPointNum = 1`. -/
theorem SelectViewPoint_picks_below_min_gain :
    ∃ S : Sampling Int,
      SampleViewPoints DemoCollaborators NestedManager RangeTwoPlanner [] 6 0 = Except.ok S ∧
      S.queue = [(3, 1), (2, 2), (1, 3)] ∧
      S.covered = List.replicate 6 false ∧
      (CoveredListOf NestedManager false (NestedManager.GetViewPointArrayInd 1)).foldlM
          MarkCovered S.covered = Except.ok [true, true, true, false, false, false] ∧
      (S.queue.eraseIdx 0).mapM
          (ReRankEntry NestedManager false [true, true, true, false, false, false]) =
        Except.ok [(2, 2), (0, 3)] ∧
      DemoCollaborators.SortInRev [(2, 2), (0, 3)] = [(2, 2), (0, 3)] ∧
      DrawQueueIdx (fun k => if k = 1 then 1 else 0) 1
          (min S.planner.kGreedyViewPointSampleRange
            (CountSampleRange S.planner S.queue false)) = Except.ok 1 ∧
      S.planner.kMinAddPointNum = 1 ∧
      SelectViewPoint DemoCollaborators NestedManager S.planner
          (fun k => if k = 1 then 1 else 0) S.queue S.covered [] false =
        Except.ok [1, 3, 2] :=
  ⟨_, rfl, by decide, by decide, rfl, rfl, rfl, rfl, rfl, rfl⟩

/-! ## Termination of the greedy selection -/

theorem MarkCovered_foldlM_error :
    ∀ (points : List Int) (bitmap : List Bool) (e : Fault),
      points.foldlM MarkCovered bitmap = Except.error e → e = Fault.assertion
  | [], bitmap, e, h => by
    simp [List.foldlM_nil, pure, Except.pure] at h
  | p :: points, bitmap, e, h => by
    rw [List.foldlM_cons] at h
    cases hm : MarkCovered bitmap p with
    | error e' =>
      rw [hm] at h
      simp only [bind, Except.bind, Except.error.injEq] at h
      unfold MarkCovered at hm
      split_ifs at hm
      simp only [Except.error.injEq] at hm
      rw [← h, ← hm]
    | ok b =>
      rw [hm] at h
      simp only [bind, Except.bind] at h
      exact MarkCovered_foldlM_error points b e h

theorem CountUncovered_foldlM_error (covered_copy : List Bool) :
    ∀ (points : List Int) (init : Int) (e : Fault),
      points.foldlM (fun add_point_num point_ind =>
        if InRange covered_copy point_ind then
          Except.ok (if covered_copy.getD point_ind.toNat false = false then add_point_num + 1
            else add_point_num)
        else
          Except.error Fault.assertion) init = Except.error e → e = Fault.assertion
  | [], init, e, h => by
    simp [List.foldlM_nil, pure, Except.pure] at h
  | p :: points, init, e, h => by
    rw [List.foldlM_cons] at h
    by_cases hin : InRange covered_copy p = true
    · simp only [hin, if_true, bind, Except.bind] at h
      exact CountUncovered_foldlM_error covered_copy points _ e h
    · simp only [hin, bind, Except.bind] at h
      simp only [Bool.false_eq_true, if_false, Except.error.injEq] at h
      exact h.symm

theorem ReRankEntry_error (M : ViewPointManager P) (use_frontier : Bool)
    (covered_copy : List Bool) (entry : Int × Int) (e : Fault)
    (h : ReRankEntry M use_frontier covered_copy entry = Except.error e) :
    e = Fault.assertion := by
  unfold ReRankEntry at h
  split at h
  · rename_i e' he'
    simp only [Except.error.injEq] at h
    unfold CountUncovered at he'
    rw [← h]
    exact CountUncovered_foldlM_error covered_copy _ 0 e' he'
  · exact absurd h (by simp)

theorem ReRankEntry_mapM_error (M : ViewPointManager P) (use_frontier : Bool)
    (covered_copy : List Bool) :
    ∀ (queue_copy : List (Int × Int)) (e : Fault),
      queue_copy.mapM (ReRankEntry M use_frontier covered_copy) = Except.error e →
      e = Fault.assertion
  | [], e, h => by
    rw [List.mapM_nil] at h
    cases h
  | entry :: queue_copy, e, h => by
    rw [List.mapM_cons] at h
    cases h1 : ReRankEntry M use_frontier covered_copy entry with
    | error e' =>
      rw [h1] at h
      simp only [bind, Except.bind, Except.error.injEq] at h
      rw [← h]
      exact ReRankEntry_error M use_frontier covered_copy entry e' h1
    | ok x =>
      rw [h1] at h
      simp only [bind, Except.bind] at h
      cases h2 : queue_copy.mapM (ReRankEntry M use_frontier covered_copy) with
      | error e' =>
        rw [h2] at h
        simp only [Except.error.injEq] at h
        rw [← h]
        exact ReRankEntry_mapM_error M use_frontier covered_copy queue_copy e' h2
      | ok xs =>
        rw [h2] at h
        simp [pure, Except.pure] at h

theorem DrawQueueIdx_error (gen : Nat → Nat) (k : Nat) (sample_range : Int) (e : Fault)
    (h : DrawQueueIdx gen k sample_range = Except.error e) : e = Fault.distribution := by
  unfold DrawQueueIdx at h
  split_ifs at h
  simp only [Except.error.injEq] at h
  exact h.symm

/-- The loop of `SelectViewPoint` never runs out of the fuel `queue_copy.size()`: a round takes
one entry out of the working queue and the sort keeps the number of entries. -/
theorem SelectViewPointLoop_never_fuel (E : Collaborators P) (M : ViewPointManager P)
    (L : LocalCoveragePlanner P) (gen : Nat → Nat) (queue : List (Int × Int))
    (use_frontier : Bool)
    (hlen : ∀ l : List (Int × Int), (E.SortInRev l).length = l.length) :
    ∀ (fuel k : Nat) (covered_copy : List Bool) (queue_copy : List (Int × Int))
      (sel : List Int) (queue_idx : Nat) (cur_ind : Int),
      queue_copy.length ≤ fuel → queue_idx < queue_copy.length →
      SelectViewPointLoop E M L gen queue use_frontier fuel k covered_copy queue_copy sel
        queue_idx cur_ind ≠ Except.error Fault.fuel
  | 0, _, _, queue_copy, _, queue_idx, _, hfuel, hidx => by omega
  | fuel + 1, k, covered_copy, queue_copy, sel, queue_idx, cur_ind, hfuel, hidx => by
    cases hmark : (CoveredListOf M use_frontier (M.GetViewPointArrayInd cur_ind)).foldlM
        MarkCovered covered_copy with
    | error e =>
      rw [SelectViewPointLoop_mark_error E M L gen queue use_frontier fuel k covered_copy
        queue_copy sel queue_idx cur_ind e hmark, MarkCovered_foldlM_error _ _ e hmark]
      simp
    | ok marked =>
      cases hrank : (queue_copy.eraseIdx queue_idx).mapM
          (ReRankEntry M use_frontier marked) with
      | error e =>
        rw [SelectViewPointLoop_rank_error E M L gen queue use_frontier fuel k covered_copy
          queue_copy sel queue_idx cur_ind marked e hmark hrank,
          ReRankEntry_mapM_error M use_frontier marked _ e hrank]
        simp
      | ok ranked =>
        by_cases hcont : SpecContinues L use_frontier (E.SortInRev ranked)
        · rw [SelectViewPointLoop_goes_on E M L gen queue use_frontier fuel k covered_copy
            queue_copy sel queue_idx cur_ind marked ranked hmark hrank hcont]
          have hrlen : (E.SortInRev ranked).length ≤ fuel := by
            have h1 : ranked.length = (queue_copy.eraseIdx queue_idx).length := by
              have := congrArg List.length
                (ReRankEntry_mapM_ids M use_frontier marked _ ranked hrank)
              simpa using this
            rw [hlen, h1, List.length_eraseIdx, if_pos hidx]
            omega
          unfold NextPick
          cases hdraw : DrawQueueIdx gen k
              (min L.kGreedyViewPointSampleRange (CountSampleRange L queue use_frontier)) with
          | error e =>
            simp only []
            rw [DrawQueueIdx_error gen k _ e hdraw]
            simp
          | ok idx' =>
            simp only []
            cases hread : (E.SortInRev ranked)[idx']? with
            | none => simp
            | some entry =>
              simp only []
              have hidx' : idx' < (E.SortInRev ranked).length := by
                by_contra hge
                rw [List.getElem?_eq_none (by omega)] at hread
                exact absurd hread (by simp)
              exact SelectViewPointLoop_never_fuel E M L gen queue use_frontier hlen fuel
                (k + 1) marked (E.SortInRev ranked) (sel ++ [cur_ind]) idx' entry.2 hrlen hidx'
        · rw [SelectViewPointLoop_stops E M L gen queue use_frontier fuel k covered_copy
            queue_copy sel queue_idx cur_ind marked ranked hmark hrank hcont]
          simp

/-- The fuel `queue.size()` given to the loop by `SelectViewPoint` is never used up. -/
theorem SelectViewPoint_never_fuel (E : Collaborators P) (M : ViewPointManager P)
    (L : LocalCoveragePlanner P) (gen : Nat → Nat) (queue : List (Int × Int))
    (covered : List Bool) (sel : List Int) (use_frontier : Bool)
    (hlen : ∀ l : List (Int × Int), (E.SortInRev l).length = l.length) :
    SelectViewPoint E M L gen queue covered sel use_frontier ≠ Except.error Fault.fuel := by
  cases queue with
  | nil => simp [SelectViewPoint]
  | cons top rest =>
    unfold SelectViewPoint
    simp only []
    by_cases hg : (if use_frontier then decide (top.1 < L.kMinAddFrontierPointNum)
        else decide (top.1 < L.kMinAddPointNum)) = true
    · rw [if_pos hg]
      simp
    · rw [if_neg hg]
      cases hdraw : DrawQueueIdx gen 0
          (min L.kGreedyViewPointSampleRange (CountSampleRange L (top :: rest) use_frontier)) with
      | error e =>
        simp only []
        rw [DrawQueueIdx_error gen 0 _ e hdraw]
        simp
      | ok idx =>
        simp only []
        cases hread : (top :: rest)[idx]? with
        | none => simp
        | some entry =>
          simp only []
          have hidx : idx < (top :: rest).length := by
            by_contra hge
            rw [List.getElem?_eq_none (by omega)] at hread
            exact absurd hread (by simp)
          exact SelectViewPointLoop_never_fuel E M L gen (top :: rest) use_frontier hlen
            (top :: rest).length 1 covered (top :: rest) sel idx entry.2 (le_refl _) hidx

theorem not_mem_eraseIdx_of_nodup_map {α β : Type} (f : α → β) :
    ∀ (l : List α) (idx : Nat) (e : α), (l.map f).Nodup → l[idx]? = some e →
      f e ∉ (l.eraseIdx idx).map f
  | [], idx, e, _, h => by simp at h
  | a :: l, 0, e, hnd, h => by
    simp only [List.getElem?_cons_zero, Option.some.injEq] at h
    rw [← h]
    rw [List.map_cons, List.nodup_cons] at hnd
    exact hnd.1
  | a :: l, idx + 1, e, hnd, h => by
    simp only [List.getElem?_cons_succ] at h
    rw [List.map_cons, List.nodup_cons] at hnd
    rw [List.eraseIdx_cons_succ, List.map_cons, List.mem_cons]
    rintro (h1 | h2)
    · apply hnd.1
      rw [← h1]
      exact List.mem_map.mpr ⟨e, List.getElem?_mem h, rfl⟩
    · exact not_mem_eraseIdx_of_nodup_map f l idx e hnd.2 h h2

theorem lt_length_of_getElem?_eq_some {α : Type} (l : List α) (idx : Nat) (e : α)
    (h : l[idx]? = some e) : idx < l.length := by
  by_contra hge
  rw [List.getElem?_eq_none (by omega)] at h
  exact absurd h (by simp)

/-- The picks of the loop of `SelectViewPoint`: the pick of the round, then ids of the other
entries of the working queue, one round per entry at most and no id twice when the ids of the
working queue are distinct. -/
theorem SelectViewPointLoop_bounded (E : Collaborators P) (M : ViewPointManager P)
    (L : LocalCoveragePlanner P) (gen : Nat → Nat) (queue : List (Int × Int))
    (use_frontier : Bool)
    (hperm : ∀ l : List (Int × Int), (E.SortInRev l).Perm l) :
    ∀ (fuel k : Nat) (covered_copy : List Bool) (queue_copy : List (Int × Int))
      (sel : List Int) (queue_idx : Nat) (cur_ind : Int) (out : List Int),
      (∃ entry, queue_copy[queue_idx]? = some entry ∧ entry.2 = cur_ind) →
      SelectViewPointLoop E M L gen queue use_frontier fuel k covered_copy queue_copy sel
          queue_idx cur_ind = Except.ok out →
        ∃ app : List Int, out = sel ++ cur_ind :: app ∧
          app.length + 1 ≤ queue_copy.length ∧
          (∀ v ∈ app, v ∈ (queue_copy.eraseIdx queue_idx).map Prod.snd) ∧
          ((queue_copy.map Prod.snd).Nodup → (cur_ind :: app).Nodup)
  | 0, _, _, _, _, _, _, _, _, h => by simp [SelectViewPointLoop] at h
  | fuel + 1, k, covered_copy, queue_copy, sel, queue_idx, cur_ind, out, hcur, h => by
    obtain ⟨entry0, hread0, hentry0⟩ := hcur
    have hidx := lt_length_of_getElem?_eq_some queue_copy queue_idx entry0 hread0
    cases hmark : (CoveredListOf M use_frontier (M.GetViewPointArrayInd cur_ind)).foldlM
        MarkCovered covered_copy with
    | error e =>
      rw [SelectViewPointLoop_mark_error E M L gen queue use_frontier fuel k covered_copy
        queue_copy sel queue_idx cur_ind e hmark] at h
      exact absurd h (by simp)
    | ok marked =>
      cases hrank : (queue_copy.eraseIdx queue_idx).mapM
          (ReRankEntry M use_frontier marked) with
      | error e =>
        rw [SelectViewPointLoop_rank_error E M L gen queue use_frontier fuel k covered_copy
          queue_copy sel queue_idx cur_ind marked e hmark hrank] at h
        exact absurd h (by simp)
      | ok ranked =>
        by_cases hcont : SpecContinues L use_frontier (E.SortInRev ranked)
        · rw [SelectViewPointLoop_goes_on E M L gen queue use_frontier fuel k covered_copy
            queue_copy sel queue_idx cur_ind marked ranked hmark hrank hcont] at h
          have hids := ReRankEntry_mapM_ids M use_frontier marked _ ranked hrank
          have hsids : ((E.SortInRev ranked).map Prod.snd).Perm
              ((queue_copy.eraseIdx queue_idx).map Prod.snd) := by
            rw [← hids]
            exact (hperm ranked).map Prod.snd
          have hslen : (E.SortInRev ranked).length + 1 = queue_copy.length := by
            have h1 := hsids.length_eq
            simp only [List.length_map] at h1
            rw [h1, List.length_eraseIdx, if_pos hidx]
            omega
          unfold NextPick at h
          split at h
          · exact absurd h (by simp)
          · split at h
            · exact absurd h (by simp)
            · rename_i idx' _ _ entry hread
              obtain ⟨app, happ, hlen, hsub, hnd⟩ := SelectViewPointLoop_bounded E M L gen queue
                use_frontier hperm fuel (k + 1) marked (E.SortInRev ranked) (sel ++ [cur_ind])
                idx' entry.2 out ⟨entry, hread, rfl⟩ h
              have hin : ∀ v ∈ entry.2 :: app,
                  v ∈ (queue_copy.eraseIdx queue_idx).map Prod.snd := by
                intro v hv
                apply hsids.mem_iff.mp
                rcases List.mem_cons.mp hv with hv1 | hv2
                · rw [hv1]
                  exact List.mem_map.mpr ⟨entry, List.getElem?_mem hread, rfl⟩
                · rcases List.mem_map.mp (hsub v hv2) with ⟨e', he', heq⟩
                  exact List.mem_map.mpr ⟨e', List.mem_of_mem_eraseIdx he', heq⟩
              refine ⟨entry.2 :: app, by simp [happ], ?_, hin, ?_⟩
              · simp only [List.length_cons]
                omega
              · intro hqnd
                have hend : ((queue_copy.eraseIdx queue_idx).map Prod.snd).Nodup :=
                  hqnd.sublist ((List.eraseIdx_sublist queue_copy queue_idx).map Prod.snd)
                have hsnd : ((E.SortInRev ranked).map Prod.snd).Nodup :=
                  hsids.nodup_iff.mpr hend
                refine List.nodup_cons.mpr ⟨?_, hnd hsnd⟩
                intro hmem
                have := not_mem_eraseIdx_of_nodup_map Prod.snd queue_copy queue_idx entry0
                  hqnd hread0
                rw [hentry0] at this
                exact this (hin cur_ind hmem)
        · rw [SelectViewPointLoop_stops E M L gen queue use_frontier fuel k covered_copy
            queue_copy sel queue_idx cur_ind marked ranked hmark hrank hcont] at h
          simp only [Except.ok.injEq] at h
          refine ⟨[], by simp [← h], ?_, by simp, fun _ => by simp⟩
          simp only [List.length_nil]
          omega

/-- The picks of `SelectViewPoint`: ids of entries of the queue, at most one per entry, no id
twice when the ids of the queue are distinct. -/
theorem SelectViewPoint_bounded (E : Collaborators P) (M : ViewPointManager P)
    (L : LocalCoveragePlanner P) (gen : Nat → Nat) (queue : List (Int × Int))
    (covered : List Bool) (sel : List Int) (use_frontier : Bool) (out : List Int)
    (hperm : ∀ l : List (Int × Int), (E.SortInRev l).Perm l)
    (h : SelectViewPoint E M L gen queue covered sel use_frontier = Except.ok out) :
    ∃ app : List Int, out = sel ++ app ∧ app.length ≤ queue.length ∧
      (∀ v ∈ app, v ∈ queue.map Prod.snd) ∧ ((queue.map Prod.snd).Nodup → app.Nodup) := by
  cases queue with
  | nil =>
    simp only [SelectViewPoint, Except.ok.injEq] at h
    exact ⟨[], by simp [← h], by simp, by simp, fun _ => by simp⟩
  | cons top rest =>
    unfold SelectViewPoint at h
    simp only [] at h
    by_cases hg : (if use_frontier then decide (top.1 < L.kMinAddFrontierPointNum)
        else decide (top.1 < L.kMinAddPointNum)) = true
    · rw [if_pos hg] at h
      simp only [Except.ok.injEq] at h
      exact ⟨[], by simp [← h], by simp, by simp, fun _ => by simp⟩
    · rw [if_neg hg] at h
      split at h
      · exact absurd h (by simp)
      · split at h
        · exact absurd h (by simp)
        · rename_i idx _ _ entry hread
          obtain ⟨app, happ, hlen, hsub, hnd⟩ := SelectViewPointLoop_bounded E M L gen
            (top :: rest) use_frontier hperm _ 1 covered (top :: rest) sel idx entry.2 out
            ⟨entry, hread, rfl⟩ h
          refine ⟨entry.2 :: app, happ, ?_, ?_, hnd⟩
          · simp only [List.length_cons] at hlen ⊢
            omega
          · intro v hv
            rcases List.mem_cons.mp hv with hv1 | hv2
            · rw [hv1]
              exact List.mem_map.mpr ⟨entry, List.getElem?_mem hread, rfl⟩
            · rcases List.mem_map.mp (hsub v hv2) with ⟨e', he', heq⟩
              exact List.mem_map.mpr ⟨e', List.mem_of_mem_eraseIdx he', heq⟩

theorem DrawQueueIdx_ok (L : LocalCoveragePlanner P) (gen : Nat → Nat) (k : Nat) (count : Int)
    (hrange : 1 ≤ L.kGreedyViewPointSampleRange) (hcount : 1 ≤ count) :
    ∃ idx, DrawQueueIdx gen k (min L.kGreedyViewPointSampleRange count) = Except.ok idx := by
  unfold DrawQueueIdx
  have hpos : ¬ min L.kGreedyViewPointSampleRange count ≤ 0 := by
    have := le_min hrange hcount
    omega
  rw [if_neg hpos]
  exact ⟨_, rfl⟩

/-- With a sample range of at least `1`, an entry of the queue at the threshold, a sort that
permutes and covered points within the bitmap, the loop of `SelectViewPoint` returns a list
unless a draw reads past the end of the working queue. -/
theorem SelectViewPointLoop_ok_or_out_of_range (E : Collaborators P) (M : ViewPointManager P)
    (L : LocalCoveragePlanner P) (gen : Nat → Nat) (queue : List (Int × Int))
    (use_frontier : Bool) (n : Nat)
    (hperm : ∀ l : List (Int × Int), (E.SortInRev l).Perm l)
    (hrange : 1 ≤ L.kGreedyViewPointSampleRange)
    (hcount : 1 ≤ CountSampleRange L queue use_frontier) :
    ∀ (fuel k : Nat) (covered_copy : List Bool) (queue_copy : List (Int × Int))
      (sel : List Int) (queue_idx : Nat) (cur_ind : Int),
      covered_copy.length = n → queue_copy.length ≤ fuel → queue_idx < queue_copy.length →
      cur_ind ∈ queue_copy.map Prod.snd →
      (∀ v ∈ queue_copy.map Prod.snd,
        ∀ p ∈ CoveredListOf M use_frontier (M.GetViewPointArrayInd v),
          0 ≤ p ∧ p < (n : Int)) →
      (∃ out, SelectViewPointLoop E M L gen queue use_frontier fuel k covered_copy queue_copy
        sel queue_idx cur_ind = Except.ok out) ∨
      SelectViewPointLoop E M L gen queue use_frontier fuel k covered_copy queue_copy
        sel queue_idx cur_ind = Except.error Fault.out_of_range
  | 0, _, _, queue_copy, _, queue_idx, _, _, hfuel, hidx, _, _ => by omega
  | fuel + 1, k, covered_copy, queue_copy, sel, queue_idx, cur_ind, hlen, hfuel, hidx, hcur,
      hpts => by
    obtain ⟨marked, hmark, hmlen⟩ := MarkCovered_foldlM_ok
      (CoveredListOf M use_frontier (M.GetViewPointArrayInd cur_ind)) covered_copy
      (by rw [hlen]; exact hpts cur_ind hcur)
    have hsubids : ∀ v ∈ (queue_copy.eraseIdx queue_idx).map Prod.snd,
        v ∈ queue_copy.map Prod.snd := by
      intro v hv
      rcases List.mem_map.mp hv with ⟨e, he, rfl⟩
      exact List.mem_map.mpr ⟨e, List.mem_of_mem_eraseIdx he, rfl⟩
    obtain ⟨ranked, hrank⟩ := ReRankEntry_mapM_ok M use_frontier marked
      (queue_copy.eraseIdx queue_idx)
      (by
        intro v hv
        rw [hmlen, hlen]
        exact hpts v (hsubids v hv))
    by_cases hcont : SpecContinues L use_frontier (E.SortInRev ranked)
    · rw [SelectViewPointLoop_goes_on E M L gen queue use_frontier fuel k covered_copy
        queue_copy sel queue_idx cur_ind marked ranked hmark hrank hcont]
      have hids := ReRankEntry_mapM_ids M use_frontier marked _ ranked hrank
      have hsids : ((E.SortInRev ranked).map Prod.snd).Perm
          ((queue_copy.eraseIdx queue_idx).map Prod.snd) := by
        rw [← hids]
        exact (hperm ranked).map Prod.snd
      have hslen : (E.SortInRev ranked).length ≤ fuel := by
        have h1 := hsids.length_eq
        simp only [List.length_map] at h1
        rw [h1, List.length_eraseIdx, if_pos hidx]
        omega
      obtain ⟨idx', hdraw⟩ := DrawQueueIdx_ok L gen k _ hrange hcount
      unfold NextPick
      rw [hdraw]
      simp only []
      cases hread : (E.SortInRev ranked)[idx']? with
      | none => exact Or.inr rfl
      | some entry =>
        simp only []
        exact SelectViewPointLoop_ok_or_out_of_range E M L gen queue use_frontier n hperm
          hrange hcount fuel (k + 1) marked (E.SortInRev ranked) (sel ++ [cur_ind]) idx'
          entry.2 (by rw [hmlen, hlen]) hslen
          (lt_length_of_getElem?_eq_some _ _ _ hread)
          (List.mem_map.mpr ⟨entry, List.getElem?_mem hread, rfl⟩)
          (fun v hv => hpts v (hsubids v (hsids.mem_iff.mp hv)))
    · exact Or.inl ⟨_, SelectViewPointLoop_stops E M L gen queue use_frontier fuel k
        covered_copy queue_copy sel queue_idx cur_ind marked ranked hmark hrank hcont⟩

theorem SelectViewPoint_ok_or_out_of_range (E : Collaborators P) (M : ViewPointManager P)
    (L : LocalCoveragePlanner P) (gen : Nat → Nat) (queue : List (Int × Int))
    (covered : List Bool) (sel : List Int) (use_frontier : Bool)
    (hperm : ∀ l : List (Int × Int), (E.SortInRev l).Perm l)
    (hrange : 1 ≤ L.kGreedyViewPointSampleRange)
    (hpts : ∀ v ∈ queue.map Prod.snd,
      ∀ p ∈ CoveredListOf M use_frontier (M.GetViewPointArrayInd v),
        0 ≤ p ∧ p < (covered.length : Int)) :
    (∃ out, SelectViewPoint E M L gen queue covered sel use_frontier = Except.ok out) ∨
    SelectViewPoint E M L gen queue covered sel use_frontier =
      Except.error Fault.out_of_range := by
  by_cases hclosed : SpecGateClosed L queue use_frontier
  · exact Or.inl ⟨sel, SelectViewPoint_of_gate_closed E M L gen queue covered sel use_frontier
      hclosed⟩
  · cases queue with
    | nil => exact absurd (Or.inl rfl) hclosed
    | cons top rest =>
      have htop : ¬ top.1 < SpecMinGain L use_frontier :=
        fun hlt => hclosed (Or.inr ⟨top, rest, rfl, hlt⟩)
      have hcount := CountSampleRange_pos L use_frontier top rest htop
      have hg : ¬ ((if use_frontier then decide (top.1 < L.kMinAddFrontierPointNum)
          else decide (top.1 < L.kMinAddPointNum)) = true) := by
        unfold SpecMinGain at htop
        cases use_frontier with
        | true => simpa using htop
        | false => simpa using htop
      obtain ⟨idx, hdraw⟩ := DrawQueueIdx_ok L gen 0 _ hrange hcount
      unfold SelectViewPoint
      simp only []
      rw [if_neg hg, hdraw]
      simp only []
      cases hread : (top :: rest)[idx]? with
      | none => exact Or.inr rfl
      | some entry =>
        simp only []
        exact SelectViewPointLoop_ok_or_out_of_range E M L gen (top :: rest) use_frontier
          covered.length hperm hrange hcount (top :: rest).length 1 covered (top :: rest) sel
          idx entry.2 rfl (le_refl _) (lt_length_of_getElem?_eq_some _ _ _ hread)
          (List.mem_map.mpr ⟨entry, List.getElem?_mem hread, rfl⟩) hpts

/-- C27: `SelectViewPoint` terminates for every queue, bitmap and generator: a round of its loop
takes one entry out of the working queue, which the sort only permutes, so the `queue.size()`
rounds it is given are never used up.  With a sample range of at least `1` and covered points
within the bitmap the call returns its list unless a draw reads past the end of the working
queue.  The ids it appends are ids of entries of the queue, at most `queue.size()` of them, and
no id twice when the ids of the queue are pairwise distinct. -/
theorem SelectViewPoint_terminates (E : Collaborators P) (M : ViewPointManager P)
    (L : LocalCoveragePlanner P) (gen : Nat → Nat) (queue : List (Int × Int))
    (covered : List Bool) (sel : List Int) (use_frontier : Bool)
    (hperm : ∀ l : List (Int × Int), (E.SortInRev l).Perm l) :
    SelectViewPoint E M L gen queue covered sel use_frontier ≠ Except.error Fault.fuel ∧
    (1 ≤ L.kGreedyViewPointSampleRange →
      (∀ v ∈ queue.map Prod.snd,
        ∀ p ∈ CoveredListOf M use_frontier (M.GetViewPointArrayInd v),
          0 ≤ p ∧ p < (covered.length : Int)) →
      (∃ out, SelectViewPoint E M L gen queue covered sel use_frontier = Except.ok out) ∨
      SelectViewPoint E M L gen queue covered sel use_frontier =
        Except.error Fault.out_of_range) ∧
    (∀ out, SelectViewPoint E M L gen queue covered sel use_frontier = Except.ok out →
      ∃ app : List Int, out = sel ++ app ∧ app.length ≤ queue.length ∧
        (∀ v ∈ app, v ∈ queue.map Prod.snd) ∧ ((queue.map Prod.snd).Nodup → app.Nodup)) :=
  ⟨SelectViewPoint_never_fuel E M L gen queue covered sel use_frontier
      (fun l => (hperm l).length_eq),
    fun hrange hpts => SelectViewPoint_ok_or_out_of_range E M L gen queue covered sel
      use_frontier hperm hrange hpts,
    fun out h => SelectViewPoint_bounded E M L gen queue covered sel use_frontier out hperm h⟩

/-- Instance of C27: the demo planner with a sample range of `2` and the draws `1, 0, 0` picks
viewpoints `2, 1, 3` from the queue `(3, 1), (2, 2), (1, 3)` in three rounds. -/
theorem SelectViewPoint_terminates_witness :
    SelectViewPoint DemoCollaborators DemoManager RangeTwoPlanner
        (fun k => if k = 0 then 1 else 0) [(3, 1), (2, 2), (1, 3)] (List.replicate 6 false)
        [] false = Except.ok [2, 1, 3] ∧
    (SelectViewPoint DemoCollaborators DemoManager RangeTwoPlanner
        (fun k => if k = 0 then 1 else 0) [(3, 1), (2, 2), (1, 3)] (List.replicate 6 false)
        [] false ≠ Except.error Fault.fuel ∧
    (1 ≤ RangeTwoPlanner.kGreedyViewPointSampleRange →
      (∀ v ∈ ([(3, 1), (2, 2), (1, 3)] : List (Int × Int)).map Prod.snd,
        ∀ p ∈ CoveredListOf DemoManager false (DemoManager.GetViewPointArrayInd v),
          0 ≤ p ∧ p < ((List.replicate 6 false).length : Int)) →
      (∃ out, SelectViewPoint DemoCollaborators DemoManager RangeTwoPlanner
        (fun k => if k = 0 then 1 else 0) [(3, 1), (2, 2), (1, 3)] (List.replicate 6 false)
        [] false = Except.ok out) ∨
      SelectViewPoint DemoCollaborators DemoManager RangeTwoPlanner
        (fun k => if k = 0 then 1 else 0) [(3, 1), (2, 2), (1, 3)] (List.replicate 6 false)
        [] false = Except.error Fault.out_of_range) ∧
    (∀ out, SelectViewPoint DemoCollaborators DemoManager RangeTwoPlanner
        (fun k => if k = 0 then 1 else 0) [(3, 1), (2, 2), (1, 3)] (List.replicate 6 false)
        [] false = Except.ok out →
      ∃ app : List Int, out = [] ++ app ∧
        app.length ≤ ([(3, 1), (2, 2), (1, 3)] : List (Int × Int)).length ∧
        (∀ v ∈ app, v ∈ ([(3, 1), (2, 2), (1, 3)] : List (Int × Int)).map Prod.snd) ∧
        ((([(3, 1), (2, 2), (1, 3)] : List (Int × Int)).map Prod.snd).Nodup → app.Nodup))) :=
  ⟨rfl,
    SelectViewPoint_terminates DemoCollaborators DemoManager RangeTwoPlanner
      (fun k => if k = 0 then 1 else 0) [(3, 1), (2, 2), (1, 3)] (List.replicate 6 false)
      [] false (fun l => List.perm_insertionSort _ l)⟩

/-! ## Node types -/

theorem SpecPairNodes_ends (M : ViewPointManager P) (L : LocalCoveragePlanner P) (u v : Int) :
    (SpecPairNodes M L u v).head? = some (CurNode M L u) ∧
      (SpecPairNodes M L u v).getLast? = some (NextNode M L v) := by
  unfold SpecPairNodes
  constructor
  · simp
  · rw [List.getLast?_append]
    simp

theorem CurNode_type (M : ViewPointManager P) (L : LocalCoveragePlanner P) (cur : Int) :
    (cur = L.robot_viewpoint_ind_ → (CurNode M L cur).type_ = NodeType.ROBOT) ∧
    (cur ≠ L.robot_viewpoint_ind_ → cur = L.lookahead_viewpoint_ind_ →
      (M.GetViewPointCoveredPointNum cur > L.kMinAddPointNum ∨
        M.GetViewPointCoveredFrontierPointNum cur > L.kMinAddFrontierPointNum) →
      (CurNode M L cur).type_ = NodeType.LOCAL_VIEWPOINT) ∧
    (cur ≠ L.robot_viewpoint_ind_ → cur = L.lookahead_viewpoint_ind_ →
      ¬ (M.GetViewPointCoveredPointNum cur > L.kMinAddPointNum ∨
        M.GetViewPointCoveredFrontierPointNum cur > L.kMinAddFrontierPointNum) →
      (CurNode M L cur).type_ = NodeType.LOOKAHEAD_POINT) ∧
    (cur ≠ L.robot_viewpoint_ind_ → cur ≠ L.lookahead_viewpoint_ind_ →
      cur = L.start_viewpoint_ind_ → (CurNode M L cur).type_ = NodeType.LOCAL_PATH_START) ∧
    (cur ≠ L.robot_viewpoint_ind_ → cur ≠ L.lookahead_viewpoint_ind_ →
      cur ≠ L.start_viewpoint_ind_ → cur = L.end_viewpoint_ind_ →
      (CurNode M L cur).type_ = NodeType.LOCAL_PATH_END) ∧
    (cur ≠ L.robot_viewpoint_ind_ → cur ≠ L.lookahead_viewpoint_ind_ →
      cur ≠ L.start_viewpoint_ind_ → cur ≠ L.end_viewpoint_ind_ →
      (CurNode M L cur).type_ = NodeType.LOCAL_VIEWPOINT) := by
  refine ⟨?_, ?_, ?_, ?_, ?_, ?_⟩
  · intro h1
    unfold CurNode
    simp only []
    rw [if_pos h1]
  · intro h1 h2 h3
    unfold CurNode
    simp only []
    rw [if_neg h1, if_pos h2, if_pos h3]
  · intro h1 h2 h3
    unfold CurNode
    simp only []
    rw [if_neg h1, if_pos h2, if_neg h3]
  · intro h1 h2 h3
    unfold CurNode
    simp only []
    rw [if_neg h1, if_neg h2, if_pos h3]
  · intro h1 h2 h3 h4
    unfold CurNode
    simp only []
    rw [if_neg h1, if_neg h2, if_neg h3, if_pos h4]
  · intro h1 h2 h3 h4
    unfold CurNode
    simp only []
    rw [if_neg h1, if_neg h2, if_neg h3, if_neg h4]

theorem NextNode_type (M : ViewPointManager P) (L : LocalCoveragePlanner P) (next : Int) :
    (next = L.robot_viewpoint_ind_ → (NextNode M L next).type_ = NodeType.ROBOT) ∧
    (next ≠ L.robot_viewpoint_ind_ → next = L.lookahead_viewpoint_ind_ →
      (NextNode M L next).type_ = NodeType.LOOKAHEAD_POINT) ∧
    (next ≠ L.robot_viewpoint_ind_ → next ≠ L.lookahead_viewpoint_ind_ →
      next = L.start_viewpoint_ind_ → (NextNode M L next).type_ = NodeType.LOCAL_PATH_START) ∧
    (next ≠ L.robot_viewpoint_ind_ → next ≠ L.lookahead_viewpoint_ind_ →
      next ≠ L.start_viewpoint_ind_ → next = L.end_viewpoint_ind_ →
      (NextNode M L next).type_ = NodeType.LOCAL_PATH_END) ∧
    (next ≠ L.robot_viewpoint_ind_ → next ≠ L.lookahead_viewpoint_ind_ →
      next ≠ L.start_viewpoint_ind_ → next ≠ L.end_viewpoint_ind_ →
      (NextNode M L next).type_ = NodeType.LOCAL_VIEWPOINT) := by
  refine ⟨?_, ?_, ?_, ?_, ?_⟩
  · intro h1
    unfold NextNode
    simp only []
    rw [if_pos h1]
  · intro h1 h2
    unfold NextNode
    simp only []
    rw [if_neg h1, if_pos h2]
  · intro h1 h2 h3
    unfold NextNode
    simp only []
    rw [if_neg h1, if_neg h2, if_pos h3]
  · intro h1 h2 h3 h4
    unfold NextNode
    simp only []
    rw [if_neg h1, if_neg h2, if_neg h3, if_pos h4]
  · intro h1 h2 h3 h4
    unfold NextNode
    simp only []
    rw [if_neg h1, if_neg h2, if_neg h3, if_neg h4]

/-- C24: the nodes `SolveTSP` passes to `Append` are those of the consecutive tour pairs, each
pair starting with the node of `cur` and ending with the node of `next`.  The node of `cur` has
type `ROBOT` if `cur` is the robot anchor; else, if `cur` is the lookahead anchor,
`LOCAL_VIEWPOINT` when its surface gain exceeds `kMinAddPointNum` or its frontier gain exceeds
`kMinAddFrontierPointNum` and `LOOKAHEAD_POINT` otherwise; else `LOCAL_PATH_START` if `cur` is
the start anchor; else `LOCAL_PATH_END` if it is the end anchor; else `LOCAL_VIEWPOINT`.  The
node of `next` follows the same priority, with `LOOKAHEAD_POINT` for the lookahead anchor
whatever its gains. -/
theorem SolveTSP_node_types (E : Collaborators P) (M : ViewPointManager P)
    (L : LocalCoveragePlanner P) (selected ordered : List Int) :
    (SolveTSP E M L selected ordered).1 =
        ((ConsecutivePairs (TourViewPoints E M L selected)).flatMap
          (fun uv => SpecPairNodes M L uv.1 uv.2)).foldl E.Append [] ∧
    (∀ cur next : Int,
      (SpecPairNodes M L cur next).head? = some (CurNode M L cur) ∧
      (SpecPairNodes M L cur next).getLast? = some (NextNode M L next)) ∧
    (∀ cur : Int,
      (cur = L.robot_viewpoint_ind_ → (CurNode M L cur).type_ = NodeType.ROBOT) ∧
      (cur ≠ L.robot_viewpoint_ind_ → cur = L.lookahead_viewpoint_ind_ →
        (M.GetViewPointCoveredPointNum cur > L.kMinAddPointNum ∨
          M.GetViewPointCoveredFrontierPointNum cur > L.kMinAddFrontierPointNum) →
        (CurNode M L cur).type_ = NodeType.LOCAL_VIEWPOINT) ∧
      (cur ≠ L.robot_viewpoint_ind_ → cur = L.lookahead_viewpoint_ind_ →
        ¬ (M.GetViewPointCoveredPointNum cur > L.kMinAddPointNum ∨
          M.GetViewPointCoveredFrontierPointNum cur > L.kMinAddFrontierPointNum) →
        (CurNode M L cur).type_ = NodeType.LOOKAHEAD_POINT) ∧
      (cur ≠ L.robot_viewpoint_ind_ → cur ≠ L.lookahead_viewpoint_ind_ →
        cur = L.start_viewpoint_ind_ → (CurNode M L cur).type_ = NodeType.LOCAL_PATH_START) ∧
      (cur ≠ L.robot_viewpoint_ind_ → cur ≠ L.lookahead_viewpoint_ind_ →
        cur ≠ L.start_viewpoint_ind_ → cur = L.end_viewpoint_ind_ →
        (CurNode M L cur).type_ = NodeType.LOCAL_PATH_END) ∧
      (cur ≠ L.robot_viewpoint_ind_ → cur ≠ L.lookahead_viewpoint_ind_ →
        cur ≠ L.start_viewpoint_ind_ → cur ≠ L.end_viewpoint_ind_ →
        (CurNode M L cur).type_ = NodeType.LOCAL_VIEWPOINT)) ∧
    (∀ next : Int,
      (next = L.robot_viewpoint_ind_ → (NextNode M L next).type_ = NodeType.ROBOT) ∧
      (next ≠ L.robot_viewpoint_ind_ → next = L.lookahead_viewpoint_ind_ →
        (NextNode M L next).type_ = NodeType.LOOKAHEAD_POINT) ∧
      (next ≠ L.robot_viewpoint_ind_ → next ≠ L.lookahead_viewpoint_ind_ →
        next = L.start_viewpoint_ind_ →
        (NextNode M L next).type_ = NodeType.LOCAL_PATH_START) ∧
      (next ≠ L.robot_viewpoint_ind_ → next ≠ L.lookahead_viewpoint_ind_ →
        next ≠ L.start_viewpoint_ind_ → next = L.end_viewpoint_ind_ →
        (NextNode M L next).type_ = NodeType.LOCAL_PATH_END) ∧
      (next ≠ L.robot_viewpoint_ind_ → next ≠ L.lookahead_viewpoint_ind_ →
        next ≠ L.start_viewpoint_ind_ → next ≠ L.end_viewpoint_ind_ →
        (NextNode M L next).type_ = NodeType.LOCAL_VIEWPOINT)) :=
  ⟨SolveTSP_path_eq E M L selected ordered, SpecPairNodes_ends M L, CurNode_type M L,
    NextNode_type M L⟩

/-- Instance of C24: the lookahead anchor `3` with a surface gain of `2` above
`kMinAddPointNum = 1` gets type `LOCAL_VIEWPOINT` as `cur` and `LOOKAHEAD_POINT` as `next`. -/
theorem SolveTSP_node_types_witness :
    (CurNode RichManager SpreadPlanner 3).type_ = NodeType.LOCAL_VIEWPOINT ∧
    (NextNode RichManager SpreadPlanner 3).type_ = NodeType.LOOKAHEAD_POINT :=
  ⟨((SolveTSP_node_types DemoCollaborators RichManager SpreadPlanner [0, 1, 2, 3] []).2.2.1
      3).2.1 (by decide) rfl (Or.inl (by decide)),
    ((SolveTSP_node_types DemoCollaborators RichManager SpreadPlanner [0, 1, 2, 3] []).2.2.2
      3).2.1 (by decide) rfl⟩

/-! ## The shortest tour of the optimisation loop -/

theorem SolveTSP_fst_eq (E : Collaborators P) (M : ViewPointManager P)
    (L : LocalCoveragePlanner P) (sel ordered : List Int) :
    (SolveTSP E M L sel ordered).1 = SpecIterationPath E M L sel := by
  cases sel with
  | nil => rfl
  | cons a t => rfl

theorem SolveTSP_snd_eq (E : Collaborators P) (M : ViewPointManager P)
    (L : LocalCoveragePlanner P) (sel ordered : List Int)
    (h : (SpecIterationPath E M L sel).isEmpty = false) :
    (SolveTSP E M L sel ordered).2 = SpecIterationOrder E M L sel := by
  cases sel with
  | nil => exact absurd h (by simp [SpecIterationPath, SolveTSP])
  | cons a t => rfl

theorem getD_append_old {α : Type} (l : List α) (x d : α) (j : Nat) (hj : j < l.length) :
    (l ++ [x]).getD j d = l.getD j d := by
  rw [List.getD_eq_getElem?_getD, List.getD_eq_getElem?_getD, List.getElem?_append_left hj]

theorem getD_append_new {α : Type} (l : List α) (x d : α) :
    (l ++ [x]).getD l.length d = x := by
  rw [List.getD_eq_getElem?_getD, List.getElem?_append_right (le_refl _)]
  simp

/-- What an iteration of the optimisation loop that returns has kept. -/
theorem OptimizationItr_keeps (E : Collaborators P) (M : ViewPointManager P)
    (rd : Nat → Nat → Nat) (S : Sampling P) (st st' : Progress P) (itr : Nat)
    (h : OptimizationItr E M rd S st itr = Except.ok st') :
    ∃ sel : List Int,
      st'.solve_tsp_calls = st.solve_tsp_calls ++ [sel] ∧
      (((SpecIterationPath E M S.planner sel).isEmpty = false ∧
          ShorterThan (E.GetLength (SpecIterationPath E M S.planner sel))
            st.min_path_length = true ∧
          st'.min_path_length = some (E.GetLength (SpecIterationPath E M S.planner sel)) ∧
          st'.local_path = SpecIterationPath E M S.planner sel ∧
          st'.last_selected_viewpoint_indices_ = SpecIterationOrder E M S.planner sel) ∨
        (¬ ((SpecIterationPath E M S.planner sel).isEmpty = false ∧
            ShorterThan (E.GetLength (SpecIterationPath E M S.planner sel))
              st.min_path_length = true) ∧
          st'.min_path_length = st.min_path_length ∧
          st'.local_path = st.local_path ∧
          st'.last_selected_viewpoint_indices_ = st.last_selected_viewpoint_indices_)) := by
  unfold OptimizationItr at h
  simp only [] at h
  split at h
  · exact absurd h (by simp)
  · split at h
    · exact absurd h (by simp)
    · rename_i fq fc sel hsel
      refine ⟨E.UniquifyIntVector (sel ++ S.reused_viewpoint_indices ++
        S.navigation_viewpoint_indices), ?_⟩
      split_ifs at h with hc
      · simp only [Except.ok.injEq] at h
        subst h
        rw [SolveTSP_fst_eq] at hc
        exact ⟨rfl, Or.inl ⟨hc.1, hc.2, by
          show some (E.GetLength (SolveTSP E M S.planner _ _).1) = _
          rw [SolveTSP_fst_eq], SolveTSP_fst_eq E M S.planner _ _,
          SolveTSP_snd_eq E M S.planner _ _ hc.1⟩⟩
      · simp only [Except.ok.injEq] at h
        subst h
        rw [SolveTSP_fst_eq] at hc
        exact ⟨rfl, Or.inr ⟨hc, rfl, rfl, rfl⟩⟩

theorem OptimizationItr_KeepsShortest (E : Collaborators P) (M : ViewPointManager P)
    (rd : Nat → Nat → Nat) (S : Sampling P) (memory : List Int) (st st' : Progress P)
    (itr : Nat)
    (hst : KeepsShortest E M S.planner memory st)
    (h : OptimizationItr E M rd S st itr = Except.ok st') :
    KeepsShortest E M S.planner memory st' := by
  obtain ⟨sel, hcalls, hcase⟩ := OptimizationItr_keeps E M rd S st st' itr h
  unfold KeepsShortest
  rw [hcalls]
  rcases hst with ⟨hmin, hpath, hmem, hall⟩ | ⟨i, ⟨hi, hne, hle, hlt⟩, hmin, hpath, hmem⟩
  · rcases hcase with ⟨hne', _, hmin', hpath', hmem'⟩ | ⟨hno, hmin', hpath', hmem'⟩
    · right
      refine ⟨st.solve_tsp_calls.length, ⟨?_, ?_, ?_, ?_⟩, ?_, ?_, ?_⟩
      · simp
      · rw [getD_append_new]
        exact hne'
      · intro j hj hjne
        rw [getD_append_new]
        by_cases hjold : j < st.solve_tsp_calls.length
        · rw [getD_append_old _ _ _ _ hjold] at hjne
          have hmemj : st.solve_tsp_calls.getD j [] ∈ st.solve_tsp_calls := by
            rw [List.getD_eq_getElem _ _ hjold]
            exact List.getElem_mem _
          rw [hall _ hmemj] at hjne
          exact absurd hjne (by simp)
        · have hjeq : j = st.solve_tsp_calls.length := by
            simp only [List.length_append, List.length_singleton] at hj
            omega
          rw [hjeq, getD_append_new]
      · intro j hj hjne
        rw [getD_append_old _ _ _ _ hj] at hjne
        have hmemj : st.solve_tsp_calls.getD j [] ∈ st.solve_tsp_calls := by
          rw [List.getD_eq_getElem _ _ hj]
          exact List.getElem_mem _
        rw [hall _ hmemj] at hjne
        exact absurd hjne (by simp)
      · rw [getD_append_new]
        exact hmin'
      · rw [getD_append_new]
        exact hpath'
      · rw [getD_append_new]
        exact hmem'
    · left
      refine ⟨hmin'.trans hmin, hpath'.trans hpath, hmem'.trans hmem, ?_⟩
      intro sel' hsel'
      rcases List.mem_append.mp hsel' with hold | hnew
      · exact hall sel' hold
      · rw [List.mem_singleton] at hnew
        rw [hnew]
        rw [hmin] at hno
        cases hb : (SpecIterationPath E M S.planner sel).isEmpty with
        | true => rfl
        | false => exact absurd ⟨hb, rfl⟩ hno
  · rcases hcase with ⟨hne', hshort, hmin', hpath', hmem'⟩ | ⟨hno, hmin', hpath', hmem'⟩
    · rw [hmin] at hshort
      have hshort' : E.GetLength (SpecIterationPath E M S.planner sel) <
          E.GetLength (SpecIterationPath E M S.planner (st.solve_tsp_calls.getD i [])) := by
        simpa [ShorterThan] using hshort
      right
      refine ⟨st.solve_tsp_calls.length, ⟨?_, ?_, ?_, ?_⟩, ?_, ?_, ?_⟩
      · simp
      · rw [getD_append_new]
        exact hne'
      · intro j hj hjne
        rw [getD_append_new]
        by_cases hjold : j < st.solve_tsp_calls.length
        · rw [getD_append_old _ _ _ _ hjold] at hjne ⊢
          have := hle j hjold hjne
          omega
        · have hjeq : j = st.solve_tsp_calls.length := by
            simp only [List.length_append, List.length_singleton] at hj
            omega
          rw [hjeq, getD_append_new]
      · intro j hj hjne
        rw [getD_append_new]
        rw [getD_append_old _ _ _ _ hj] at hjne ⊢
        have := hle j hj hjne
        omega
      · rw [getD_append_new]
        exact hmin'
      · rw [getD_append_new]
        exact hpath'
      · rw [getD_append_new]
        exact hmem'
    · right
      refine ⟨i, ⟨?_, ?_, ?_, ?_⟩, ?_, ?_, ?_⟩
      · simp only [List.length_append, List.length_singleton]
        omega
      · rw [getD_append_old _ _ _ _ hi]
        exact hne
      · intro j hj hjne
        rw [getD_append_old _ _ _ _ hi]
        by_cases hjold : j < st.solve_tsp_calls.length
        · rw [getD_append_old _ _ _ _ hjold] at hjne ⊢
          exact hle j hjold hjne
        · have hjeq : j = st.solve_tsp_calls.length := by
            simp only [List.length_append, List.length_singleton] at hj
            omega
          rw [hjeq, getD_append_new] at hjne ⊢
          rw [hmin] at hno
          by_contra hgt
          apply hno
          refine ⟨hjne, ?_⟩
          simp only [ShorterThan, decide_eq_true_eq]
          omega
      · intro j hj hjne
        rw [getD_append_old _ _ _ _ hi]
        rw [getD_append_old _ _ _ _ (by omega)] at hjne ⊢
        exact hlt j hj hjne
      · rw [getD_append_old _ _ _ _ hi]
        exact hmin'.trans hmin
      · rw [getD_append_old _ _ _ _ hi]
        exact hpath'.trans hpath
      · rw [getD_append_old _ _ _ _ hi]
        exact hmem'.trans hmem

theorem foldlM_count {σ α : Type} (f : σ → α → Except Fault σ) (g : σ → Nat)
    (hstep : ∀ s a s', f s a = Except.ok s' → g s' = g s + 1) :
    ∀ (l : List α) (s s' : σ), l.foldlM f s = Except.ok s' → g s' = g s + l.length
  | [], s, s', h => by
    simp only [List.foldlM_nil, pure, Except.pure, Except.ok.injEq] at h
    rw [← h]
    rfl
  | a :: l, s, s', h => by
    rw [List.foldlM_cons] at h
    cases hf : f s a with
    | error e =>
      rw [hf] at h
      simp [bind, Except.bind] at h
    | ok s1 =>
      rw [hf] at h
      simp only [bind, Except.bind] at h
      rw [foldlM_count f g hstep l s1 s' h, hstep s a s1 hf, List.length_cons]
      omega

/-- C23: in the optimisation branch of `SolveLocalCoverageProblem` all
`kLocalPathOptimizationItrMax` iterations run, and the returned path is the path of the earliest
iteration whose path is non-empty and of minimal length among the non-empty paths of all
iterations; `last_selected_viewpoint_indices_` is the ordered id list of that same iteration.
When no iteration gives a non-empty path, the returned path is empty and
`last_selected_viewpoint_indices_` is as before the call. -/
theorem SolveLocalCoverageProblem_keeps_earliest_shortest (E : Collaborators P)
    (M : ViewPointManager P) (rd : Nat → Nat → Nat) (L : LocalCoveragePlanner P)
    (flags : Int → Bool) (global_path : List (Node P))
    (uncovered_point_num uncovered_frontier_point_num : Nat) (S : Sampling P)
    (res : Outcome P)
    (hS : SampleViewPoints E M L global_path uncovered_point_num
      uncovered_frontier_point_num = Except.ok S)
    (hbranch : OptimizationBranch S = true)
    (h : SolveLocalCoverageProblem E M rd L flags global_path uncovered_point_num
      uncovered_frontier_point_num = Except.ok res) :
    res.solve_tsp_calls.length = S.planner.kLocalPathOptimizationItrMax.toNat ∧
    ((∃ i, SpecKept E M S.planner res.solve_tsp_calls i ∧
        res.local_path = SpecIterationPath E M S.planner (res.solve_tsp_calls.getD i []) ∧
        res.planner.last_selected_viewpoint_indices_ =
          SpecIterationOrder E M S.planner (res.solve_tsp_calls.getD i [])) ∨
      ((∀ sel ∈ res.solve_tsp_calls, (SpecIterationPath E M S.planner sel).isEmpty = true) ∧
        res.local_path = [] ∧
        res.planner.last_selected_viewpoint_indices_ =
          L.last_selected_viewpoint_indices_)) := by
  obtain ⟨S', hS', hb⟩ := SolveLocalCoverageProblem_ok E M rd L flags global_path
    uncovered_point_num uncovered_frontier_point_num res h
  have hSS : S' = S := by
    rw [hS] at hS'
    exact (Except.ok.inj hS').symm
  rw [hSS] at hb
  have hpl := (SampleViewPoints_ok E M L global_path uncovered_point_num
    uncovered_frontier_point_num S hS).1
  have hkeep := (GetNavigationViewPointIndices_keeps M
    { L with local_coverage_complete_ := false } global_path []).2.1
  have hmemory : S.planner.last_selected_viewpoint_indices_ =
      L.last_selected_viewpoint_indices_ := by
    rw [hpl, hkeep]
  rcases hb with ⟨_, st, hst, hres⟩ | ⟨hfalse, _⟩
  · have hinv := foldlM_invariant (OptimizationItr E M rd S)
      (KeepsShortest E M S.planner S.planner.last_selected_viewpoint_indices_)
      (fun s itr s' hs hstep => OptimizationItr_KeepsShortest E M rd S _ s s' itr hs hstep)
      _ (InitialProgress S) st
      (Or.inl ⟨rfl, rfl, rfl, by intro sel hsel; simp [InitialProgress] at hsel⟩) hst
    have hcount := foldlM_count (OptimizationItr E M rd S)
      (fun st => st.solve_tsp_calls.length)
      (by
        intro s itr s' hstep
        obtain ⟨sel, hcalls, _⟩ := OptimizationItr_keeps E M rd S s s' itr hstep
        show s'.solve_tsp_calls.length = s.solve_tsp_calls.length + 1
        rw [hcalls, List.length_append, List.length_singleton])
      _ (InitialProgress S) st hst
    subst hres
    refine ⟨?_, ?_⟩
    · show st.solve_tsp_calls.length = _
      have h0 : (InitialProgress S).solve_tsp_calls.length = 0 := rfl
      simp only [h0, List.length_range, Nat.zero_add] at hcount
      exact hcount
    · rcases hinv with ⟨_, hpath, hmem, hall⟩ | ⟨i, hkept, _, hpath, hmem⟩
      · exact Or.inr ⟨hall, hpath, hmem.trans hmemory⟩
      · exact Or.inl ⟨i, hkept, hpath, hmem⟩
  · rw [hbranch] at hfalse
    exact absurd hfalse (by simp)

/-- Instance of C23: two iterations on the manager with nested coverage and a sample range of
`2`.  The first iteration selects `0, 1, 2`, the second, with other draws, `0, 1, 2, 3` and a
longer path; the path and the ordered list kept are those of the first iteration. -/
theorem SolveLocalCoverageProblem_keeps_earliest_shortest_witness :
    ∃ (S : Sampling Int) (res : Outcome Int),
      SampleViewPoints DemoCollaborators NestedManager RangeTwoPlanner [] 6 0 = Except.ok S ∧
      SolveLocalCoverageProblem DemoCollaborators NestedManager
        (fun c k => if c = 2 then (if k ≤ 1 then 1 else 0) else 0) RangeTwoPlanner
        (fun _ => false) [] 6 0 = Except.ok res ∧
      res.solve_tsp_calls = [[0, 1, 2], [0, 1, 2, 3]] ∧
      res.planner.last_selected_viewpoint_indices_ = [0, 1, 2] ∧
      res.local_path = SpecIterationPath DemoCollaborators NestedManager S.planner [0, 1, 2] ∧
      (res.solve_tsp_calls.length = S.planner.kLocalPathOptimizationItrMax.toNat ∧
      ((∃ i, SpecKept DemoCollaborators NestedManager S.planner res.solve_tsp_calls i ∧
          res.local_path = SpecIterationPath DemoCollaborators NestedManager S.planner
            (res.solve_tsp_calls.getD i []) ∧
          res.planner.last_selected_viewpoint_indices_ =
            SpecIterationOrder DemoCollaborators NestedManager S.planner
              (res.solve_tsp_calls.getD i [])) ∨
        ((∀ sel ∈ res.solve_tsp_calls,
            (SpecIterationPath DemoCollaborators NestedManager S.planner sel).isEmpty = true) ∧
          res.local_path = [] ∧
          res.planner.last_selected_viewpoint_indices_ =
            RangeTwoPlanner.last_selected_viewpoint_indices_))) :=
  ⟨_, _, rfl, rfl, by decide, by decide, by decide,
    SolveLocalCoverageProblem_keeps_earliest_shortest DemoCollaborators NestedManager
      (fun c k => if c = 2 then (if k ≤ 1 then 1 else 0) else 0) RangeTwoPlanner
      (fun _ => false) [] 6 0 _ _ rfl rfl rfl⟩

end local_coverage_planner_ns
